import Mathlib

/-!
# MagicSetEditor2: update checker, new-set wizard and font manager

A shallow embedding of `src/util/github_update_checker.cpp`,
`src/gui/new_set_wizard.cpp` and `src/util/font_manager.cpp`.

Stateful code is written as explicit state passing.  The file system and the
external programs (`curl`, `unzip`, `rm`, `mv`) are not part of the program:
the file system is a value of type `FileSys`, and the outcome of running an
external command is supplied by an oracle `exec` that maps the command line
and the current file system to an exit code, the captured output and the new
file system.
-/

namespace MSE

/-! ## File system -/

/-- The part of the operating system the program observes through wxWidgets:
regular files with their content, directories, and whether a path can be
opened for reading, opened for writing, or created as a directory. -/
structure FileSys where
  files : String → Option String
  dirs : String → Bool
  readable : String → Bool
  writable : String → Bool
  mkdirOk : String → Bool

/-- Library call `wxFileExists(path)`. -/
def wxFileExists (fs : FileSys) (path : String) : Bool :=
  (fs.files path).isSome

/-- Library call `wxDirExists(path)`. -/
def wxDirExists (fs : FileSys) (path : String) : Bool :=
  fs.dirs path

/-- Library call `wxFileName::Mkdir(dir, wxS_DIR_DEFAULT, wxPATH_MKDIR_FULL)`:
returns whether the directory could be created. -/
def wxMkdir (fs : FileSys) (dir : String) : Bool × FileSys :=
  if fs.mkdirOk dir then
    (true, { fs with dirs := fun p => if p = dir then true else fs.dirs p })
  else
    (false, fs)

/-- Library call `wxRemoveFile(path)`: the file is removed when it exists and
the path is writable; the program never looks at the result. -/
def wxRemoveFile (fs : FileSys) (path : String) : FileSys :=
  if (fs.files path).isSome && fs.writable path then
    { fs with files := fun p => if p = path then none else fs.files p }
  else
    fs

/-- Library call `wxCopyFile(src, dst)`: succeeds when the source is a
readable file and the destination can be opened for writing; the destination
then holds the content of the source. -/
def wxCopyFile (fs : FileSys) (src dst : String) : Bool × FileSys :=
  match fs.files src with
  | some content =>
    if fs.readable src && fs.writable dst then
      (true, { fs with files := fun p => if p = dst then some content else fs.files p })
    else
      (false, fs)
  | none => (false, fs)

/-- Character class of `wxSafeIsspace`, the test used by `wxString::Trim`:
the ASCII white space characters. -/
def wxIsSpace (c : Char) : Bool :=
  c.toNat = 32 || (9 ≤ c.toNat && c.toNat ≤ 13)

/-- Library call `wxString::Trim()` with its default argument: removes the
white space at the end of the string. -/
def Trim (s : String) : String :=
  String.mk (s.data.reverse.dropWhile wxIsSpace).reverse

/-- Library call `wxString::Lower()`. -/
def Lower (s : String) : String :=
  String.mk (s.data.map Char.toLower)

/-! ## JSON values (nlohmann::json) -/

/-- The value tree of the JSON library. -/
inductive Json where
  | null : Json
  | boolean : Bool → Json
  | number : Int → Json
  | str : String → Json
  | array : List Json → Json
  | object : List (String × Json) → Json

/-- Library call `json::contains(key)`: true only for an object that has the key. -/
def Json.contains : Json → String → Bool
  | .object kvs, key => (kvs.lookup key).isSome
  | _, _ => false

/-- Library call `json::operator[](key)` on a value known to contain the key. -/
def Json.at : Json → String → Json
  | .object kvs, key => (kvs.lookup key).getD .null
  | _, _ => .null

/-- Library call `json::type_name()`. -/
def Json.type_name : Json → String
  | .null => "null"
  | .boolean _ => "boolean"
  | .number _ => "number"
  | .str _ => "string"
  | .array _ => "array"
  | .object _ => "object"

/-- A `std::string` as far as its conversion to text matters: the UTF-8
encoding of a text, or a sequence of bytes that is not well-formed UTF-8. -/
inductive StdString where
  | utf8 (text : String) : StdString
  | illFormed (bytes : List Nat) : StdString
deriving DecidableEq, Repr

/-- Library call `wxString::FromUTF8`: the text that the bytes encode, and
the empty string for bytes that are not well-formed UTF-8. -/
def wxString.FromUTF8 : StdString → String
  | .utf8 text => text
  | .illFormed _ => ""

/-- Library call `json::get<std::string>()`: throws `type_error` 302 unless
the value is a string.  The message of the exception (`what()`) is ASCII
text. -/
def Json.getString : Json → Except StdString String
  | .str s => .ok s
  | j => .error
    (.utf8 ("[json.exception.type_error.302] type must be string, but is " ++ j.type_name))

/-! ## GitHubUpdateChecker : data -/

/-- Status enum for the update checker. -/
inductive Status where
  | IDLE | CHECKING | CHECK_COMPLETE | DOWNLOADING | DOWNLOAD_COMPLETE | ERROR
deriving DecidableEq, Repr

/-- Information about a file that needs updating. -/
structure FileUpdateInfo where
  path : String
  sha : String
  size : Nat
  isNew : Bool
deriving DecidableEq, Repr

/-- Result of update check. -/
structure UpdateCheckResult where
  success : Bool := false
  errorMessage : String := ""
  filesToUpdate : List FileUpdateInfo := []
  totalDownloadSize : Nat := 0
  fileCount : Int := 0
deriving DecidableEq, Repr

/-- Download progress data. -/
structure DownloadProgress where
  currentFile : Int := 0
  totalFiles : Int := 0
  bytesDownloaded : Nat := 0
  totalBytes : Nat := 0
  currentFileName : String := ""
deriving DecidableEq, Repr

/-- The fields of the singleton `GitHubUpdateChecker`. -/
structure GitHubUpdateChecker where
  status : Status := .IDLE
  result : UpdateCheckResult := {}
  progress : DownloadProgress := {}
deriving DecidableEq, Repr

/-- What one synchronous `wxExecute` call yields. -/
structure ExecResult where
  exitCode : Int
  output : List String
  fs : FileSys

/-- Everything outside the program that one call of the checker depends on:
the platform's application support directory, the behaviour of external
commands, and the JSON parser (`json::parse`, which either throws an
exception whose `what()` is a `std::string`, or yields a value). -/
structure Env where
  appSupportDir : String
  exec : String → FileSys → ExecResult
  parse : String → Except StdString Json

def GITHUB_REPO_INFO_URL : String :=
  "https://api.github.com/repos/MagicSetEditorPacks/Full-Magic-Pack/commits/main"

def GITHUB_ZIP_URL : String :=
  "https://github.com/MagicSetEditorPacks/Full-Magic-Pack/archive/refs/heads/main.zip"

def VERSION_MARKER_FILE : String := "pack_version.txt"

/-! ## GitHubUpdateChecker : helpers -/

/-- `GitHubUpdateChecker::getLocalDataDirectory`: creates the application
support directory when it is missing (a second attempt follows a failed
first one) and returns its path. -/
def getLocalDataDirectory (env : Env) (fs : FileSys) : String × FileSys :=
  let dir := env.appSupportDir
  if !wxDirExists fs dir then
    let r := wxMkdir fs dir
    if !r.1 then
      (dir, (wxMkdir r.2 dir).2)
    else
      (dir, r.2)
  else
    (dir, fs)

/-- Path of the marker file. -/
def markerPath (env : Env) : String :=
  env.appSupportDir ++ "/" ++ VERSION_MARKER_FILE

/-- `readLocalVersion`: the trimmed content of the marker file, or the empty
string when the file does not exist or cannot be opened. -/
def readLocalVersion (env : Env) (fs : FileSys) : String × FileSys :=
  let d := getLocalDataDirectory env fs
  let path := d.1 ++ "/" ++ VERSION_MARKER_FILE
  match d.2.files path with
  | none => ("", d.2)
  | some content =>
    if !d.2.readable path then ("", d.2)
    else (Trim content, d.2)

/-- `writeLocalVersion`: writes the SHA to the marker file when the file can
be opened for writing; otherwise does nothing. -/
def writeLocalVersion (env : Env) (fs : FileSys) (sha : String) : FileSys :=
  let d := getLocalDataDirectory env fs
  let path := d.1 ++ "/" ++ VERSION_MARKER_FILE
  if d.2.writable path then
    { d.2 with files := fun p => if p = path then some sha else d.2.files p }
  else
    d.2

/-- `localDataExists`: whether the data or the fonts folder exists. -/
def localDataExists (env : Env) (fs : FileSys) : Bool × FileSys :=
  let d := getLocalDataDirectory env fs
  (wxDirExists d.2 (d.1 ++ "/data") || wxDirExists d.2 (d.1 ++ "/Magic - Fonts"), d.2)

/-! ## GitHubUpdateChecker : startCheck -/

/-- The command line of the version query. -/
def checkCmd : String :=
  "curl -s -L \"" ++ GITHUB_REPO_INFO_URL ++ "\""

/-- The first locked block of `startCheck`: the busy guard, then
`status = CHECKING` and a fresh result.  `none` is the early return. -/
def startCheckEnter (c : GitHubUpdateChecker) : Option GitHubUpdateChecker :=
  if c.status = .CHECKING ∨ c.status = .DOWNLOADING then none
  else some { c with status := .CHECKING, result := {} }

/-- The `try` block of `startCheck` (parse, compare, store the result); an
exception is the `error` case and carries its `what()`.  (The parser accepts
only well-formed UTF-8, so a string value is text and `wxString::FromUTF8`
of it is that text.) -/
def startCheckTry (env : Env) (c : GitHubUpdateChecker) (localVersion : String)
    (hasLocalData : Bool) (jsonStr : String) : Except StdString GitHubUpdateChecker := do
  let commitData ← env.parse jsonStr
  if !commitData.contains "sha" then
    return { c with result := { c.result with errorMessage := "Invalid response from GitHub" },
                    status := .ERROR }
  let remoteSha ← (commitData.at "sha").getString
  let needsUpdate : Bool :=
    if !hasLocalData then true
    else if localVersion.isEmpty then true
    else if localVersion ≠ remoteSha then true
    else false
  let c1 : GitHubUpdateChecker :=
    if !hasLocalData then
      { c with result := { c.result with errorMessage := "Initial setup required" } }
    else c
  let r1 : UpdateCheckResult := { c1.result with success := true }
  let r2 : UpdateCheckResult :=
    if needsUpdate then
      let info : FileUpdateInfo :=
        { sha := remoteSha, path := "Full-Magic-Pack", size := 500 * 1024 * 1024,
          isNew := !hasLocalData }
      { r1 with filesToUpdate := r1.filesToUpdate ++ [info], fileCount := 1,
                totalDownloadSize := info.size }
    else
      { r1 with fileCount := 0, totalDownloadSize := 0 }
  return { c1 with result := r2, status := .CHECK_COMPLETE }

/-- The file system as `startCheck` sees it when it runs curl, together with
the local version and the local-data flag it has read by then. -/
def checkInputs (env : Env) (fs : FileSys) : String × Bool × FileSys :=
  let fs1 := (getLocalDataDirectory env fs).2
  let v := readLocalVersion env fs1
  let h := localDataExists env v.2
  (v.1, h.1, h.2)

/-- The body of `startCheck` after the guard.  The `catch` branch stores
`wxString::FromUTF8(e.what())`. -/
def startCheckBody (env : Env) (c : GitHubUpdateChecker) (fs : FileSys) :
    GitHubUpdateChecker × FileSys :=
  let inp := checkInputs env fs
  let localVersion := inp.1
  let hasLocalData := inp.2.1
  let r := env.exec checkCmd inp.2.2
  if r.exitCode ≠ 0 ∨ r.output.isEmpty then
    ({ c with result := { c.result with errorMessage := "Failed to connect to GitHub" },
              status := .ERROR }, r.fs)
  else
    let jsonStr := String.join r.output
    match startCheckTry env c localVersion hasLocalData jsonStr with
    | .ok c2 => (c2, r.fs)
    | .error what =>
      ({ c with result := { c.result with errorMessage := wxString.FromUTF8 what },
                status := .ERROR }, r.fs)

/-- `GitHubUpdateChecker::startCheck`. -/
def startCheck (env : Env) (c : GitHubUpdateChecker) (fs : FileSys) :
    GitHubUpdateChecker × FileSys :=
  match startCheckEnter c with
  | none => (c, fs)
  | some c1 => startCheckBody env c1 fs

/-! ## GitHubUpdateChecker : startDownload -/

/-- The first locked block of `startDownload`: the guard, then
`status = DOWNLOADING` and a fresh progress record.  `none` is the early
return. -/
def startDownloadEnter (c : GitHubUpdateChecker) : Option GitHubUpdateChecker :=
  if c.status ≠ .CHECK_COMPLETE ∨ c.result.filesToUpdate.isEmpty then none
  else some { c with status := .DOWNLOADING,
                     progress := { totalFiles := 1, currentFile := 1,
                                   currentFileName := "Full-Magic-Pack.zip" } }

/-- The expression `result.filesToUpdate[0].sha`; the guard of
`startDownload` makes the vector non-empty where it is evaluated. -/
def remoteShaOf (c : GitHubUpdateChecker) : String :=
  match c.result.filesToUpdate with
  | info :: _ => info.sha
  | [] => ""

/-- Runs `cmd` when `dir` exists, ignoring the exit code: the pattern
`if (wxDirExists(dir)) { wxExecute(cmd, ...); }`. -/
def execIfDir (env : Env) (fs : FileSys) (dir cmd : String) : FileSys :=
  if wxDirExists fs dir then (env.exec cmd fs).fs else fs

def rmCmd (dir : String) : String := "rm -rf \"" ++ dir ++ "\""

def mvCmd (src dst : String) : String := "mv \"" ++ src ++ "\" \"" ++ dst ++ "\""

def downloadCmd (zipPath : String) : String :=
  "curl -s -L -o \"" ++ zipPath ++ "\" \"" ++ GITHUB_ZIP_URL ++ "\""

def extractCmd (zipPath baseDir : String) : String :=
  "unzip -o -q \"" ++ zipPath ++ "\" -d \"" ++ baseDir ++ "\""

/-- The part of `startDownload` after a successful extraction: replace the
old folders by the extracted ones, clean up, save the version marker. -/
def installExtracted (env : Env) (fs : FileSys) (baseDir zipPath remoteSha : String) : FileSys :=
  let extractedDir := baseDir ++ "/Full-Magic-Pack-main"
  let oldDataDir := baseDir ++ "/data"
  let oldFontsDir := baseDir ++ "/Magic - Fonts"
  let newDataDir := extractedDir ++ "/data"
  let newFontsDir := extractedDir ++ "/Magic - Fonts"
  let fs := execIfDir env fs oldDataDir (rmCmd oldDataDir)
  let fs := execIfDir env fs oldFontsDir (rmCmd oldFontsDir)
  let fs := execIfDir env fs newDataDir (mvCmd newDataDir oldDataDir)
  let fs := execIfDir env fs newFontsDir (mvCmd newFontsDir oldFontsDir)
  let fs := wxRemoveFile fs zipPath
  let fs := execIfDir env fs extractedDir (rmCmd extractedDir)
  writeLocalVersion env fs remoteSha

/-- The body of `startDownload` after the guard. -/
def startDownloadBody (env : Env) (c : GitHubUpdateChecker) (fs : FileSys) :
    GitHubUpdateChecker × FileSys :=
  let remoteSha := remoteShaOf c
  let d := getLocalDataDirectory env fs
  let baseDir := d.1
  let zipPath := baseDir ++ "/Full-Magic-Pack.zip"
  let c := { c with progress :=
    { c.progress with currentFileName := "Downloading Full-Magic-Pack.zip..." } }
  let r := env.exec (downloadCmd zipPath) d.2
  if r.exitCode ≠ 0 ∨ !wxFileExists r.fs zipPath then
    ({ c with result := { c.result with errorMessage := "Failed to download update" },
              status := .ERROR }, r.fs)
  else
    let c := { c with progress := { c.progress with currentFileName := "Extracting files..." } }
    let r2 := env.exec (extractCmd zipPath baseDir) r.fs
    if r2.exitCode ≠ 0 then
      ({ c with result := { c.result with errorMessage := "Failed to extract update" },
                status := .ERROR }, wxRemoveFile r2.fs zipPath)
    else
      let fs := installExtracted env r2.fs baseDir zipPath remoteSha
      ({ c with progress := { c.progress with bytesDownloaded := c.progress.totalBytes },
                status := .DOWNLOAD_COMPLETE }, fs)

/-- `GitHubUpdateChecker::startDownload`. -/
def startDownload (env : Env) (c : GitHubUpdateChecker) (fs : FileSys) :
    GitHubUpdateChecker × FileSys :=
  match startDownloadEnter c with
  | none => (c, fs)
  | some c1 => startDownloadBody env c1 fs

/-! ## Sequences of calls -/

/-- A call of one of the two operations, with the outside world it meets. -/
inductive Call where
  | check (env : Env)
  | download (env : Env)

/-- Runs one call. -/
def Call.run : Call → GitHubUpdateChecker × FileSys → GitHubUpdateChecker × FileSys
  | .check env, s => startCheck env s.1 s.2
  | .download env, s => startDownload env s.1 s.2

/-- Runs a sequence of calls on one thread. -/
def runCalls : List Call → GitHubUpdateChecker × FileSys → GitHubUpdateChecker × FileSys
  | [], s => s
  | call :: rest, s => runCalls rest (call.run s)

/-- The status transitions (old value, new value) made by one call, one for
each assignment to `status`, in order. -/
def Call.edges : Call → GitHubUpdateChecker × FileSys → List (Status × Status)
  | .check env, s =>
    match startCheckEnter s.1 with
    | none => []
    | some c1 => [(s.1.status, c1.status), (c1.status, (startCheckBody env c1 s.2).1.status)]
  | .download env, s =>
    match startDownloadEnter s.1 with
    | none => []
    | some c1 => [(s.1.status, c1.status), (c1.status, (startDownloadBody env c1 s.2).1.status)]

/-- The status transitions made by a sequence of calls. -/
def runEdges : List Call → GitHubUpdateChecker × FileSys → List (Status × Status)
  | [], _ => []
  | call :: rest, s => call.edges s ++ runEdges rest (call.run s)

/-- Whether a call returns at its guard without doing anything. -/
def Call.returnsEarly : Call → GitHubUpdateChecker → Bool
  | .check _, c => (startCheckEnter c).isNone
  | .download _, c => (startDownloadEnter c).isNone

/-! ## FontManager (font_manager.cpp) -/

/-- Library call `wxFileName(path).GetFullName()`: the last component of the
path, that is, what follows the last path separator. -/
def GetFullName (path : String) : String :=
  String.mk (path.data.reverse.takeWhile (fun c => c ≠ '/')).reverse

/-- `FontManager::installFontFile`, given the user font directory of the
platform (`getUserFontDirectory`). -/
def installFontFile (userFontDir : String) (fs : FileSys) (sourcePath : String) :
    Bool × FileSys :=
  let fs := if !wxDirExists fs userFontDir then (wxMkdir fs userFontDir).2 else fs
  let destPath := userFontDir ++ "/" ++ GetFullName sourcePath
  if wxFileExists fs destPath then (true, fs)
  else wxCopyFile fs sourcePath destPath

/-! ## FontManager : directories and discovery -/

/-- The three build targets the source distinguishes with `#if`. -/
inductive Platform where
  | APPLE | WXMSW | OTHER
deriving DecidableEq, Repr

/-- An entry of a directory as `wxDir` enumerates it: a file, or a
sub-directory with its own entries and whether it can be opened. -/
inductive DirEntry where
  | file (name : String) : DirEntry
  | dir (name : String) (openable : Bool) (contents : List DirEntry) : DirEntry

/-- What the font manager gets from the platform: the build target, the
directories reported by `wxGetHomeDir` and `wxStandardPaths`, the result of
`wxFileName(dataDir)` after `RemoveLastDir()` (`dataDirUp`), the directory of
the executable, and for a directory path the entries `wxDir` enumerates
(`none` when the directory cannot be opened). -/
structure FontEnv where
  platform : Platform
  homeDir : String
  userLocalDataDir : String
  dataDir : String
  dataDirUp : String
  exeDir : String
  openDir : String → Option (List DirEntry)

/-- `FontManager::getUserFontDirectory`. -/
def getUserFontDirectory (env : FontEnv) : String :=
  match env.platform with
  | .APPLE => env.homeDir ++ "/Library/Fonts"
  | .WXMSW => env.userLocalDataDir ++ "\\Microsoft\\Windows\\Fonts"
  | .OTHER => env.homeDir ++ "/.local/share/fonts"

/-- `FontManager::getBundledFontsDirectory`. -/
def getBundledFontsDirectory (env : FontEnv) (fs : FileSys) : String :=
  let fontsDir := env.dataDir ++ "/Magic - Fonts"
  if wxDirExists fs fontsDir then fontsDir
  else
    let fontsDir := env.dataDirUp ++ "/Magic - Fonts"
    if wxDirExists fs fontsDir then fontsDir
    else env.exeDir ++ "/Magic - Fonts"

/-- Library call `wxFileName(path).GetExt()`: what follows the last dot of
the last path component; a dot that starts the component does not count. -/
def GetExt (path : String) : String :=
  let name := (GetFullName path).data
  let afterDot := name.reverse.takeWhile (fun c => c ≠ '.')
  if afterDot.length + 1 < name.length then String.mk afterDot.reverse else ""

/-- `FontFileTraverser::OnFile`: appends the file to `fonts` when its
lower-cased extension is "ttf" or "otf" (and returns `wxDIR_CONTINUE`). -/
def OnFile (fonts : List String) (filename : String) : List String :=
  let ext := Lower (GetExt filename)
  if ext = "ttf" ∨ ext = "otf" then fonts ++ [filename] else fonts

/-- The second pass of `wxDir::Traverse`: `OnFile` for every file of the
directory, in order. -/
def traverseFiles (pre : String) : List DirEntry → List String → List String
  | [], fonts => fonts
  | .file name :: rest, fonts => traverseFiles pre rest (OnFile fonts (pre ++ name))
  | .dir _ _ _ :: rest, fonts => traverseFiles pre rest fonts

mutual
/-- The first pass of `wxDir::Traverse` for one entry: for a sub-directory
`OnDir` answers `wxDIR_CONTINUE`, so it is traversed (its sub-directories
first, then its files) when it can be opened and skipped when it cannot
(`OnOpenError` is not overridden and answers `wxDIR_IGNORE`). -/
def traverseDirEntry (pre : String) : DirEntry → List String → List String
  | .file _, fonts => fonts
  | .dir name openable contents, fonts =>
    if openable then
      traverseFiles (pre ++ name ++ "/") contents
        (traverseDirs (pre ++ name ++ "/") contents fonts)
    else fonts
/-- The first pass of `wxDir::Traverse` over the entries of a directory. -/
def traverseDirs (pre : String) : List DirEntry → List String → List String
  | [], fonts => fonts
  | e :: rest, fonts => traverseDirs pre rest (traverseDirEntry pre e fonts)
end

/-- Library call `wxDir::Traverse(traverser)` with the `FontFileTraverser`:
sub-directories first, then the files of the directory itself. -/
def wxDirTraverse (pre : String) (entries : List DirEntry) (fonts : List String) : List String :=
  traverseFiles pre entries (traverseDirs pre entries fonts)

/-- `FontManager::findAllFonts`. -/
def findAllFonts (env : FontEnv) (fs : FileSys) (directory : String) : List String :=
  if !wxDirExists fs directory then []
  else
    match env.openDir directory with
    | none => []
    | some entries => wxDirTraverse (directory ++ "/") entries []

/-! ## FontManager : installation check and installation -/

/-- `FontManager::isFontFileInstalled`. -/
def isFontFileInstalled (env : FontEnv) (fs : FileSys) (fontFileName : String) : Bool :=
  wxFileExists fs (getUserFontDirectory env ++ "/" ++ GetFullName fontFileName)

/-- The loop of `countMissingFonts`, with the counter `missing`. -/
def countMissingLoop (env : FontEnv) (fs : FileSys) : List String → Int → Int
  | [], missing => missing
  | fontPath :: rest, missing =>
    if !isFontFileInstalled env fs fontPath then countMissingLoop env fs rest (missing + 1)
    else countMissingLoop env fs rest missing

/-- `FontManager::countMissingFonts`. -/
def countMissingFonts (env : FontEnv) (fs : FileSys) : Int :=
  countMissingLoop env fs (findAllFonts env fs (getBundledFontsDirectory env fs)) 0

/-- The loop of `installAllFonts`, with the counter `installed`. -/
def installLoop (env : FontEnv) : List String → Int → FileSys → Int × FileSys
  | [], installed, fs => (installed, fs)
  | fontPath :: rest, installed, fs =>
    let r := installFontFile (getUserFontDirectory env) fs fontPath
    if r.1 then installLoop env rest (installed + 1) r.2
    else installLoop env rest installed r.2

/-- What `installAllFonts` leaves behind: its return value, the file system,
and whether it called `refreshFontCache`. -/
structure InstallOutcome where
  installed : Int
  fs : FileSys
  cacheRefreshed : Bool

/-- `FontManager::installAllFonts`. -/
def installAllFonts (env : FontEnv) (fs : FileSys) : InstallOutcome :=
  let allFonts := findAllFonts env fs (getBundledFontsDirectory env fs)
  let r := installLoop env allFonts 0 fs
  { installed := r.1, fs := r.2, cacheRefreshed := decide (r.1 > 0) }

/-- For each font that `installAllFonts` visits, in order: whether its
destination existed when it was visited, and what `installFontFile`
returned for it. -/
def installTrace (env : FontEnv) : List String → FileSys → List (Bool × Bool)
  | [], _ => []
  | fontPath :: rest, fs =>
    (isFontFileInstalled env fs fontPath,
      (installFontFile (getUserFontDirectory env) fs fontPath).1) ::
      installTrace env rest (installFontFile (getUserFontDirectory env) fs fontPath).2

/-- Whether a path has a font extension, as `OnFile` tests it. -/
def isFontPath (path : String) : Bool :=
  decide (Lower (GetExt path) = "ttf" ∨ Lower (GetExt path) = "otf")

/-- The files that lie directly in a directory, with their paths. -/
def ownFiles (pre : String) : List DirEntry → List String
  | [] => []
  | .file name :: rest => (pre ++ name) :: ownFiles pre rest
  | .dir _ _ _ :: rest => ownFiles pre rest

mutual
/-- The files below one sub-directory entry that can be reached through
directories that can be opened (sub-directories first, then own files). -/
def reachableBelowEntry (pre : String) : DirEntry → List String
  | .file _ => []
  | .dir name openable contents =>
    if openable then
      reachableBelowList (pre ++ name ++ "/") contents ++ ownFiles (pre ++ name ++ "/") contents
    else []
/-- The files below the sub-directories among the entries that can be
reached through directories that can be opened. -/
def reachableBelowList (pre : String) : List DirEntry → List String
  | [] => []
  | e :: rest => reachableBelowEntry pre e ++ reachableBelowList pre rest
end

/-- All files under a directory that can be reached through sub-directories
that can be opened. -/
def reachableFiles (pre : String) (entries : List DirEntry) : List String :=
  reachableBelowList pre entries ++ ownFiles pre entries

mutual
/-- All files below one sub-directory entry, whether or not the directories
can be opened. -/
def allBelowEntry (pre : String) : DirEntry → List String
  | .file _ => []
  | .dir name _ contents =>
    allBelowList (pre ++ name ++ "/") contents ++ ownFiles (pre ++ name ++ "/") contents
/-- All files below the sub-directories among the entries. -/
def allBelowList (pre : String) : List DirEntry → List String
  | [] => []
  | e :: rest => allBelowEntry pre e ++ allBelowList pre rest
end

/-- All files anywhere under a directory (sub-directories included). -/
def allFiles (pre : String) (entries : List DirEntry) : List String :=
  allBelowList pre entries ++ ownFiles pre entries

mutual
/-- Whether every sub-directory of the entry can be opened. -/
def allOpenableEntry : DirEntry → Bool
  | .file _ => true
  | .dir _ openable contents => openable && allOpenableList contents
/-- Whether every sub-directory below the entries can be opened. -/
def allOpenableList : List DirEntry → Bool
  | [] => true
  | e :: rest => allOpenableEntry e && allOpenableList rest
end

/-! ## JSON helpers (json_parser.cpp) -/

/-- One call `stream.Read(buffer, sizeof(buffer))`: the bytes it delivered
(`LastRead()` of them, at most 4096) and whether `stream.Eof()` holds
afterwards.  A stream is the list of its reads; once the list is used up a
further read delivers nothing and reports the end of the stream. -/
structure StreamRead where
  data : String
  eof : Bool
deriving DecidableEq, Repr

/-- The loop `while (!stream.Eof())` of `parse_json_stream`, with the string
`data` read so far. -/
def readStream : List StreamRead → String → String
  | [], data => data
  | r :: rest, data =>
    let data := if r.data.length > 0 then data ++ r.data else data
    if r.eof then data else readStream rest data

/-- `parse_json_stream`: both `catch` clauses return the empty object. -/
def parse_json_stream (parse : String → Except String Json) (stream : List StreamRead) : Json :=
  match parse (readStream stream "") with
  | .ok j => j
  | .error _ => Json.object []

/-- `parse_json_string`, given the conversion `wxString::ToStdString`; both
`catch` clauses return the empty object. -/
def parse_json_string (toStdString : String → String) (parse : String → Except String Json)
    (str : String) : Json :=
  match parse (toStdString str) with
  | .ok j => j
  | .error _ => Json.object []

/-- The reads of a stream up to and including the first one that reports the
end of the stream. -/
def readsUntilEof : List StreamRead → List StreamRead
  | [] => []
  | r :: rest => if r.eof then [r] else r :: readsUntilEof rest

/-! ## GitHubUpdateChecker : postponing -/

/-- `GitHubUpdateChecker::postponeUpdate`: "No longer using timed postpone",
the body is empty. -/
def postponeUpdate (s : GitHubUpdateChecker × FileSys) : GitHubUpdateChecker × FileSys := s

/-- `GitHubUpdateChecker::isPostponed`: "Always return false". -/
def isPostponed (_s : GitHubUpdateChecker × FileSys) : Bool := false

/-! ## Concrete worlds used to exercise the definitions -/

/-- An empty file system on which every operation is permitted. -/
def emptyFs : FileSys :=
  { files := fun _ => none, dirs := fun _ => false, readable := fun _ => true,
    writable := fun _ => true, mkdirOk := fun _ => true }

/-- The response of the commit-info endpoint used in the examples. -/
def shaResponse : String := "\x7b\"sha\":\"abc123\"\x7d"

/-- A parser that understands exactly one response. -/
def parseSha (s : String) : Except String Json :=
  if s = shaResponse then .ok (.object [("sha", .str "abc123")])
  else .error "[json.exception.parse_error.101] parse error"

/-- The parser `parseSha` as `json::parse`: its message is ASCII text. -/
def parseShaStd (s : String) : Except StdString Json :=
  match parseSha s with
  | .ok j => .ok j
  | .error what => .error (.utf8 what)

def exampleDir : String := "/home/u/.local/share/MSE3"

/-- External commands that all succeed: curl prints the commit object or
places the zip file, unzip creates the extracted data folder, mv moves it. -/
def goodExec (cmd : String) (fs : FileSys) : ExecResult :=
  if cmd = checkCmd then
    ExecResult.mk 0 [shaResponse] fs
  else if cmd = downloadCmd (exampleDir ++ "/Full-Magic-Pack.zip") then
    ExecResult.mk 0 [] { fs with
      files := fun p => if p = exampleDir ++ "/Full-Magic-Pack.zip" then some "PK" else fs.files p }
  else if cmd = extractCmd (exampleDir ++ "/Full-Magic-Pack.zip") exampleDir then
    ExecResult.mk 0 [] { fs with
      dirs := fun p =>
        if p = exampleDir ++ "/Full-Magic-Pack-main" then true
        else if p = exampleDir ++ "/Full-Magic-Pack-main/data" then true
        else fs.dirs p }
  else if cmd = mvCmd (exampleDir ++ "/Full-Magic-Pack-main/data") (exampleDir ++ "/data") then
    ExecResult.mk 0 [] { fs with
      dirs := fun p =>
        if p = exampleDir ++ "/data" then true
        else if p = exampleDir ++ "/Full-Magic-Pack-main/data" then false
        else fs.dirs p }
  else if cmd = rmCmd (exampleDir ++ "/Full-Magic-Pack-main") then
    ExecResult.mk 0 [] { fs with
      dirs := fun p => if p = exampleDir ++ "/Full-Magic-Pack-main" then false else fs.dirs p }
  else
    ExecResult.mk 0 [] fs

/-- A world in which every command succeeds. -/
def goodEnv : Env := Env.mk exampleDir goodExec parseShaStd

/-- A world without network: every command fails with exit code 7 and
prints nothing. -/
def offlineEnv : Env :=
  Env.mk exampleDir (fun _ fs => ExecResult.mk 7 [] fs) parseShaStd

/-- A world whose endpoint answers with an object that has no "sha". -/
def noShaEnv : Env :=
  Env.mk exampleDir goodExec (fun _ => .ok (.object [("message", .str "Not Found")]))

/-- A world whose endpoint answers with text that is not JSON. -/
def garbageEnv : Env :=
  Env.mk exampleDir goodExec
    (fun _ => .error (.utf8 "[json.exception.parse_error.101] parse error"))

/-- The message of the parse error for a response that starts with the
letter e with acute accent (bytes 195, 169): the parser reports the byte it
read last, 195, between quotes, and a lone byte 195 is not well-formed
UTF-8. -/
def nonAsciiWhat : StdString :=
  .illFormed
    (("[json.exception.parse_error.101] parse error at line 1, column 1: ".data.map Char.toNat)
      ++ ("syntax error while parsing value - invalid literal; last read: ".data.map Char.toNat)
      ++ [39, 195, 39])

/-- A world whose endpoint answers with text that starts with a letter
outside ASCII. -/
def nonAsciiEnv : Env :=
  Env.mk exampleDir (fun _ fs => ExecResult.mk 0 ["\u00e9rreur"] fs)
    (fun _ => .error nonAsciiWhat)

/-- A world whose endpoint answers with a numeric "sha". -/
def numericShaEnv : Env :=
  Env.mk exampleDir goodExec (fun _ => .ok (.object [("sha", .number 5)]))

/-- A world in which the download works and unzip fails with exit code 9. -/
def badZipEnv : Env :=
  Env.mk exampleDir
    (fun cmd fs =>
      if cmd = extractCmd (exampleDir ++ "/Full-Magic-Pack.zip") exampleDir then
        ExecResult.mk 9 [] fs
      else goodExec cmd fs)
    parseShaStd

/-- The checker after a check that found the pack "abc123" to be new. -/
def pendingChecker : GitHubUpdateChecker :=
  { status := .CHECK_COMPLETE
    result :=
      { success := true, errorMessage := "Initial setup required",
        filesToUpdate :=
          [{ path := "Full-Magic-Pack", sha := "abc123", size := 524288000, isNew := true }],
        totalDownloadSize := 524288000, fileCount := 1 } }

/-- An empty file system in which the marker file cannot be opened for
writing (everything else is permitted). -/
def lockedFs : FileSys :=
  { emptyFs with writable := fun p => !(p == exampleDir ++ "/pack_version.txt") }

/-- A world like `goodEnv` in which every `mv` fails with exit code 1 and
moves nothing. -/
def mvFailEnv : Env :=
  Env.mk exampleDir
    (fun cmd fs =>
      if cmd = mvCmd (exampleDir ++ "/Full-Magic-Pack-main/data") (exampleDir ++ "/data") then
        ExecResult.mk 1 [] fs
      else goodExec cmd fs)
    parseShaStd

/-! ## StyledPackageGrid (new_set_wizard.cpp) -/

/-- The fields of a package (class `Packaged`) that the grid reads. The
wizard fills a list from a pattern that ends in the extension of one package
type, so every entry of a list has the type the list is read with. -/
structure Packaged where
  name : String
  short_name : String
  full_name : String
  position_hint : Int
deriving DecidableEq, Repr

/-- Entry of the grid: `StyledPackageGrid::PackageData`; `image` is the
loaded bitmap, if any. -/
structure PackageData where
  package : Packaged
  image : Option String := none
  imageLoaded : Bool := false
deriving DecidableEq, Repr

/-- The value `(size_t)-1` that stands for "no selection". -/
def NO_SELECTION : Nat := 2 ^ 64 - 1

/-- The fields of `StyledPackageGrid`. -/
structure StyledPackageGrid where
  allPackages : List PackageData := []
  filteredIndices : List Nat := []
  currentSearchText : String := ""
  selection : Nat := NO_SELECTION
  columnCount : Nat := 4
deriving DecidableEq, Repr

/-- The scroll position (in scroll units) and client size of a grid window at
the time of an event; they belong to the window system and are an input of
the handlers that read them. -/
structure View where
  viewStartY : Int
  clientWidth : Int
  clientHeight : Int
deriving DecidableEq, Repr

def ITEM_WIDTH : Int := 140
def ITEM_HEIGHT : Int := 170
def ITEM_SPACING : Int := 16

/-- A rectangle `wxRect(x, y, width, height)`. -/
structure wxRect where
  x : Int := 0
  y : Int := 0
  width : Int := 0
  height : Int := 0
deriving DecidableEq, Repr

/-- `StyledPackageGrid::hasSelection`. -/
def StyledPackageGrid.hasSelection (g : StyledPackageGrid) : Bool :=
  decide (g.selection < g.filteredIndices.length)

/-- `StyledPackageGrid::getSelection<T>`: the selected package, if any. -/
def StyledPackageGrid.getSelection (g : StyledPackageGrid) : Option Packaged :=
  if !g.hasSelection then none
  else
    match g.filteredIndices[g.selection]? with
    | none => none
    | some i => (g.allPackages[i]?).map (fun d => d.package)

/-- The search of `find`: the first position at or after `i` where `needle`
starts, `none` for `npos`. -/
def findFrom (needle : List Char) : Nat → List Char → Option Nat
  | i, [] => if needle.isEmpty then some i else none
  | i, c :: cs => if needle.isPrefixOf (c :: cs) then some i else findFrom needle (i + 1) cs

/-- Library call `haystack.find(needle)`. -/
def wxFind (haystack needle : String) : Option Nat :=
  findFrom needle.data 0 haystack.data

/-- The comparator handed to `std::sort` in `showData`. -/
def packageLess (a b : PackageData) : Bool :=
  if a.package.position_hint ≠ b.package.position_hint then
    decide (a.package.position_hint < b.package.position_hint)
  else
    decide (a.package.name < b.package.name)

/-- One insertion step of the sort. -/
def insertPackage (a : PackageData) : List PackageData → List PackageData
  | [] => [a]
  | b :: rest => if packageLess b a then b :: insertPackage a rest else a :: b :: rest

/-- Library call `std::sort(allPackages.begin(), allPackages.end(), less)`;
entries that the comparator does not distinguish keep their relative order. -/
def sortPackages : List PackageData → List PackageData
  | [] => []
  | a :: rest => insertPackage a (sortPackages rest)

/-- The loop `for (i = 0; i < allPackages.size(); ++i) filteredIndices.push_back(i)`,
started at index `i` with the entries from `i` on. -/
def allIndicesFrom : Nat → List PackageData → List Nat
  | _, [] => []
  | i, _ :: rest => i :: allIndicesFrom (i + 1) rest

/-- The matching loop of `filter`, started at index `i` with the entries
from `i` on. -/
def matchingIndicesFrom (needle : String) : Nat → List PackageData → List Nat
  | _, [] => []
  | i, pkg :: rest =>
    let name := Lower pkg.package.short_name
    let fullName := Lower pkg.package.full_name
    if (wxFind name needle).isSome || (wxFind fullName needle).isSome then
      i :: matchingIndicesFrom needle (i + 1) rest
    else
      matchingIndicesFrom needle (i + 1) rest

/-- `StyledPackageGrid::showData`, given the packages found by the package
manager for the pattern.  (Layout and repaint requests do not touch the
fields.) -/
def StyledPackageGrid.showData (g : StyledPackageGrid) (matching : List Packaged) :
    StyledPackageGrid :=
  let all := sortPackages (matching.map (fun p => { package := p, imageLoaded := false }))
  { g with allPackages := all, filteredIndices := allIndicesFrom 0 all,
           selection := NO_SELECTION, currentSearchText := "" }

/-- `StyledPackageGrid::filter`; it always ends by sending a select event. -/
def StyledPackageGrid.filter (g : StyledPackageGrid) (searchText : String) : StyledPackageGrid :=
  let text := Lower searchText
  let indices :=
    if text.isEmpty then allIndicesFrom 0 g.allPackages
    else matchingIndicesFrom text 0 g.allPackages
  let selection :=
    if g.selection ≥ indices.length then (if indices.isEmpty then NO_SELECTION else 0)
    else g.selection
  { g with currentSearchText := text, filteredIndices := indices, selection := selection }

/-- `StyledPackageGrid::clear`. -/
def StyledPackageGrid.clear (g : StyledPackageGrid) : StyledPackageGrid :=
  { g with allPackages := [], filteredIndices := [], selection := NO_SELECTION }

/-- The loop of `select`: the first position at or after `i` of the filtered
view whose package has the given name. -/
def findByName (all : List PackageData) (name : String) : Nat → List Nat → Option Nat
  | _, [] => none
  | i, idx :: rest =>
    match all[idx]? with
    | some d => if d.package.name = name then some i else findByName all name (i + 1) rest
    | none => findByName all name (i + 1) rest

/-- `StyledPackageGrid::select`: the new grid and whether a select event is
sent.  (Scrolling to the selection changes only the view of the window.) -/
def StyledPackageGrid.select (g : StyledPackageGrid) (name : String) (send_event : Bool) :
    StyledPackageGrid × Bool :=
  match findByName g.allPackages name 0 g.filteredIndices with
  | some i => ({ g with selection := i }, send_event)
  | none => ({ g with selection := NO_SELECTION }, false)

/-- `StyledPackageGrid::getItemRect`. -/
def StyledPackageGrid.getItemRect (g : StyledPackageGrid) (v : View) (index : Nat) : wxRect :=
  if index ≥ g.filteredIndices.length then {}
  else
    let cols : Int := g.columnCount
    let row : Int := ((index / g.columnCount : Nat) : Int)
    let col : Int := ((index % g.columnCount : Nat) : Int)
    let totalWidth := v.clientWidth
    let gridWidth := cols * ITEM_WIDTH + (cols - 1) * ITEM_SPACING
    let startX := (totalWidth - gridWidth).tdiv 2
    let x := startX + col * (ITEM_WIDTH + ITEM_SPACING)
    let y := ITEM_SPACING + row * (ITEM_HEIGHT + ITEM_SPACING)
    { x := x, y := y, width := ITEM_WIDTH, height := ITEM_HEIGHT }

/-- The loop of `findItemAt` over the positions `i, i+1, ..` (`n` of them). -/
def findItemLoop (columnCount : Nat) (startX x scrolledY : Int) : Nat → Nat → Nat
  | _, 0 => NO_SELECTION
  | i, n + 1 =>
    let row : Int := ((i / columnCount : Nat) : Int)
    let col : Int := ((i % columnCount : Nat) : Int)
    let itemX := startX + col * (ITEM_WIDTH + ITEM_SPACING)
    let itemY := ITEM_SPACING + row * (ITEM_HEIGHT + ITEM_SPACING)
    if x ≥ itemX ∧ x < itemX + ITEM_WIDTH ∧ scrolledY ≥ itemY ∧ scrolledY < itemY + ITEM_HEIGHT
    then i
    else findItemLoop columnCount startX x scrolledY (i + 1) n

/-- `StyledPackageGrid::findItemAt`. -/
def StyledPackageGrid.findItemAt (g : StyledPackageGrid) (v : View) (x y : Int) : Nat :=
  let cols : Int := g.columnCount
  let gridWidth := cols * ITEM_WIDTH + (cols - 1) * ITEM_SPACING
  let startX := (v.clientWidth - gridWidth).tdiv 2
  let scrolledY := y + v.viewStartY * 20
  findItemLoop g.columnCount startX x scrolledY 0 g.filteredIndices.length

/-- `StyledPackageGrid::onLeftDown` and `onLeftDClick` up to the event they
send: the new grid and whether the event (select, respectively activate) is
sent. -/
def StyledPackageGrid.onLeftClick (g : StyledPackageGrid) (v : View) (x y : Int) :
    StyledPackageGrid × Bool :=
  let item := g.findItemAt v x y
  if item < g.filteredIndices.length then ({ g with selection := item }, true)
  else (g, false)

/-- Whether two rectangles share a pixel (library call `wxRect::Intersects`). -/
def wxRect.Intersects (a b : wxRect) : Bool :=
  decide (a.x < b.x + b.width ∧ b.x < a.x + a.width ∧ a.y < b.y + b.height ∧ b.y < a.y + a.height)

/-- Library call `wxRect::Contains(x, y)`: whether the point lies inside the
rectangle. -/
def wxRect.Contains (r : wxRect) (x y : Int) : Bool :=
  decide (x ≥ r.x ∧ y ≥ r.y ∧ y - r.y < r.height ∧ x - r.x < r.width)

/-! ## StyledPackageGrid : lazy loading of the icons -/

/-- What loading an icon depends on: `Packaged::openIconFile` (the stream, if
the icon file can be opened) and `image_load_file` (the decoded image, if the
stream holds one). -/
structure IconEnv where
  openIconFile : Packaged → Option String
  image_load_file : String → Option String

/-- `StyledPackageGrid::loadImageForItem`: the item afterwards, and whether
the package's icon file was opened. -/
def loadImageForItem (env : IconEnv) (item : PackageData) : PackageData × Bool :=
  if item.imageLoaded then (item, false)
  else
    let item := { item with imageLoaded := true }
    match env.openIconFile item.package with
    | none => (item, true)
    | some stream =>
      match env.image_load_file stream with
      | none => (item, true)
      | some img => ({ item with image := some img }, true)

/-- The loop of `onPaint` over the positions `i, i+1, ..` (`n` of them) of the
filtered view, as far as it touches the fields: the grid afterwards and, in
order, the indices (into `allPackages`) of the items whose icon file was
opened. -/
def paintItems (env : IconEnv) (v : View) :
    Nat → Nat → StyledPackageGrid → List Nat → StyledPackageGrid × List Nat
  | _, 0, g, opened => (g, opened)
  | i, n + 1, g, opened =>
    let rect := g.getItemRect v i
    let scrollY := v.viewStartY * 20
    let clientHeight := v.clientHeight
    if rect.y + rect.height < scrollY ∨ rect.y > scrollY + clientHeight then
      paintItems env v (i + 1) n g opened
    else
      match g.filteredIndices[i]? with
      | none => paintItems env v (i + 1) n g opened
      | some idx =>
        match g.allPackages[idx]? with
        | none => paintItems env v (i + 1) n g opened
        | some pkg =>
          if !pkg.imageLoaded then
            let r := loadImageForItem env pkg
            paintItems env v (i + 1) n { g with allPackages := g.allPackages.set idx r.1 }
              (if r.2 then opened ++ [idx] else opened)
          else
            paintItems env v (i + 1) n g opened

/-- `StyledPackageGrid::onPaint`. -/
def StyledPackageGrid.onPaint (env : IconEnv) (g : StyledPackageGrid) (v : View) :
    StyledPackageGrid × List Nat :=
  paintItems env v 0 g.filteredIndices.length g []

/-- What can happen to a grid between two calls of `showData`. -/
inductive GridOp where
  | paint (v : View)
  | filter (searchText : String)
  | select (name : String) (send_event : Bool)
  | leftClick (v : View) (x y : Int)
  | clear

/-- Runs one operation: the grid afterwards and the icon files opened. -/
def GridOp.run (env : IconEnv) : GridOp → StyledPackageGrid → StyledPackageGrid × List Nat
  | .paint v, g => g.onPaint env v
  | .filter searchText, g => (g.filter searchText, [])
  | .select name send_event, g => ((g.select name send_event).1, [])
  | .leftClick v x y, g => ((g.onLeftClick v x y).1, [])
  | .clear, g => (g.clear, [])

/-- Runs a sequence of operations and collects the icon files opened. -/
def runGridOps (env : IconEnv) : List GridOp → StyledPackageGrid → StyledPackageGrid × List Nat
  | [], g => (g, [])
  | op :: rest, g =>
    let r := op.run env g
    let r2 := runGridOps env rest r.1
    (r2.1, r.2 ++ r2.2)

/-! ## StyledPackageGrid : public calls and mouse events -/

/-- The calls and events through which a grid changes: the public member
functions `showData` (with the packages the package manager finds for the
pattern), `filter`, `clear` and `select`, the two mouse handlers, and
painting. -/
inductive GridCall where
  | showData (matching : List Packaged)
  | filter (searchText : String)
  | clear
  | select (name : String) (send_event : Bool)
  | onLeftDown (v : View) (x y : Int)
  | onLeftDClick (v : View) (x y : Int)
  | onPaint (env : IconEnv) (v : View)

/-- Runs one call on a grid. -/
def GridCall.run : GridCall → StyledPackageGrid → StyledPackageGrid
  | .showData matching, g => g.showData matching
  | .filter searchText, g => g.filter searchText
  | .clear, g => g.clear
  | .select name send_event, g => (g.select name send_event).1
  | .onLeftDown v x y, g => (g.onLeftClick v x y).1
  | .onLeftDClick v x y, g => (g.onLeftClick v x y).1
  | .onPaint env v, g => (g.onPaint env v).1

/-- Runs a sequence of calls on a grid. -/
def runGridCalls : List GridCall → StyledPackageGrid → StyledPackageGrid
  | [], g => g
  | call :: rest, g => runGridCalls rest (call.run g)

/-- The index safety of a grid: every filtered index points into
`allPackages`, the filtered indices increase strictly, and the selection is
`(size_t)-1` or a position of the filtered view. -/
def StyledPackageGrid.indexSafe (g : StyledPackageGrid) : Prop :=
  (∀ idx ∈ g.filteredIndices, idx < g.allPackages.length) ∧
  g.filteredIndices.Pairwise (fun a b => a < b) ∧
  (g.selection = NO_SELECTION ∨ g.selection < g.filteredIndices.length)

/-! ## SearchablePackageList and NewSetWizard (new_set_wizard.cpp) -/

/-- The fields of `SearchablePackageList`; `searchBoxText` is the value of
the text control of its search box. -/
structure SearchablePackageList where
  styledGrid : StyledPackageGrid := {}
  searchBoxText : String := ""
  currentPattern : String := ""
  searchText : String := ""
deriving DecidableEq, Repr

/-- `SearchablePackageList::hasSelection`. -/
def SearchablePackageList.hasSelection (l : SearchablePackageList) : Bool :=
  l.styledGrid.hasSelection

inductive WizardStep where
  | STEP_SELECT_GAME | STEP_SELECT_STYLE
deriving DecidableEq, Repr

/-- The part of the global `settings` the wizard uses: the default game and,
per game name, the default stylesheet. -/
structure Settings where
  default_game : String
  default_stylesheet : String → String

/-- What the wizard needs from outside: the package manager's
`findMatching`, the type names `Game::typeNameStatic()` and
`StyleSheet::typeNameStatic()`, whether `wxTextCtrl::Clear` sends a text
event on this platform, and whether loading a stylesheet fully, constructing
the new set from it and validating the new set succeed. -/
structure WizardEnv where
  findMatching : String → List Packaged
  gameTypeName : String
  styleTypeName : String
  clearSendsText : Bool
  loadFullyOk : Packaged → Bool
  constructOk : Packaged → Bool
  validateOk : Packaged → Bool

/-- The fields of `NewSetWizard` together with the state of its buttons and
panels, the result of `EndModal`, and the global settings. -/
structure NewSetWizard where
  currentStep : WizardStep := .STEP_SELECT_GAME
  gameList : SearchablePackageList := {}
  styleList : SearchablePackageList := {}
  gameNextEnabled : Bool := true
  styleCreateEnabled : Bool := true
  gamePanelShown : Bool := true
  stylePanelShown : Bool := true
  selectedGame : Option Packaged := none
  set : Option Packaged := none
  modalResult : Option Int := none
  settings : Settings

/-- The two package lists of the wizard, by their window id. -/
inductive ListId where
  | ID_WIZARD_GAME_LIST | ID_WIZARD_STYLE_LIST
deriving DecidableEq, Repr

def NewSetWizard.list (w : NewSetWizard) : ListId → SearchablePackageList
  | .ID_WIZARD_GAME_LIST => w.gameList
  | .ID_WIZARD_STYLE_LIST => w.styleList

def NewSetWizard.setList (w : NewSetWizard) : ListId → SearchablePackageList → NewSetWizard
  | .ID_WIZARD_GAME_LIST, l => { w with gameList := l }
  | .ID_WIZARD_STYLE_LIST, l => { w with styleList := l }

/-- `NewSetWizard::updateButtonStates`. -/
def NewSetWizard.updateButtonStates (w : NewSetWizard) : NewSetWizard :=
  if w.currentStep = .STEP_SELECT_GAME then
    { w with gameNextEnabled := w.gameList.hasSelection }
  else
    { w with styleCreateEnabled := w.styleList.hasSelection }

/-- `NewSetWizard::showStep`. -/
def NewSetWizard.showStep (w : NewSetWizard) (step : WizardStep) : NewSetWizard :=
  let w := { w with currentStep := step,
                    gamePanelShown := decide (step = WizardStep.STEP_SELECT_GAME),
                    stylePanelShown := decide (step = WizardStep.STEP_SELECT_STYLE) }
  w.updateButtonStates

/-- `NewSetWizard::onGameSelect`. -/
def NewSetWizard.onGameSelect (w : NewSetWizard) : NewSetWizard :=
  w.updateButtonStates

/-- `NewSetWizard::onStyleSelect`. -/
def NewSetWizard.onStyleSelect (w : NewSetWizard) : NewSetWizard :=
  let w :=
    if w.styleList.hasSelection then
      match w.selectedGame, w.styleList.styledGrid.getSelection with
      | some game, some stylesheet =>
        { w with settings := { w.settings with
            default_stylesheet := fun g =>
              if g = game.name then stylesheet.name else w.settings.default_stylesheet g } }
      | _, _ => w
    else w
  w.updateButtonStates

/-- The event table for `EVT_GALLERY_SELECT`: a select event sent by a grid
reaches the handler registered for the id of its list. -/
def NewSetWizard.onSelectEvent (w : NewSetWizard) : ListId → NewSetWizard
  | .ID_WIZARD_GAME_LIST => w.onGameSelect
  | .ID_WIZARD_STYLE_LIST => w.onStyleSelect

/-- `SearchablePackageList::filterBySearch` called on one of the lists of the
wizard, with the select event that `filter` sends. -/
def NewSetWizard.filterBySearch (w : NewSetWizard) (id : ListId) (text : String) :
    NewSetWizard :=
  let l := w.list id
  let l := { l with searchText := text, styledGrid := l.styledGrid.filter text }
  (w.setList id l).onSelectEvent id

/-- `SearchablePackageList::showDataInternal` on one of the lists of the
wizard: clears the search box (which, where the platform sends a text event
for it, runs the change callback `filterBySearch` with the now empty text),
then loads the grid. -/
def NewSetWizard.showDataInternal (env : WizardEnv) (w : NewSetWizard) (id : ListId)
    (pattern : String) : NewSetWizard :=
  let l := w.list id
  let w := w.setList id { l with currentPattern := pattern, searchText := "",
                                 searchBoxText := "" }
  let w := if env.clearSendsText then w.filterBySearch id "" else w
  let l := w.list id
  w.setList id { l with styledGrid := l.styledGrid.showData (env.findMatching pattern) }

/-- `SearchablePackageList::select` on one of the lists of the wizard, with
the select event it may send. -/
def NewSetWizard.selectInList (w : NewSetWizard) (id : ListId) (name : String)
    (send_event : Bool) : NewSetWizard :=
  let l := w.list id
  let r := l.styledGrid.select name send_event
  let w := w.setList id { l with styledGrid := r.1 }
  if r.2 then w.onSelectEvent id else w

/-- `NewSetWizard::onUpdateUI` for the two buttons it handles, followed by
the window applying the requested state to the button. -/
def NewSetWizard.onUpdateUI (w : NewSetWizard) (forCreateButton : Bool) : NewSetWizard :=
  if forCreateButton then { w with styleCreateEnabled := w.styleList.hasSelection }
  else { w with gameNextEnabled := w.gameList.hasSelection }

/-- The constructor `NewSetWizard::NewSetWizard`. -/
def NewSetWizard.create (env : WizardEnv) (settings : Settings) : NewSetWizard :=
  let w : NewSetWizard := { settings := settings }
  let w := w.showStep .STEP_SELECT_GAME
  let w := w.showDataInternal env .ID_WIZARD_GAME_LIST ("*" ++ ".mse-" ++ env.gameTypeName)
  let w := w.selectInList .ID_WIZARD_GAME_LIST w.settings.default_game true
  let w := w.onUpdateUI false
  w.onUpdateUI true

/-- `NewSetWizard::onGameNext`.  (The selected game is read after the guard
`hasSelection`; the branch without a package stands for an index out of
range.) -/
def NewSetWizard.onGameNext (env : WizardEnv) (w : NewSetWizard) : NewSetWizard :=
  if !w.gameList.hasSelection then w
  else
    match w.gameList.styledGrid.getSelection with
    | none => w
    | some game =>
      let w := { w with selectedGame := some game,
                        settings := { w.settings with default_game := game.name } }
      let w := w.showDataInternal env .ID_WIZARD_STYLE_LIST
        (game.name ++ "-*" ++ ".mse-" ++ env.styleTypeName)
      let w := w.selectInList .ID_WIZARD_STYLE_LIST
        (w.settings.default_stylesheet game.name) true
      w.showStep .STEP_SELECT_STYLE

/-- `NewSetWizard::onGameActivate`. -/
def NewSetWizard.onGameActivate (env : WizardEnv) (w : NewSetWizard) : NewSetWizard :=
  if w.gameList.hasSelection then w.onGameNext env else w

/-- `NewSetWizard::done`: an `Error` raised while loading the stylesheet,
constructing the set or validating it is handled and the dialog stays open;
`set` is assigned before `validate` runs. -/
def NewSetWizard.done (env : WizardEnv) (w : NewSetWizard) : NewSetWizard :=
  if !w.styleList.hasSelection then w
  else
    match w.styleList.styledGrid.getSelection with
    | none => w
    | some stylesheet =>
      if !env.loadFullyOk stylesheet then w
      else if !env.constructOk stylesheet then w
      else
        let w := { w with set := some stylesheet }
        if !env.validateOk stylesheet then w
        else { w with modalResult := some 5100 }

/-- `NewSetWizard::onStyleActivate`. -/
def NewSetWizard.onStyleActivate (env : WizardEnv) (w : NewSetWizard) : NewSetWizard :=
  if w.styleList.hasSelection then w.done env else w

/-- `NewSetWizard::onStyleBack`. -/
def NewSetWizard.onStyleBack (w : NewSetWizard) : NewSetWizard :=
  w.showStep .STEP_SELECT_GAME

/-- `NewSetWizard::onStyleCreate`. -/
def NewSetWizard.onStyleCreate (env : WizardEnv) (w : NewSetWizard) : NewSetWizard :=
  w.done env

/-- The events the wizard and its child windows handle. -/
inductive WizardEvent where
  | leftDown (id : ListId) (v : View) (x y : Int)
  | leftDClick (id : ListId) (v : View) (x y : Int)
  | searchText (id : ListId) (text : String)
  | clickNext
  | clickBack
  | clickCreate
  | updateUI (forCreateButton : Bool)
  | idle

/-- One event, from the window that receives it to the wizard's handler. -/
def NewSetWizard.handle (env : WizardEnv) (w : NewSetWizard) : WizardEvent → NewSetWizard
  | .leftDown id v x y =>
    let l := w.list id
    let r := l.styledGrid.onLeftClick v x y
    let w := w.setList id { l with styledGrid := r.1 }
    if r.2 then w.onSelectEvent id else w
  | .leftDClick id v x y =>
    let l := w.list id
    let r := l.styledGrid.onLeftClick v x y
    let w := w.setList id { l with styledGrid := r.1 }
    if r.2 then
      match id with
      | .ID_WIZARD_GAME_LIST => w.onGameActivate env
      | .ID_WIZARD_STYLE_LIST => w.onStyleActivate env
    else w
  | .searchText id text =>
    let l := w.list id
    (w.setList id { l with searchBoxText := text }).filterBySearch id text
  | .clickNext => if w.gameNextEnabled then w.onGameNext env else w
  | .clickBack => w.onStyleBack
  | .clickCreate => if w.styleCreateEnabled then w.onStyleCreate env else w
  | .updateUI forCreateButton => w.onUpdateUI forCreateButton
  | .idle => w

/-- A sequence of events, handled in order. -/
def NewSetWizard.handleAll (env : WizardEnv) : NewSetWizard → List WizardEvent → NewSetWizard
  | w, [] => w
  | w, ev :: rest => NewSetWizard.handleAll env (w.handle env ev) rest

/-- The forward button of the current step is enabled only if the list of
that step has a selection (the invariant behind C2). -/
def NewSetWizard.forwardOk (w : NewSetWizard) : Prop :=
  (w.currentStep = .STEP_SELECT_GAME → w.gameNextEnabled = true →
    w.gameList.hasSelection = true) ∧
  (w.currentStep = .STEP_SELECT_STYLE → w.styleCreateEnabled = true →
    w.styleList.hasSelection = true)

/-- The second wizard keeps the step, the panels and the selected game of the
first (what handlers other than `showStep` and `onGameNext` leave alone). -/
def NewSetWizard.sameStep (w w2 : NewSetWizard) : Prop :=
  w2.currentStep = w.currentStep ∧ w2.gamePanelShown = w.gamePanelShown ∧
  w2.stylePanelShown = w.stylePanelShown ∧ w2.selectedGame = w.selectedGame

/-- `ShowModal`: the dialog handles events until `EndModal` has been called;
the events end when the user closes the dialog. -/
def NewSetWizard.showModal (env : WizardEnv) : NewSetWizard → List WizardEvent → NewSetWizard
  | w, [] => w
  | w, ev :: rest =>
    if w.modalResult.isSome then w
    else NewSetWizard.showModal env (w.handle env ev) rest

/-- The entry point `new_set_wizard`: constructs the wizard, shows it, and
returns its `set`. -/
def new_set_wizard (env : WizardEnv) (settings : Settings) (events : List WizardEvent) :
    Option Packaged :=
  (NewSetWizard.showModal env (NewSetWizard.create env settings) events).set

/-- The default stylesheet stored for each game is the one of the settings
`settings0` or the name of a stylesheet that the package manager lists for
that game. -/
def NewSetWizard.defaultsBelong (env : WizardEnv) (settings0 : Settings) (w : NewSetWizard) :
    Prop :=
  ∀ game : String,
    w.settings.default_stylesheet game = settings0.default_stylesheet game ∨
    ∃ p ∈ env.findMatching (game ++ "-*" ++ ".mse-" ++ env.styleTypeName),
      p.name = w.settings.default_stylesheet game

/-- The style list holds only stylesheets that the package manager lists
for the selected game. -/
def NewSetWizard.stylesOfSelectedGame (env : WizardEnv) (w : NewSetWizard) : Prop :=
  ∀ game, w.selectedGame = some game →
    ∀ d ∈ w.styleList.styledGrid.allPackages,
      d.package ∈ env.findMatching (game.name ++ "-*" ++ ".mse-" ++ env.styleTypeName)

/-- The second wizard has the stored default stylesheets, the selected game
and the packages of the style list of the first. -/
def NewSetWizard.sameStyles (w w2 : NewSetWizard) : Prop :=
  w2.settings.default_stylesheet = w.settings.default_stylesheet ∧
  w2.selectedGame = w.selectedGame ∧
  w2.styleList.styledGrid.allPackages = w.styleList.styledGrid.allPackages

/-! ## OnboardingWindow (onboarding_window.cpp) -/

/-- The steps of the onboarding window (enum `Step`). -/
inductive OnboardingStep where
  | STEP_FONTS | STEP_UPDATES
deriving DecidableEq, Repr

/-- State of the update checking step (enum `UpdateState`). -/
inductive UpdateState where
  | UPDATE_IDLE | UPDATE_CHECKING | UPDATE_AVAILABLE | UPDATE_DOWNLOADING
  | UPDATE_COMPLETE | UPDATE_ERROR | UPDATE_UP_TO_DATE | UPDATE_POSTPONED
deriving DecidableEq, Repr

/-- An `OnboardingButton`: its label and whether it is shown. -/
structure OnboardingButton where
  label : String
  shown : Bool := true
deriving DecidableEq, Repr

/-- The fields of `OnboardingWindow` with the text of its labels and the
state of its buttons.  Three fields record what the window has done:
`checksStarted` counts the calls of `startCheck` it has made,
`welcomeWindowsShown` the welcome windows it has shown, and `closed` whether
`Close()` has been called.  The initial values are those of the constructor's
initialiser list and widget creation. -/
structure OnboardingWindow where
  currentStep : OnboardingStep := .STEP_FONTS
  updateState : UpdateState := .UPDATE_IDLE
  missingFontCount : Int := 0
  titleLabel : String := ""
  statusLabel : String := ""
  actionButton : OnboardingButton := { label := "" }
  continueButton : OnboardingButton := { label := "Continue" }
  checksStarted : Nat := 0
  welcomeWindowsShown : Nat := 0
  closed : Bool := false
deriving DecidableEq, Repr

/-- The window together with the singletons it works on: the update checker
and the file system. -/
structure OnboardingWorld where
  window : OnboardingWindow
  checker : GitHubUpdateChecker
  fs : FileSys

/-- The expression `result.filesToUpdate[0].isNew`. -/
def isNewOfFirst (result : UpdateCheckResult) : Bool :=
  match result.filesToUpdate with
  | info :: _ => info.isNew
  | [] => false

/-- `OnboardingWindow::updateFontsStep`. -/
def OnboardingWorld.updateFontsStep (fenv : FontEnv) (s : OnboardingWorld) : OnboardingWorld :=
  let w := { s.window with titleLabel := "Font Installation" }
  let w := { w with missingFontCount := countMissingFonts fenv s.fs }
  let w :=
    if w.missingFontCount > 0 then
      { w with
        statusLabel := toString w.missingFontCount ++ " fonts are available for installation",
        actionButton :=
          { label := "Install " ++ toString w.missingFontCount ++ " Fonts", shown := true } }
    else
      { w with statusLabel := "All fonts are installed",
               actionButton := { w.actionButton with shown := false } }
  { s with window := { w with continueButton := { w.continueButton with label := "Get Started" } } }

/-- The part of `updateUpdatesStep` after `startCheck` has returned: the
window is set from the status and the result of the checker. -/
def showCheckOutcome (w : OnboardingWindow) (c : GitHubUpdateChecker) : OnboardingWindow :=
  let status := c.status
  if status = .CHECK_COMPLETE then
    let result := c.result
    if result.fileCount > 0 then
      let w := { w with updateState := .UPDATE_AVAILABLE }
      let isInitial := isNewOfFirst result
      let w :=
        if isInitial then
          { w with statusLabel := "Data pack not installed. Download required (~500 MB)",
                   actionButton := { w.actionButton with label := "Download Now" } }
        else
          { w with statusLabel := "Updates available (~500 MB)",
                   actionButton := { w.actionButton with label := "Download Updates" } }
      { w with actionButton := { w.actionButton with shown := true },
               continueButton := { label := "Skip", shown := true } }
    else
      { w with updateState := .UPDATE_UP_TO_DATE,
               statusLabel := "Data pack is up to date",
               actionButton := { w.actionButton with shown := false },
               continueButton := { label := "Continue", shown := true } }
  else if status = .ERROR then
    { w with updateState := .UPDATE_ERROR,
             statusLabel := "Error: " ++ c.result.errorMessage,
             actionButton := { w.actionButton with shown := false },
             continueButton := { label := "Continue", shown := true } }
  else w

/-- `OnboardingWindow::updateUpdatesStep`. -/
def OnboardingWorld.updateUpdatesStep (env : Env) (s : OnboardingWorld) : OnboardingWorld :=
  let w := { s.window with
    titleLabel := "Data Pack",
    updateState := .UPDATE_CHECKING,
    statusLabel := "Checking for updates...",
    actionButton := { s.window.actionButton with shown := false },
    continueButton := { s.window.continueButton with shown := false } }
  let r := startCheck env s.checker s.fs
  let w := { w with checksStarted := w.checksStarted + 1 }
  { window := showCheckOutcome w r.1, checker := r.1, fs := r.2 }

/-- `OnboardingWindow::showStep`. -/
def OnboardingWorld.showStep (env : Env) (fenv : FontEnv) (s : OnboardingWorld)
    (step : OnboardingStep) : OnboardingWorld :=
  let s := { s with window := { s.window with currentStep := step } }
  match step with
  | .STEP_FONTS => s.updateFontsStep fenv
  | .STEP_UPDATES => s.updateUpdatesStep env

/-- The constructor `OnboardingWindow::OnboardingWindow`, run with the
checker and the file system as they are at that moment. -/
def OnboardingWorld.create (env : Env) (fenv : FontEnv) (checker : GitHubUpdateChecker)
    (fs : FileSys) : OnboardingWorld :=
  OnboardingWorld.showStep env fenv { window := {}, checker := checker, fs := fs } .STEP_UPDATES

/-- `OnboardingWindow::onActionButton`. -/
def OnboardingWorld.onActionButton (env : Env) (fenv : FontEnv) (s : OnboardingWorld) :
    OnboardingWorld :=
  if s.window.currentStep = .STEP_UPDATES ∧ s.window.updateState = .UPDATE_AVAILABLE then
    let w := { s.window with
      updateState := .UPDATE_DOWNLOADING,
      actionButton := { s.window.actionButton with shown := false },
      continueButton := { s.window.continueButton with shown := false },
      statusLabel := "Starting download..." }
    let r := startDownload env s.checker s.fs
    { window := w, checker := r.1, fs := r.2 }
  else if s.window.currentStep = .STEP_FONTS then
    let out := installAllFonts fenv s.fs
    let s : OnboardingWorld := { s with fs := out.fs }
    if out.installed > 0 then
      let w : OnboardingWindow :=
        { s.window with missingFontCount := countMissingFonts fenv s.fs }
      let w : OnboardingWindow :=
        if w.missingFontCount = 0 then
          { w with
            statusLabel := "All fonts installed successfully.\nPlease restart your computer and relaunch the app to see the new fonts.",
            actionButton := { w.actionButton with shown := false } }
        else
          { w with
            statusLabel := toString w.missingFontCount ++ " fonts remaining",
            actionButton :=
              { w.actionButton with
                label := "Install " ++ toString w.missingFontCount ++ " Fonts" } }
      { s with window := w }
    else s
  else s

/-- `OnboardingWindow::onComplete`: shows a welcome window and closes this
window.  (The locale it loads first is not part of the window.) -/
def OnboardingWorld.onComplete (s : OnboardingWorld) : OnboardingWorld :=
  { s with window :=
    { s.window with welcomeWindowsShown := s.window.welcomeWindowsShown + 1, closed := true } }

/-- `OnboardingWindow::onContinue`. -/
def OnboardingWorld.onContinue (env : Env) (fenv : FontEnv) (s : OnboardingWorld) :
    OnboardingWorld :=
  match s.window.currentStep with
  | .STEP_UPDATES => s.showStep env fenv .STEP_FONTS
  | .STEP_FONTS => s.onComplete

/-- `OnboardingWindow::onIdle`. -/
def OnboardingWorld.onIdle (s : OnboardingWorld) : OnboardingWorld :=
  if s.window.currentStep ≠ .STEP_UPDATES ∨ s.window.updateState ≠ .UPDATE_DOWNLOADING then s
  else
    match s.checker.status with
    | .DOWNLOADING =>
      { s with window := { s.window with statusLabel := s.checker.progress.currentFileName } }
    | .DOWNLOAD_COMPLETE =>
      { s with window := { s.window with
          updateState := .UPDATE_COMPLETE,
          statusLabel := "Data pack installed successfully!",
          actionButton := { s.window.actionButton with shown := false },
          continueButton := { label := "Continue", shown := true } } }
    | .ERROR =>
      { s with window := { s.window with
          updateState := .UPDATE_ERROR,
          statusLabel := "Error: " ++ s.checker.result.errorMessage,
          actionButton := { s.window.actionButton with shown := false },
          continueButton := { label := "Continue", shown := true } } }
    | _ => s

/-- The events of the window's event table. -/
inductive OnboardingEvent where
  | paint
  | clickAction
  | clickContinue
  | idle
deriving DecidableEq, Repr

/-- Dispatch of one event by the event table; `env` is the outside world the
update checker meets while the handler runs. -/
def OnboardingWorld.handle (fenv : FontEnv) (s : OnboardingWorld) :
    Env × OnboardingEvent → OnboardingWorld
  | (_, .paint) => s
  | (env, .clickAction) => s.onActionButton env fenv
  | (env, .clickContinue) => s.onContinue env fenv
  | (_, .idle) => s.onIdle

/-- Dispatch of a sequence of events. -/
def OnboardingWorld.handleAll (fenv : FontEnv) :
    OnboardingWorld → List (Env × OnboardingEvent) → OnboardingWorld
  | s, [] => s
  | s, ev :: rest => OnboardingWorld.handleAll fenv (s.handle fenv ev) rest

/-- Two games, as the package manager would list them. -/
def exampleGames : List Packaged :=
  [{ name := "vs", short_name := "VS", full_name := "VS System", position_hint := 2 },
   { name := "magic", short_name := "Magic", full_name := "Magic the Gathering",
     position_hint := 1 }]

/-- A package manager that knows two games and one stylesheet per pattern. -/
def exampleWizardEnv : WizardEnv :=
  { findMatching := fun pattern =>
      if pattern = "*.mse-game" then exampleGames
      else [{ name := "magic-new", short_name := "New", full_name := "Modern frame",
              position_hint := 1 }]
    gameTypeName := "game"
    styleTypeName := "style"
    clearSendsText := true
    loadFullyOk := fun _ => true
    constructOk := fun _ => true
    validateOk := fun _ => true }

/-- Settings that name "magic" as the default game. -/
def exampleSettings : Settings :=
  { default_game := "magic", default_stylesheet := fun _ => "" }

/-- A grid that shows the two example games. -/
def exampleGrid : StyledPackageGrid :=
  StyledPackageGrid.showData {} exampleGames

/-- A file system that holds one bundled font. -/
def fontFs : FileSys :=
  { emptyFs with files := fun p =>
      if p = "/opt/mse/Magic - Fonts/beleren-bold_P1.01.ttf" then some "font data" else none }

/-- The bundled fonts directory of the examples: two fonts, a text file, a
sub-directory with one more font, and a sub-directory that cannot be opened. -/
def exampleFontTree : List DirEntry :=
  [.file "beleren-bold_P1.01.ttf", .file "readme.txt",
   .dir "extra" true [.file "MPlantin.OTF"],
   .dir "locked" false [.file "hidden.ttf"],
   .file "mana.otf"]

/-- A Linux installation whose data directory is "/opt/mse". -/
def exampleFontEnv : FontEnv :=
  { platform := .OTHER, homeDir := "/home/u", userLocalDataDir := "", dataDir := "/opt/mse",
    dataDirUp := "/opt", exeDir := "/opt/mse/bin",
    openDir := fun d => if d = "/opt/mse/Magic - Fonts" then some exampleFontTree else none }

/-- A file system with the bundled fonts of the examples, none installed. -/
def bundledFs : FileSys :=
  { emptyFs with
    dirs := fun d => decide (d = "/opt/mse/Magic - Fonts")
    files := fun p =>
      if p = "/opt/mse/Magic - Fonts/beleren-bold_P1.01.ttf" then some "beleren"
      else if p = "/opt/mse/Magic - Fonts/extra/MPlantin.OTF" then some "plantin"
      else if p = "/opt/mse/Magic - Fonts/mana.otf" then some "mana"
      else none }

/-- Like `bundledFs`, with "mana.otf" already installed and the font file
"beleren-bold_P1.01.ttf" unreadable. -/
def partlyInstalledFs : FileSys :=
  { bundledFs with
    readable := fun p => !(p == "/opt/mse/Magic - Fonts/beleren-bold_P1.01.ttf")
    files := fun p =>
      if p = "/home/u/.local/share/fonts/mana.otf" then some "mana" else bundledFs.files p }

/-- Like `bundledFs`, with all three reachable fonts already installed. -/
def allInstalledFs : FileSys :=
  { bundledFs with
    files := fun p =>
      if p = "/home/u/.local/share/fonts/mana.otf" then some "mana"
      else if p = "/home/u/.local/share/fonts/MPlantin.OTF" then some "plantin"
      else if p = "/home/u/.local/share/fonts/beleren-bold_P1.01.ttf" then some "beleren"
      else bundledFs.files p }

/-- A stream that delivers the example response in two reads. -/
def exampleStream : List StreamRead :=
  [{ data := "\x7b\"sha\":", eof := false }, { data := "\"abc123\"\x7d", eof := true },
   { data := "never read", eof := true }]

/-- Icons: the icon of "magic" loads, the icon file of every other package
cannot be opened. -/
def exampleIconEnv : IconEnv :=
  { openIconFile := fun p => if p.name = "magic" then some "icon bytes" else none,
    image_load_file := fun stream => some stream }

/-- A window of 640 by 400 pixels scrolled to the top. -/
def topView : View := { viewStartY := 0, clientWidth := 640, clientHeight := 400 }

/-- The same window scrolled down by 20 scroll units (400 pixels). -/
def scrolledView : View := { viewStartY := 20, clientWidth := 640, clientHeight := 400 }

/-- A package manager that knows two games, two stylesheets of "magic" and
one of "vs"; clearing a text control sends a text event. -/
def twoGameEnv : WizardEnv :=
  { findMatching := fun pattern =>
      if pattern = "*.mse-game" then exampleGames
      else if pattern = "magic-*.mse-style" then
        [{ name := "magic-new", short_name := "New", full_name := "Modern frame",
           position_hint := 1 },
         { name := "magic-old", short_name := "Old", full_name := "Classic frame",
           position_hint := 2 }]
      else if pattern = "vs-*.mse-style" then
        [{ name := "vs-standard", short_name := "Standard", full_name := "VS standard",
           position_hint := 1 }]
      else []
    gameTypeName := "game"
    styleTypeName := "style"
    clearSendsText := true
    loadFullyOk := fun _ => true
    constructOk := fun _ => true
    validateOk := fun _ => true }

/-- Like `twoGameEnv`, on a platform where clearing a text control sends no
text event. -/
def quietEnv : WizardEnv := { twoGameEnv with clearSendsText := false }

/-- Like `twoGameEnv`, with sets that do not validate. -/
def invalidSetEnv : WizardEnv := { twoGameEnv with validateOk := fun _ => false }

/-- Settings with "magic" as the default game and "magic-new" as its default
stylesheet. -/
def twoGameSettings : Settings :=
  { default_game := "magic",
    default_stylesheet := fun game => if game = "magic" then "magic-new" else "" }

/-! # Theorems -/

/-! ## Helper lemmas: file system -/

theorem append_ne_self (d suffix : String) (h : suffix ≠ "") : d ++ suffix ≠ d := by
  intro heq
  apply h
  have h1 : (d ++ suffix).data = d.data := by rw [heq]
  rw [String.data_append] at h1
  have h2 : suffix.data = [] := by simpa using h1
  exact String.ext h2

/-- Closed form of `getLocalDataDirectory`: the only possible change is that
the application support directory now exists. -/
theorem getLocalDataDirectory_eq (env : Env) (fs : FileSys) :
    getLocalDataDirectory env fs =
      (env.appSupportDir,
        if fs.dirs env.appSupportDir = false ∧ fs.mkdirOk env.appSupportDir = true then
          { fs with dirs := fun p => if p = env.appSupportDir then true else fs.dirs p }
        else fs) := by
  cases hd : fs.dirs env.appSupportDir <;> cases hm : fs.mkdirOk env.appSupportDir <;>
    simp [getLocalDataDirectory, wxMkdir, wxDirExists, hd, hm]

theorem getLocalDataDirectory_fst (env : Env) (fs : FileSys) :
    (getLocalDataDirectory env fs).1 = env.appSupportDir := by
  rw [getLocalDataDirectory_eq]

theorem getLocalDataDirectory_files (env : Env) (fs : FileSys) :
    (getLocalDataDirectory env fs).2.files = fs.files := by
  rw [getLocalDataDirectory_eq]; dsimp only; split <;> rfl

theorem getLocalDataDirectory_readable (env : Env) (fs : FileSys) :
    (getLocalDataDirectory env fs).2.readable = fs.readable := by
  rw [getLocalDataDirectory_eq]; dsimp only; split <;> rfl

theorem getLocalDataDirectory_writable (env : Env) (fs : FileSys) :
    (getLocalDataDirectory env fs).2.writable = fs.writable := by
  rw [getLocalDataDirectory_eq]; dsimp only; split <;> rfl

theorem getLocalDataDirectory_dirs (env : Env) (fs : FileSys) (p : String)
    (hp : p ≠ env.appSupportDir) :
    (getLocalDataDirectory env fs).2.dirs p = fs.dirs p := by
  rw [getLocalDataDirectory_eq]; dsimp only; split <;> simp [hp]

/-- A second call of `getLocalDataDirectory` changes nothing. -/
theorem getLocalDataDirectory_idem (env : Env) (fs : FileSys) :
    getLocalDataDirectory env (getLocalDataDirectory env fs).2 = getLocalDataDirectory env fs := by
  rw [getLocalDataDirectory_eq env fs, getLocalDataDirectory_eq]
  cases hd : fs.dirs env.appSupportDir <;> cases hm : fs.mkdirOk env.appSupportDir <;>
    simp [hd, hm]

theorem readLocalVersion_snd (env : Env) (fs : FileSys) :
    (readLocalVersion env fs).2 = (getLocalDataDirectory env fs).2 := by
  unfold readLocalVersion
  dsimp only
  split
  · rfl
  · split <;> rfl

theorem localDataExists_snd (env : Env) (fs : FileSys) :
    (localDataExists env fs).2 = (getLocalDataDirectory env fs).2 := rfl

/-- What `startCheck` has read when it runs curl, in terms of the file system
at the time of the call. -/
theorem checkInputs_eq (env : Env) (fs : FileSys) :
    checkInputs env fs =
      ((readLocalVersion env fs).1,
       fs.dirs (env.appSupportDir ++ "/data") || fs.dirs (env.appSupportDir ++ "/Magic - Fonts"),
       (getLocalDataDirectory env fs).2) := by
  have h1 : (readLocalVersion env (getLocalDataDirectory env fs).2) = readLocalVersion env fs := by
    unfold readLocalVersion
    rw [getLocalDataDirectory_idem]
  have hdata : env.appSupportDir ++ "/data" ≠ env.appSupportDir :=
    append_ne_self _ _ (by decide)
  have hfonts : env.appSupportDir ++ "/Magic - Fonts" ≠ env.appSupportDir :=
    append_ne_self _ _ (by decide)
  unfold checkInputs
  dsimp only
  rw [h1, readLocalVersion_snd, localDataExists_snd, getLocalDataDirectory_idem]
  unfold localDataExists wxDirExists
  dsimp only
  rw [getLocalDataDirectory_idem, getLocalDataDirectory_fst,
    getLocalDataDirectory_dirs _ _ _ hdata, getLocalDataDirectory_dirs _ _ _ hfonts]

/-! ## C1 -/

theorem startCheck_of_enter (env : Env) (c : GitHubUpdateChecker) (fs : FileSys)
    (hstart : c.status ≠ .CHECKING ∧ c.status ≠ .DOWNLOADING) :
    startCheck env c fs = startCheckBody env { c with status := .CHECKING, result := {} } fs := by
  unfold startCheck startCheckEnter
  rw [if_neg (by rintro (h | h) <;> simp_all)]

/-- C1: update decision of `startCheck`.  A run that starts and fetches a JSON
object whose "sha" is the string `r` ends with status CHECK_COMPLETE and
success; it reports no update exactly when local data exists, the local marker
is non-empty and equals `r`; otherwise it reports the single entry for the
full pack. -/
theorem startCheck_update_decision (env : Env) (c : GitHubUpdateChecker) (fs : FileSys)
    (kvs : List (String × Json)) (r : String)
    (hstart : c.status ≠ .CHECKING ∧ c.status ≠ .DOWNLOADING)
    (hexit : (env.exec checkCmd (getLocalDataDirectory env fs).2).exitCode = 0)
    (hout : (env.exec checkCmd (getLocalDataDirectory env fs).2).output ≠ [])
    (hparse : env.parse (String.join (env.exec checkCmd (getLocalDataDirectory env fs).2).output)
      = .ok (.object kvs))
    (hsha : kvs.lookup "sha" = some (.str r)) :
    (startCheck env c fs).1.status = .CHECK_COMPLETE ∧
    (startCheck env c fs).1.result.success = true ∧
    (((startCheck env c fs).1.result.fileCount = 0 ∧
      (startCheck env c fs).1.result.filesToUpdate = [] ∧
      (startCheck env c fs).1.result.totalDownloadSize = 0) ↔
      ((fs.dirs (env.appSupportDir ++ "/data") = true ∨
          fs.dirs (env.appSupportDir ++ "/Magic - Fonts") = true) ∧
        (readLocalVersion env fs).1 ≠ "" ∧ (readLocalVersion env fs).1 = r)) ∧
    (¬ ((fs.dirs (env.appSupportDir ++ "/data") = true ∨
          fs.dirs (env.appSupportDir ++ "/Magic - Fonts") = true) ∧
        (readLocalVersion env fs).1 ≠ "" ∧ (readLocalVersion env fs).1 = r) →
      (startCheck env c fs).1.result.filesToUpdate =
        [{ sha := r, path := "Full-Magic-Pack", size := 500 * 1024 * 1024,
           isNew := !(fs.dirs (env.appSupportDir ++ "/data") ||
                      fs.dirs (env.appSupportDir ++ "/Magic - Fonts")) }] ∧
      (startCheck env c fs).1.result.fileCount = 1 ∧
      (startCheck env c fs).1.result.totalDownloadSize = 500 * 1024 * 1024) := by
  rw [startCheck_of_enter env c fs hstart]
  unfold startCheckBody
  rw [checkInputs_eq]
  dsimp only
  have hne : ¬ ((env.exec checkCmd (getLocalDataDirectory env fs).2).exitCode ≠ 0 ∨
      (env.exec checkCmd (getLocalDataDirectory env fs).2).output.isEmpty = true) := by
    rintro (h | h)
    · exact h hexit
    · exact hout (List.isEmpty_iff.mp h)
  rw [if_neg hne]
  generalize (readLocalVersion env fs).1 = lv
  generalize fs.dirs (env.appSupportDir ++ "/data") = d1
  generalize fs.dirs (env.appSupportDir ++ "/Magic - Fonts") = d2
  simp only [startCheckTry, hparse, Json.contains, hsha, Json.at, Json.getString, bind, Except.bind,
    pure, Except.pure, Option.isSome_some, Option.getD_some, Bool.not_true, Bool.false_eq_true,
    if_false]
  have hempty : lv.isEmpty = true ↔ lv = "" := String.isEmpty_iff lv
  cases hd : (d1 || d2)
  · have hd3 : ¬ (d1 = true ∨ d2 = true) := by simpa using hd
    simp [hd3]
  · have hd3 : (d1 = true ∨ d2 = true) := by simpa using hd
    by_cases hl : lv = ""
    · subst hl
      simp [hd3, show "".isEmpty = true from rfl]
    · have hl2 : lv.isEmpty = false := by
        cases h : lv.isEmpty
        · rfl
        · exact absurd (hempty.mp h) hl
      by_cases hr : lv = r
      · subst hr
        simp [hd3, hl, hl2]
      · simp [hd3, hl, hl2, hr]

/-- C1 at a concrete input: first run on an empty file system, where the
remote SHA is "abc123". -/
theorem startCheck_update_decision_witness :
    (GitHubUpdateChecker.mk .IDLE {} {}).status ≠ .CHECKING ∧
    (startCheck goodEnv {} emptyFs).1.status = .CHECK_COMPLETE ∧
    (startCheck goodEnv {} emptyFs).1.result.fileCount = 1 :=
  have h := startCheck_update_decision goodEnv {} emptyFs [("sha", .str "abc123")] "abc123"
    (by decide) rfl (by simp [goodEnv, goodExec]) rfl rfl
  ⟨by decide, h.1, (h.2.2.2 (by simp [emptyFs])).2.1⟩

/-! ## C4 -/

theorem startDownload_of_enter (env : Env) (c : GitHubUpdateChecker) (fs : FileSys)
    (hstart : c.status = .CHECK_COMPLETE ∧ c.result.filesToUpdate ≠ []) :
    startDownload env c fs = startDownloadBody env
      { c with status := .DOWNLOADING,
               progress := { totalFiles := 1, currentFile := 1,
                             currentFileName := "Full-Magic-Pack.zip" } } fs := by
  unfold startDownload startDownloadEnter
  rw [if_neg]
  rintro (h | h)
  · exact h hstart.1
  · exact hstart.2 (List.isEmpty_iff.mp h)

theorem typeError_ne_empty (j : Json) :
    "[json.exception.type_error.302] type must be string, but is " ++ j.type_name ≠ "" := by
  intro h
  have h1 := congrArg String.length h
  rw [String.length_append] at h1
  have h2 : ("[json.exception.type_error.302] type must be string, but is ").length = 60 := by
    decide
  rw [h2] at h1
  simp at h1

/-- C4, the code's behaviour: every failure of the update checker ends in
status ERROR, and both operations always return a state.  (a) curl fails or
prints nothing: "Failed to connect to GitHub"; (b) the response has no "sha"
member: "Invalid response from GitHub"; (c) the response is not JSON or
"sha" is not a string: the error message is `wxString::FromUTF8` of the
exception's `what()`, which is the message itself when that is well-formed
UTF-8 (so for a "sha" that is not a string it is the non-empty type error
text) and the empty string when it is not; (d) the zip download fails or
leaves no file: "Failed to download update"; (e) unzip fails: "Failed to
extract update".  In (a)-(c) success is false and filesToUpdate is empty. -/
theorem checker_failures_become_error (env : Env) (c : GitHubUpdateChecker) (fs : FileSys) :
    (c.status ≠ .CHECKING ∧ c.status ≠ .DOWNLOADING →
      ((env.exec checkCmd (getLocalDataDirectory env fs).2).exitCode ≠ 0 ∨
        (env.exec checkCmd (getLocalDataDirectory env fs).2).output = []) →
      (startCheck env c fs).1.status = .ERROR ∧
      (startCheck env c fs).1.result.errorMessage = "Failed to connect to GitHub" ∧
      (startCheck env c fs).1.result.success = false ∧
      (startCheck env c fs).1.result.filesToUpdate = []) ∧
    (∀ j, c.status ≠ .CHECKING ∧ c.status ≠ .DOWNLOADING →
      (env.exec checkCmd (getLocalDataDirectory env fs).2).exitCode = 0 →
      (env.exec checkCmd (getLocalDataDirectory env fs).2).output ≠ [] →
      env.parse (String.join (env.exec checkCmd (getLocalDataDirectory env fs).2).output) = .ok j →
      j.contains "sha" = false →
      (startCheck env c fs).1.status = .ERROR ∧
      (startCheck env c fs).1.result.errorMessage = "Invalid response from GitHub" ∧
      (startCheck env c fs).1.result.success = false ∧
      (startCheck env c fs).1.result.filesToUpdate = []) ∧
    (∀ what, c.status ≠ .CHECKING ∧ c.status ≠ .DOWNLOADING →
      (env.exec checkCmd (getLocalDataDirectory env fs).2).exitCode = 0 →
      (env.exec checkCmd (getLocalDataDirectory env fs).2).output ≠ [] →
      env.parse (String.join (env.exec checkCmd (getLocalDataDirectory env fs).2).output)
        = .error what →
      (startCheck env c fs).1.status = .ERROR ∧
      (startCheck env c fs).1.result.errorMessage = wxString.FromUTF8 what ∧
      (∀ text, what = .utf8 text → (startCheck env c fs).1.result.errorMessage = text) ∧
      (∀ bytes, what = .illFormed bytes → (startCheck env c fs).1.result.errorMessage = "") ∧
      (startCheck env c fs).1.result.success = false ∧
      (startCheck env c fs).1.result.filesToUpdate = []) ∧
    (∀ j, c.status ≠ .CHECKING ∧ c.status ≠ .DOWNLOADING →
      (env.exec checkCmd (getLocalDataDirectory env fs).2).exitCode = 0 →
      (env.exec checkCmd (getLocalDataDirectory env fs).2).output ≠ [] →
      env.parse (String.join (env.exec checkCmd (getLocalDataDirectory env fs).2).output) = .ok j →
      j.contains "sha" = true → (∀ s, j.at "sha" ≠ .str s) →
      (startCheck env c fs).1.status = .ERROR ∧
      (startCheck env c fs).1.result.errorMessage =
        "[json.exception.type_error.302] type must be string, but is "
          ++ (j.at "sha").type_name ∧
      (startCheck env c fs).1.result.errorMessage ≠ "" ∧
      (startCheck env c fs).1.result.success = false ∧
      (startCheck env c fs).1.result.filesToUpdate = []) ∧
    (c.status = .CHECK_COMPLETE ∧ c.result.filesToUpdate ≠ [] →
      ((env.exec (downloadCmd (env.appSupportDir ++ "/Full-Magic-Pack.zip"))
          (getLocalDataDirectory env fs).2).exitCode ≠ 0 ∨
        wxFileExists (env.exec (downloadCmd (env.appSupportDir ++ "/Full-Magic-Pack.zip"))
          (getLocalDataDirectory env fs).2).fs (env.appSupportDir ++ "/Full-Magic-Pack.zip")
            = false) →
      (startDownload env c fs).1.status = .ERROR ∧
      (startDownload env c fs).1.result.errorMessage = "Failed to download update") ∧
    (c.status = .CHECK_COMPLETE ∧ c.result.filesToUpdate ≠ [] →
      (env.exec (downloadCmd (env.appSupportDir ++ "/Full-Magic-Pack.zip"))
          (getLocalDataDirectory env fs).2).exitCode = 0 →
      wxFileExists (env.exec (downloadCmd (env.appSupportDir ++ "/Full-Magic-Pack.zip"))
          (getLocalDataDirectory env fs).2).fs (env.appSupportDir ++ "/Full-Magic-Pack.zip")
            = true →
      (env.exec (extractCmd (env.appSupportDir ++ "/Full-Magic-Pack.zip") env.appSupportDir)
        (env.exec (downloadCmd (env.appSupportDir ++ "/Full-Magic-Pack.zip"))
          (getLocalDataDirectory env fs).2).fs).exitCode ≠ 0 →
      (startDownload env c fs).1.status = .ERROR ∧
      (startDownload env c fs).1.result.errorMessage = "Failed to extract update") := by
  refine ⟨?_, ?_, ?_, ?_, ?_, ?_⟩
  · intro hstart hfail
    rw [startCheck_of_enter env c fs hstart]
    unfold startCheckBody
    rw [checkInputs_eq]
    dsimp only
    rw [if_pos]
    · simp
    · rcases hfail with h | h
      · exact Or.inl h
      · exact Or.inr (by rw [h]; rfl)
  · intro j hstart hexit hout hparse hsha
    rw [startCheck_of_enter env c fs hstart]
    unfold startCheckBody
    rw [checkInputs_eq]
    dsimp only
    rw [if_neg]
    · simp [startCheckTry, hparse, hsha, bind, Except.bind, pure, Except.pure]
    · rintro (h | h)
      · exact h hexit
      · exact hout (List.isEmpty_iff.mp h)
  · intro what hstart hexit hout hparse
    rw [startCheck_of_enter env c fs hstart]
    unfold startCheckBody
    rw [checkInputs_eq]
    dsimp only
    rw [if_neg]
    · simp only [startCheckTry, hparse, bind, Except.bind]
      refine ⟨?_, ?_, ?_, ?_, ?_, ?_⟩
      all_goals first | trivial | rfl | (intro t ht; subst ht; rfl)
    · rintro (h | h)
      · exact h hexit
      · exact hout (List.isEmpty_iff.mp h)
  · intro j hstart hexit hout hparse hsha hnot
    have hget : (j.at "sha").getString = .error (.utf8
        ("[json.exception.type_error.302] type must be string, but is "
          ++ (j.at "sha").type_name)) := by
      cases hj : j.at "sha" with
      | str s => exact absurd hj (hnot s)
      | null => rfl
      | boolean b => rfl
      | number n => rfl
      | array xs => rfl
      | object kvs => rfl
    rw [startCheck_of_enter env c fs hstart]
    unfold startCheckBody
    rw [checkInputs_eq]
    dsimp only
    rw [if_neg]
    · simp only [startCheckTry, hparse, hsha, hget, bind, Except.bind, pure, Except.pure,
        Bool.not_true, Bool.false_eq_true, if_false]
      refine ⟨?_, ?_, ?_, ?_, ?_⟩
      all_goals first | trivial | rfl | exact typeError_ne_empty _
    · rintro (h | h)
      · exact h hexit
      · exact hout (List.isEmpty_iff.mp h)
  · intro hstart hfail
    rw [startDownload_of_enter env c fs hstart]
    unfold startDownloadBody
    simp only [getLocalDataDirectory_fst]
    rw [if_pos]
    · simp
    · rcases hfail with h | h
      · exact Or.inl h
      · exact Or.inr (by rw [h]; rfl)
  · intro hstart hexit hzip hunzip
    rw [startDownload_of_enter env c fs hstart]
    unfold startDownloadBody
    simp only [getLocalDataDirectory_fst]
    rw [if_neg, if_pos hunzip]
    · simp
    · rintro (h | h)
      · exact h hexit
      · rw [hzip] at h; exact absurd h (by decide)

/-- C4 at concrete inputs, one for each kind of failure. -/
theorem checker_failures_become_error_witness :
    (startCheck offlineEnv {} emptyFs).1.status = .ERROR ∧
    (startCheck noShaEnv {} emptyFs).1.result.errorMessage = "Invalid response from GitHub" ∧
    (startCheck garbageEnv {} emptyFs).1.result.errorMessage
      = "[json.exception.parse_error.101] parse error" ∧
    (startCheck numericShaEnv {} emptyFs).1.result.errorMessage
      = "[json.exception.type_error.302] type must be string, but is number" ∧
    (startDownload offlineEnv pendingChecker emptyFs).1.result.errorMessage
      = "Failed to download update" ∧
    (startDownload badZipEnv pendingChecker emptyFs).1.result.errorMessage
      = "Failed to extract update" :=
  ⟨((checker_failures_become_error offlineEnv {} emptyFs).1
      (by decide) (Or.inl (by decide))).1,
   ((checker_failures_become_error noShaEnv {} emptyFs).2.1 _
      (by decide) rfl (by simp [noShaEnv, goodExec]) rfl rfl).2.1,
   ((checker_failures_become_error garbageEnv {} emptyFs).2.2.1 _
      (by decide) rfl (by simp [garbageEnv, goodExec]) rfl).2.2.1 _ rfl,
   ((checker_failures_become_error numericShaEnv {} emptyFs).2.2.2.1 _
      (by decide) rfl (by simp [numericShaEnv, goodExec]) rfl rfl
      (by intro s h; cases h)).2.1,
   ((checker_failures_become_error offlineEnv pendingChecker emptyFs).2.2.2.2.1
      ⟨rfl, by simp [pendingChecker]⟩ (Or.inl (by decide))).2,
   ((checker_failures_become_error badZipEnv pendingChecker emptyFs).2.2.2.2.2
      ⟨rfl, by simp [pendingChecker]⟩ rfl rfl (by decide)).2⟩

set_option maxRecDepth 100000 in
/-- C4, failing input: the endpoint answers with text that starts with a
letter outside ASCII.  The parser raises a parse error whose message quotes
the byte it read last; the message is not well-formed UTF-8, the conversion
`wxString::FromUTF8` yields the empty string, and the check ends in status
ERROR with an empty error message. -/
theorem parse_error_with_empty_message :
    (startCheck nonAsciiEnv {} emptyFs).1.status = .ERROR ∧
    (startCheck nonAsciiEnv {} emptyFs).1.result.errorMessage = "" ∧
    (startCheck nonAsciiEnv {} emptyFs).1.result.success = false ∧
    nonAsciiEnv.parse (String.join (nonAsciiEnv.exec checkCmd emptyFs).output)
      = .error nonAsciiWhat ∧
    wxString.FromUTF8 nonAsciiWhat = "" := by
  refine ⟨?_, ?_, ?_, rfl, rfl⟩ <;> decide

/-! ## C5 and C6 -/

theorem startCheckTry_status (env : Env) (c c2 : GitHubUpdateChecker) (lv : String) (hd : Bool)
    (jsonStr : String) (h : startCheckTry env c lv hd jsonStr = .ok c2) :
    c2.status = .CHECK_COMPLETE ∨ c2.status = .ERROR := by
  unfold startCheckTry at h
  cases hp : env.parse jsonStr with
  | error e => simp [hp, bind, Except.bind] at h
  | ok j =>
    cases hs : j.contains "sha" with
    | false =>
      simp [hp, hs, bind, Except.bind, pure, Except.pure] at h
      subst h
      exact Or.inr rfl
    | true =>
      cases hg : (j.at "sha").getString with
      | error e => simp [hp, hs, hg, bind, Except.bind, pure, Except.pure] at h
      | ok sha =>
        simp [hp, hs, hg, bind, Except.bind, pure, Except.pure] at h
        subst h
        exact Or.inl rfl

theorem startCheckBody_status (env : Env) (c : GitHubUpdateChecker) (fs : FileSys) :
    (startCheckBody env c fs).1.status = .CHECK_COMPLETE ∨
    (startCheckBody env c fs).1.status = .ERROR := by
  unfold startCheckBody
  dsimp only
  split
  · exact Or.inr rfl
  · split
    · next c2 h => exact startCheckTry_status _ _ _ _ _ _ h
    · exact Or.inr rfl

theorem startDownloadBody_status (env : Env) (c : GitHubUpdateChecker) (fs : FileSys) :
    (startDownloadBody env c fs).1.status = .DOWNLOAD_COMPLETE ∨
    (startDownloadBody env c fs).1.status = .ERROR := by
  unfold startDownloadBody
  dsimp only
  split
  · exact Or.inr rfl
  · split
    · exact Or.inr rfl
    · exact Or.inl rfl

theorem startCheckEnter_some (c c1 : GitHubUpdateChecker) (h : startCheckEnter c = some c1) :
    c.status ≠ .CHECKING ∧ c.status ≠ .DOWNLOADING ∧ c1.status = .CHECKING := by
  unfold startCheckEnter at h
  split at h
  · cases h
  · next hn =>
    cases h
    exact ⟨fun h => hn (Or.inl h), fun h => hn (Or.inr h), rfl⟩

theorem startDownloadEnter_some (c c1 : GitHubUpdateChecker) (h : startDownloadEnter c = some c1) :
    c.status = .CHECK_COMPLETE ∧ c.result.filesToUpdate ≠ [] ∧ c1.status = .DOWNLOADING := by
  unfold startDownloadEnter at h
  split at h
  · cases h
  · next hn =>
    cases h
    refine ⟨?_, ?_, rfl⟩
    · by_contra hc; exact hn (Or.inl hc)
    · intro hc; exact hn (Or.inr (by rw [hc]; rfl))

/-- The transitions the code can make. -/
theorem call_edges_allowed (call : Call) (s : GitHubUpdateChecker × FileSys)
    (e : Status × Status) (he : e ∈ call.edges s) :
    (e.2 = .CHECKING →
      e.1 = .IDLE ∨ e.1 = .CHECK_COMPLETE ∨ e.1 = .DOWNLOAD_COMPLETE ∨ e.1 = .ERROR) ∧
    (e.2 = .CHECK_COMPLETE → e.1 = .CHECKING) ∧
    (e.2 = .DOWNLOADING → e.1 = .CHECK_COMPLETE) ∧
    (e.2 = .DOWNLOAD_COMPLETE → e.1 = .DOWNLOADING) ∧
    (e.2 = .ERROR → e.1 = .CHECKING ∨ e.1 = .DOWNLOADING) ∧
    e.2 ≠ .IDLE := by
  cases call with
  | check env =>
    unfold Call.edges at he
    dsimp only at he
    cases hen : startCheckEnter s.1 with
    | none => rw [hen] at he; cases he
    | some c1 =>
      rw [hen] at he
      obtain ⟨h1, h2, h3⟩ := startCheckEnter_some _ _ hen
      have hb := startCheckBody_status env c1 s.2
      simp only [List.mem_cons, List.mem_singleton, List.not_mem_nil, or_false] at he
      rcases he with rfl | rfl
      · dsimp only
        rw [h3]
        generalize s.1.status = st at h1 h2
        cases st <;> simp_all
      · dsimp only
        rw [h3]
        rcases hb with hb | hb <;> rw [hb] <;> simp
  | download env =>
    unfold Call.edges at he
    dsimp only at he
    cases hen : startDownloadEnter s.1 with
    | none => rw [hen] at he; cases he
    | some c1 =>
      rw [hen] at he
      obtain ⟨h1, _, h3⟩ := startDownloadEnter_some _ _ hen
      have hb := startDownloadBody_status env c1 s.2
      simp only [List.mem_cons, List.mem_singleton, List.not_mem_nil, or_false] at he
      rcases he with rfl | rfl
      · dsimp only
        rw [h3, h1]
        simp
      · dsimp only
        rw [h3]
        rcases hb with hb | hb <;> rw [hb] <;> simp

/-- C5 as stated is violated: two checks in a row, starting from IDLE, enter
CHECKING from CHECK_COMPLETE. -/
theorem checking_entered_from_check_complete :
    ∃ e ∈ runEdges [Call.check goodEnv, Call.check goodEnv] ({}, emptyFs),
      e.2 = Status.CHECKING ∧ e.1 ≠ Status.IDLE :=
  ⟨(.CHECK_COMPLETE, .CHECKING), by decide, rfl, by decide⟩

/-- C5 amended: in every sequence of calls, CHECKING is entered from IDLE,
CHECK_COMPLETE, DOWNLOAD_COMPLETE or ERROR (every status that passes the busy
guard), CHECK_COMPLETE only from CHECKING, DOWNLOADING only from
CHECK_COMPLETE, DOWNLOAD_COMPLETE only from DOWNLOADING, ERROR only from
CHECKING or DOWNLOADING, and IDLE is never entered. -/
theorem status_edges_allowed (calls : List Call) (s : GitHubUpdateChecker × FileSys)
    (e : Status × Status) (he : e ∈ runEdges calls s) :
    (e.2 = .CHECKING →
      e.1 = .IDLE ∨ e.1 = .CHECK_COMPLETE ∨ e.1 = .DOWNLOAD_COMPLETE ∨ e.1 = .ERROR) ∧
    (e.2 = .CHECK_COMPLETE → e.1 = .CHECKING) ∧
    (e.2 = .DOWNLOADING → e.1 = .CHECK_COMPLETE) ∧
    (e.2 = .DOWNLOAD_COMPLETE → e.1 = .DOWNLOADING) ∧
    (e.2 = .ERROR → e.1 = .CHECKING ∨ e.1 = .DOWNLOADING) ∧
    e.2 ≠ .IDLE := by
  induction calls generalizing s with
  | nil => cases he
  | cons call rest ih =>
    unfold runEdges at he
    rcases List.mem_append.mp he with h | h
    · exact call_edges_allowed call s e h
    · exact ih _ h

set_option maxRecDepth 100000 in
/-- C5 amended, at a concrete run: check, download, check. -/
theorem status_edges_allowed_witness :
    (Status.DOWNLOAD_COMPLETE, Status.CHECKING) ∈
      runEdges [Call.check goodEnv, Call.download goodEnv, Call.check goodEnv] ({}, emptyFs) ∧
    (Status.DOWNLOAD_COMPLETE = Status.IDLE ∨ Status.DOWNLOAD_COMPLETE = Status.CHECK_COMPLETE ∨
      Status.DOWNLOAD_COMPLETE = Status.DOWNLOAD_COMPLETE ∨
      Status.DOWNLOAD_COMPLETE = Status.ERROR) :=
  ⟨by decide,
   (status_edges_allowed [Call.check goodEnv, Call.download goodEnv, Call.check goodEnv]
      ({}, emptyFs) (.DOWNLOAD_COMPLETE, .CHECKING) (by decide)).1 rfl⟩

theorem call_run_not_busy (call : Call) (s : GitHubUpdateChecker × FileSys)
    (h : s.1.status ≠ .CHECKING ∧ s.1.status ≠ .DOWNLOADING) :
    (call.run s).1.status ≠ .CHECKING ∧ (call.run s).1.status ≠ .DOWNLOADING := by
  cases call with
  | check env =>
    unfold Call.run startCheck
    dsimp only
    cases hen : startCheckEnter s.1 with
    | none => exact h
    | some c1 =>
      dsimp only
      rcases startCheckBody_status env c1 s.2 with hb | hb <;> rw [hb] <;> simp
  | download env =>
    unfold Call.run startDownload
    dsimp only
    cases hen : startDownloadEnter s.1 with
    | none => exact h
    | some c1 =>
      dsimp only
      rcases startDownloadBody_status env c1 s.2 with hb | hb <;> rw [hb] <;> simp

theorem runCalls_not_busy (calls : List Call) (s : GitHubUpdateChecker × FileSys)
    (h : s.1.status ≠ .CHECKING ∧ s.1.status ≠ .DOWNLOADING) :
    (runCalls calls s).1.status ≠ .CHECKING ∧ (runCalls calls s).1.status ≠ .DOWNLOADING := by
  induction calls generalizing s with
  | nil => exact h
  | cons call rest ih => exact ih _ (call_run_not_busy call s h)

/-- C6: the operations run to completion before returning.  A `startCheck`
that started returns with CHECK_COMPLETE or ERROR; a `startDownload` that
started returns with DOWNLOAD_COMPLETE or ERROR; so after any sequence of
calls from IDLE the status is neither CHECKING nor DOWNLOADING, and the busy
guard of a following `startCheck` does not return early. -/
theorem operations_run_to_completion (env : Env) (c : GitHubUpdateChecker) (fs : FileSys)
    (calls : List Call) :
    (startCheckEnter c ≠ none →
      (startCheck env c fs).1.status = .CHECK_COMPLETE ∨
      (startCheck env c fs).1.status = .ERROR) ∧
    (startDownloadEnter c ≠ none →
      (startDownload env c fs).1.status = .DOWNLOAD_COMPLETE ∨
      (startDownload env c fs).1.status = .ERROR) ∧
    ((runCalls calls ({}, fs)).1.status ≠ .CHECKING ∧
      (runCalls calls ({}, fs)).1.status ≠ .DOWNLOADING) ∧
    (Call.check env).returnsEarly (runCalls calls ({}, fs)).1 = false := by
  have hrun := runCalls_not_busy calls (({} : GitHubUpdateChecker), fs)
    ⟨by simp, by simp⟩
  refine ⟨?_, ?_, hrun, ?_⟩
  · intro h
    unfold startCheck
    cases hen : startCheckEnter c with
    | none => exact absurd hen h
    | some c1 => exact startCheckBody_status env c1 fs
  · intro h
    unfold startDownload
    cases hen : startDownloadEnter c with
    | none => exact absurd hen h
    | some c1 => exact startDownloadBody_status env c1 fs
  · show (startCheckEnter (runCalls calls ({}, fs)).1).isNone = false
    unfold startCheckEnter
    rw [if_neg]
    · rfl
    · rintro (h | h)
      · exact hrun.1 h
      · exact hrun.2 h

set_option maxRecDepth 100000 in
/-- C6 at concrete inputs: a check on an empty file system, a download after
it, and the state after check, download, check. -/
theorem operations_run_to_completion_witness :
    startCheckEnter {} ≠ none ∧
    ((startCheck goodEnv {} emptyFs).1.status = .CHECK_COMPLETE ∨
      (startCheck goodEnv {} emptyFs).1.status = .ERROR) ∧
    ((startDownload goodEnv pendingChecker emptyFs).1.status = .DOWNLOAD_COMPLETE ∨
      (startDownload goodEnv pendingChecker emptyFs).1.status = .ERROR) :=
  ⟨by decide,
   (operations_run_to_completion goodEnv {} emptyFs []).1 (by decide),
   (operations_run_to_completion goodEnv pendingChecker emptyFs []).2.1 (by decide)⟩

/-! ## C7 -/

theorem zipPath_ne_markerPath (env : Env) :
    markerPath env ≠ env.appSupportDir ++ "/Full-Magic-Pack.zip" := by
  intro h
  have h1 := congrArg String.data h
  simp only [markerPath, VERSION_MARKER_FILE, String.data_append, List.append_assoc] at h1
  have h2 := List.append_cancel_left h1
  revert h2
  decide

theorem wxRemoveFile_files_other (fs : FileSys) (path p : String) (h : p ≠ path) :
    (wxRemoveFile fs path).files p = fs.files p := by
  unfold wxRemoveFile
  split <;> simp [h]

theorem wxRemoveFile_writable (fs : FileSys) (path : String) :
    (wxRemoveFile fs path).writable = fs.writable := by
  unfold wxRemoveFile
  split <;> rfl

theorem execIfDir_frame (env : Env) (fs : FileSys) (dir cmd m : String)
    (hframe : ∀ cmd fs1, (env.exec cmd fs1).fs.files m = fs1.files m ∧
      (env.exec cmd fs1).fs.writable m = fs1.writable m) :
    (execIfDir env fs dir cmd).files m = fs.files m ∧
    (execIfDir env fs dir cmd).writable m = fs.writable m := by
  unfold execIfDir
  split
  · exact hframe _ _
  · exact ⟨rfl, rfl⟩

theorem writeLocalVersion_marker (env : Env) (fs : FileSys) (sha : String) :
    (writeLocalVersion env fs sha).files (markerPath env) =
      if fs.writable (markerPath env) = true then some sha else fs.files (markerPath env) := by
  unfold writeLocalVersion
  simp only [getLocalDataDirectory_fst, getLocalDataDirectory_writable,
    getLocalDataDirectory_files]
  by_cases hw : fs.writable (markerPath env) = true
  · have hw2 : fs.writable (env.appSupportDir ++ "/" ++ VERSION_MARKER_FILE) = true := hw
    simp [hw, hw2, markerPath]
  · have hw2 : ¬ fs.writable (env.appSupportDir ++ "/" ++ VERSION_MARKER_FILE) = true := hw
    simp [hw, hw2, getLocalDataDirectory_files]

/-- The marker after the installation steps, when the external commands leave
the marker file alone. -/
theorem installExtracted_marker (env : Env) (fs : FileSys) (sha : String)
    (hframe : ∀ cmd fs1,
      (env.exec cmd fs1).fs.files (markerPath env) = fs1.files (markerPath env) ∧
      (env.exec cmd fs1).fs.writable (markerPath env) = fs1.writable (markerPath env)) :
    (installExtracted env fs env.appSupportDir (env.appSupportDir ++ "/Full-Magic-Pack.zip")
        sha).files (markerPath env) =
      if fs.writable (markerPath env) = true then some sha else fs.files (markerPath env) := by
  unfold installExtracted
  dsimp only
  rw [writeLocalVersion_marker]
  have e1 := execIfDir_frame env fs (env.appSupportDir ++ "/data")
    (rmCmd (env.appSupportDir ++ "/data")) _ hframe
  generalize execIfDir env fs (env.appSupportDir ++ "/data")
    (rmCmd (env.appSupportDir ++ "/data")) = fs1 at e1 ⊢
  have e2 := execIfDir_frame env fs1 (env.appSupportDir ++ "/Magic - Fonts")
    (rmCmd (env.appSupportDir ++ "/Magic - Fonts")) _ hframe
  generalize execIfDir env fs1 (env.appSupportDir ++ "/Magic - Fonts")
    (rmCmd (env.appSupportDir ++ "/Magic - Fonts")) = fs2 at e2 ⊢
  have e3 := execIfDir_frame env fs2 (env.appSupportDir ++ "/Full-Magic-Pack-main" ++ "/data")
    (mvCmd (env.appSupportDir ++ "/Full-Magic-Pack-main" ++ "/data")
      (env.appSupportDir ++ "/data")) _ hframe
  generalize execIfDir env fs2 (env.appSupportDir ++ "/Full-Magic-Pack-main" ++ "/data")
    (mvCmd (env.appSupportDir ++ "/Full-Magic-Pack-main" ++ "/data")
      (env.appSupportDir ++ "/data")) = fs3 at e3 ⊢
  have e4 := execIfDir_frame env fs3
    (env.appSupportDir ++ "/Full-Magic-Pack-main" ++ "/Magic - Fonts")
    (mvCmd (env.appSupportDir ++ "/Full-Magic-Pack-main" ++ "/Magic - Fonts")
      (env.appSupportDir ++ "/Magic - Fonts")) _ hframe
  generalize execIfDir env fs3
    (env.appSupportDir ++ "/Full-Magic-Pack-main" ++ "/Magic - Fonts")
    (mvCmd (env.appSupportDir ++ "/Full-Magic-Pack-main" ++ "/Magic - Fonts")
      (env.appSupportDir ++ "/Magic - Fonts")) = fs4 at e4 ⊢
  have e5 : (wxRemoveFile fs4 (env.appSupportDir ++ "/Full-Magic-Pack.zip")).files
        (markerPath env) = fs4.files (markerPath env) ∧
      (wxRemoveFile fs4 (env.appSupportDir ++ "/Full-Magic-Pack.zip")).writable
        (markerPath env) = fs4.writable (markerPath env) :=
    ⟨wxRemoveFile_files_other _ _ _ (zipPath_ne_markerPath env), by rw [wxRemoveFile_writable]⟩
  generalize wxRemoveFile fs4 (env.appSupportDir ++ "/Full-Magic-Pack.zip") = fs5 at e5 ⊢
  have e6 := execIfDir_frame env fs5 (env.appSupportDir ++ "/Full-Magic-Pack-main")
    (rmCmd (env.appSupportDir ++ "/Full-Magic-Pack-main")) _ hframe
  generalize execIfDir env fs5 (env.appSupportDir ++ "/Full-Magic-Pack-main")
    (rmCmd (env.appSupportDir ++ "/Full-Magic-Pack-main")) = fs6 at e6 ⊢
  rw [e6.1, e6.2, e5.1, e5.2, e4.1, e4.2, e3.1, e3.2, e2.1, e2.2, e1.1, e1.2]

/-- The marker after a started download, when the external commands leave the
marker file alone: written exactly when the download completed and the file
could be opened for writing. -/
theorem startDownloadBody_marker (env : Env) (c : GitHubUpdateChecker) (fs : FileSys)
    (hframe : ∀ cmd fs1,
      (env.exec cmd fs1).fs.files (markerPath env) = fs1.files (markerPath env) ∧
      (env.exec cmd fs1).fs.writable (markerPath env) = fs1.writable (markerPath env)) :
    (startDownloadBody env c fs).2.files (markerPath env) =
      if (startDownloadBody env c fs).1.status = .DOWNLOAD_COMPLETE ∧
          fs.writable (markerPath env) = true
      then some (remoteShaOf c) else fs.files (markerPath env) := by
  unfold startDownloadBody
  simp only [getLocalDataDirectory_fst]
  have e0f := getLocalDataDirectory_files env fs
  have e0w := getLocalDataDirectory_writable env fs
  generalize (getLocalDataDirectory env fs).2 = fs0 at e0f e0w ⊢
  have e1 := hframe (downloadCmd (env.appSupportDir ++ "/Full-Magic-Pack.zip")) fs0
  generalize env.exec (downloadCmd (env.appSupportDir ++ "/Full-Magic-Pack.zip")) fs0 = r1
    at e1 ⊢
  split
  · simp [e1.1, e0f]
  · have e2 := hframe (extractCmd (env.appSupportDir ++ "/Full-Magic-Pack.zip")
      env.appSupportDir) r1.fs
    generalize env.exec (extractCmd (env.appSupportDir ++ "/Full-Magic-Pack.zip")
      env.appSupportDir) r1.fs = r2 at e2 ⊢
    split
    · simp [wxRemoveFile_files_other _ _ _ (zipPath_ne_markerPath env), e2.1, e1.1, e0f]
    · simp only [true_and]
      rw [installExtracted_marker env r2.fs _ hframe, e2.1, e2.2, e1.1, e1.2, e0f, e0w]

set_option maxRecDepth 100000 in
/-- C7 as stated is violated: when the marker file cannot be opened for
writing, the download still ends with DOWNLOAD_COMPLETE and the marker file
does not contain the SHA (it does not exist). -/
theorem download_complete_without_marker :
    (startDownload goodEnv pendingChecker lockedFs).1.status = .DOWNLOAD_COMPLETE ∧
    remoteShaOf pendingChecker = "abc123" ∧
    (startDownload goodEnv pendingChecker lockedFs).2.files (markerPath goodEnv) = none := by
  decide

/-- C7 amended: provided the external commands leave the marker file alone, a
`startDownload` that ends with DOWNLOAD_COMPLETE leaves in the marker file
exactly the SHA of `result.filesToUpdate[0]` when the file could be opened for
writing, and leaves the marker unchanged when it could not; a `startDownload`
that ends with ERROR leaves the marker unchanged; one that returns without
starting changes nothing. -/
theorem marker_after_download (env : Env) (c : GitHubUpdateChecker) (fs : FileSys)
    (hframe : ∀ cmd fs1,
      (env.exec cmd fs1).fs.files (markerPath env) = fs1.files (markerPath env) ∧
      (env.exec cmd fs1).fs.writable (markerPath env) = fs1.writable (markerPath env)) :
    (startDownloadEnter c ≠ none →
      (startDownload env c fs).1.status = .DOWNLOAD_COMPLETE →
      fs.writable (markerPath env) = true →
      (startDownload env c fs).2.files (markerPath env) = some (remoteShaOf c)) ∧
    (startDownloadEnter c ≠ none →
      (startDownload env c fs).1.status = .DOWNLOAD_COMPLETE →
      fs.writable (markerPath env) = false →
      (startDownload env c fs).2.files (markerPath env) = fs.files (markerPath env)) ∧
    (startDownloadEnter c ≠ none →
      (startDownload env c fs).1.status = .ERROR →
      (startDownload env c fs).2.files (markerPath env) = fs.files (markerPath env)) ∧
    (startDownloadEnter c = none → startDownload env c fs = (c, fs)) := by
  cases hen : startDownloadEnter c with
  | none => simp [startDownload, hen]
  | some c1 =>
    have hsha : remoteShaOf c1 = remoteShaOf c := by
      unfold startDownloadEnter at hen
      split at hen
      · cases hen
      · cases hen; rfl
    have hm := startDownloadBody_marker env c1 fs hframe
    have hrun : startDownload env c fs = startDownloadBody env c1 fs := by
      simp [startDownload, hen]
    rw [hrun, hm, hsha]
    refine ⟨fun _ hs hw => ?_, fun _ hs hw => ?_, fun _ hs => ?_, fun h => by cases h⟩
    · rw [if_pos ⟨hs, hw⟩]
    · rw [if_neg]
      rintro ⟨_, h⟩
      rw [hw] at h
      cases h
    · rw [if_neg]
      rintro ⟨h, _⟩
      rw [hs] at h
      cases h

theorem goodExec_frame (cmd : String) (fs1 : FileSys) :
    (goodEnv.exec cmd fs1).fs.files (markerPath goodEnv) = fs1.files (markerPath goodEnv) ∧
    (goodEnv.exec cmd fs1).fs.writable (markerPath goodEnv)
      = fs1.writable (markerPath goodEnv) := by
  show (goodExec cmd fs1).fs.files _ = _ ∧ (goodExec cmd fs1).fs.writable _ = _
  unfold goodExec
  split
  · exact ⟨rfl, rfl⟩
  · split
    · refine ⟨?_, rfl⟩
      show (if markerPath goodEnv = exampleDir ++ "/Full-Magic-Pack.zip" then some "PK"
        else fs1.files (markerPath goodEnv)) = _
      rw [if_neg (by decide)]
    · split
      · exact ⟨rfl, rfl⟩
      · split
        · exact ⟨rfl, rfl⟩
        · split <;> exact ⟨rfl, rfl⟩

set_option maxRecDepth 100000 in
/-- C7 amended, at a concrete input: a download on an empty, writable file
system writes the SHA "abc123". -/
theorem marker_after_download_witness :
    startDownloadEnter pendingChecker ≠ none ∧
    (startDownload goodEnv pendingChecker emptyFs).1.status = .DOWNLOAD_COMPLETE ∧
    (startDownload goodEnv pendingChecker emptyFs).2.files (markerPath goodEnv)
      = some "abc123" :=
  ⟨by decide, by decide,
   (marker_after_download goodEnv pendingChecker emptyFs goodExec_frame).1
     (by decide) (by decide) rfl⟩


/-! ## C8 -/

theorem readLocalVersion_fst (env : Env) (fs : FileSys) :
    (readLocalVersion env fs).1 =
      match fs.files (markerPath env) with
      | none => ""
      | some content => if fs.readable (markerPath env) = true then Trim content else "" := by
  unfold readLocalVersion
  simp only [getLocalDataDirectory_fst, getLocalDataDirectory_files,
    getLocalDataDirectory_readable]
  have hp : env.appSupportDir ++ "/" ++ VERSION_MARKER_FILE = markerPath env := rfl
  rw [hp]
  cases fs.files (markerPath env) with
  | none => rfl
  | some content =>
    cases fs.readable (markerPath env) <;> simp

theorem Trim_of_no_space (s : String) (h : ∀ ch ∈ s.data, wxIsSpace ch = false) :
    Trim s = s := by
  unfold Trim
  apply String.ext
  show (List.dropWhile wxIsSpace s.data.reverse).reverse = s.data
  cases hr : s.data.reverse with
  | nil =>
    have : s.data = [] := by simpa using hr
    simp [this]
  | cons a t =>
    have ha : a ∈ s.data := by
      have : a ∈ s.data.reverse := by rw [hr]; exact List.mem_cons_self _ _
      simpa using this
    rw [List.dropWhile_cons, h a ha]
    simp only [Bool.false_eq_true, if_false]
    rw [← hr, List.reverse_reverse]

/-- A check that fetches the SHA the marker holds, with local data present,
reports no update. -/
theorem startCheck_same_sha (env : Env) (c : GitHubUpdateChecker) (fs : FileSys)
    (kvs : List (String × Json)) (r : String)
    (hstart : c.status ≠ .CHECKING ∧ c.status ≠ .DOWNLOADING)
    (hexit : (env.exec checkCmd (getLocalDataDirectory env fs).2).exitCode = 0)
    (hout : (env.exec checkCmd (getLocalDataDirectory env fs).2).output ≠ [])
    (hparse : env.parse (String.join (env.exec checkCmd (getLocalDataDirectory env fs).2).output)
      = .ok (.object kvs))
    (hsha : kvs.lookup "sha" = some (.str r))
    (hdata : fs.dirs (env.appSupportDir ++ "/data") = true)
    (hmarker : (readLocalVersion env fs).1 = r) (hr : r ≠ "") :
    (startCheck env c fs).1.status = .CHECK_COMPLETE ∧
    (startCheck env c fs).1.result.fileCount = 0 ∧
    (startCheck env c fs).1.result.filesToUpdate = [] ∧
    (startCheck env c fs).1.result.totalDownloadSize = 0 := by
  rw [startCheck_of_enter env c fs hstart]
  unfold startCheckBody
  rw [checkInputs_eq]
  dsimp only
  have hne : ¬ ((env.exec checkCmd (getLocalDataDirectory env fs).2).exitCode ≠ 0 ∨
      (env.exec checkCmd (getLocalDataDirectory env fs).2).output.isEmpty = true) := by
    rintro (h | h)
    · exact h hexit
    · exact hout (List.isEmpty_iff.mp h)
  rw [if_neg hne, hmarker, hdata]
  have hl2 : r.isEmpty = false := by
    cases h : r.isEmpty
    · rfl
    · exact absurd ((String.isEmpty_iff r).mp h) hr
  simp [startCheckTry, hparse, Json.contains, hsha, Json.at, Json.getString, bind, Except.bind,
    pure, Except.pure, hl2]

set_option maxRecDepth 100000 in
/-- C8 as stated is violated in its last sentence: after a download that
completed while the marker file could not be written, a check that fetches the
same SHA with the data directory present still reports an update. -/
theorem check_after_completed_download_reports_update :
    (startDownload goodEnv pendingChecker lockedFs).1.status = .DOWNLOAD_COMPLETE ∧
    (startDownload goodEnv pendingChecker lockedFs).2.dirs (exampleDir ++ "/data") = true ∧
    remoteShaOf pendingChecker = "abc123" ∧
    goodEnv.parse (String.join (goodEnv.exec checkCmd
      (startDownload goodEnv pendingChecker lockedFs).2).output)
        = .ok (.object [("sha", .str "abc123")]) ∧
    (startCheck goodEnv (startDownload goodEnv pendingChecker lockedFs).1
      (startDownload goodEnv pendingChecker lockedFs).2).1.result.fileCount = 1 := by
  refine ⟨by decide, by decide, by decide, rfl, by decide⟩

/-- C8 amended: reading the marker after a write that could open the file
returns the written string with trailing white space removed (the file being
readable), hence exactly `s` when `s` has no white space; reading returns the
empty string when the file does not exist or cannot be opened.  Consequently a
check that follows a completed download whose marker write succeeded, fetches
the same non-empty, white-space-free SHA, and finds the data directory
present, reports no update (the external commands being assumed to leave the
marker file alone). -/
theorem marker_round_trip (env : Env) (c : GitHubUpdateChecker) (fs : FileSys) (s : String) :
    (fs.writable (markerPath env) = true → fs.readable (markerPath env) = true →
      (readLocalVersion env (writeLocalVersion env fs s)).1 = Trim s) ∧
    ((∀ ch ∈ s.data, wxIsSpace ch = false) → Trim s = s) ∧
    (fs.files (markerPath env) = none ∨ fs.readable (markerPath env) = false →
      (readLocalVersion env fs).1 = "") ∧
    (∀ kvs : List (String × Json),
      (∀ cmd fs1,
        (env.exec cmd fs1).fs.files (markerPath env) = fs1.files (markerPath env) ∧
        (env.exec cmd fs1).fs.writable (markerPath env) = fs1.writable (markerPath env)) →
      startDownloadEnter c ≠ none →
      (startDownload env c fs).1.status = .DOWNLOAD_COMPLETE →
      fs.writable (markerPath env) = true →
      (startDownload env c fs).2.readable (markerPath env) = true →
      remoteShaOf c ≠ "" →
      (∀ ch ∈ (remoteShaOf c).data, wxIsSpace ch = false) →
      (env.exec checkCmd (getLocalDataDirectory env (startDownload env c fs).2).2).exitCode = 0 →
      (env.exec checkCmd (getLocalDataDirectory env (startDownload env c fs).2).2).output ≠ [] →
      env.parse (String.join
        (env.exec checkCmd (getLocalDataDirectory env (startDownload env c fs).2).2).output)
          = .ok (.object kvs) →
      kvs.lookup "sha" = some (.str (remoteShaOf c)) →
      (startDownload env c fs).2.dirs (env.appSupportDir ++ "/data") = true →
      (startCheck env (startDownload env c fs).1 (startDownload env c fs).2).1.status
        = .CHECK_COMPLETE ∧
      (startCheck env (startDownload env c fs).1 (startDownload env c fs).2).1.result.fileCount
        = 0 ∧
      (startCheck env (startDownload env c fs).1
        (startDownload env c fs).2).1.result.filesToUpdate = [] ∧
      (startCheck env (startDownload env c fs).1
        (startDownload env c fs).2).1.result.totalDownloadSize = 0) := by
  refine ⟨?_, Trim_of_no_space s, ?_, ?_⟩
  · intro hw hr
    rw [readLocalVersion_fst, writeLocalVersion_marker, if_pos hw]
    have : (writeLocalVersion env fs s).readable = fs.readable := by
      unfold writeLocalVersion
      dsimp only
      split <;> simp [getLocalDataDirectory_readable]
    simp [this, hr]
  · intro h
    rw [readLocalVersion_fst]
    rcases h with h | h
    · rw [h]
    · cases fs.files (markerPath env) with
      | none => rfl
      | some content => simp [h]
  · intro kvs hframe hen hdone hw hread hne hspace hexit hout hparse hsha hdata
    have hmark : (startDownload env c fs).2.files (markerPath env) = some (remoteShaOf c) := by
      cases hen2 : startDownloadEnter c with
      | none => exact absurd hen2 hen
      | some c1 =>
        have hsha1 : remoteShaOf c1 = remoteShaOf c := by
          unfold startDownloadEnter at hen2
          split at hen2
          · cases hen2
          · cases hen2; rfl
        have hrun : startDownload env c fs = startDownloadBody env c1 fs := by
          simp [startDownload, hen2]
        rw [hrun] at hdone ⊢
        rw [startDownloadBody_marker env c1 fs hframe, if_pos ⟨hdone, hw⟩, hsha1]
    have hlv : (readLocalVersion env (startDownload env c fs).2).1 = remoteShaOf c := by
      rw [readLocalVersion_fst, hmark]
      simp only [hread, if_true]
      exact Trim_of_no_space _ hspace
    exact startCheck_same_sha env _ _ kvs (remoteShaOf c)
      (by rw [hdone]; exact ⟨by decide, by decide⟩) hexit hout hparse hsha hdata hlv hne

set_option maxRecDepth 100000 in
/-- C8 amended, at concrete inputs: the round trip of "abc123" on an empty
file system, and check after download in the world where everything works. -/
theorem marker_round_trip_witness :
    (readLocalVersion goodEnv (writeLocalVersion goodEnv emptyFs "abc123")).1 = Trim "abc123" ∧
    Trim "abc123" = "abc123" ∧
    (readLocalVersion goodEnv emptyFs).1 = "" ∧
    (startCheck goodEnv (startDownload goodEnv pendingChecker emptyFs).1
      (startDownload goodEnv pendingChecker emptyFs).2).1.result.fileCount = 0 :=
  ⟨(marker_round_trip goodEnv pendingChecker emptyFs "abc123").1 rfl rfl,
   (marker_round_trip goodEnv pendingChecker emptyFs "abc123").2.1 (by decide),
   (marker_round_trip goodEnv pendingChecker emptyFs "abc123").2.2.1 (Or.inl rfl),
   ((marker_round_trip goodEnv pendingChecker emptyFs "abc123").2.2.2
      [("sha", .str "abc123")] goodExec_frame (by decide) (by decide) rfl rfl (by decide)
      (by decide) rfl (by simp [goodEnv, goodExec]) rfl rfl (by decide)).2.1⟩

/-! ## C9 -/

set_option maxRecDepth 100000 in
/-- C9 fails on the code: when `mv` of the extracted data folder exits with
code 1 and moves nothing, `startDownload` still ends with DOWNLOAD_COMPLETE
and records the new SHA, although no data folder is installed. -/
theorem download_ignores_mv_exit_code :
    (mvFailEnv.exec (mvCmd (exampleDir ++ "/Full-Magic-Pack-main/data") (exampleDir ++ "/data"))
      emptyFs).exitCode = 1 ∧
    (startDownload mvFailEnv pendingChecker emptyFs).1.status = .DOWNLOAD_COMPLETE ∧
    (startDownload mvFailEnv pendingChecker emptyFs).2.files (markerPath mvFailEnv)
      = some "abc123" ∧
    (startDownload mvFailEnv pendingChecker emptyFs).2.dirs (exampleDir ++ "/data") = false := by
  refine ⟨by decide, by decide, by decide, by decide⟩

/-! ## C2 -/

theorem updateButtonStates_ok (w : NewSetWizard) : w.updateButtonStates.forwardOk := by
  unfold NewSetWizard.updateButtonStates NewSetWizard.forwardOk
  split
  · next h => exact ⟨fun _ he => he, fun h2 => by simp [h] at h2⟩
  · next h => exact ⟨fun h2 => absurd h2 h, fun _ he => he⟩

theorem onSelectEvent_ok (w : NewSetWizard) (id : ListId) : (w.onSelectEvent id).forwardOk := by
  cases id
  · exact updateButtonStates_ok w
  · unfold NewSetWizard.onSelectEvent NewSetWizard.onStyleSelect
    exact updateButtonStates_ok _

theorem showStep_ok (w : NewSetWizard) (step : WizardStep) : (w.showStep step).forwardOk := by
  unfold NewSetWizard.showStep
  exact updateButtonStates_ok _

theorem onUpdateUI_ok (w : NewSetWizard) (b : Bool) (h : w.forwardOk) :
    (w.onUpdateUI b).forwardOk := by
  unfold NewSetWizard.onUpdateUI
  cases b
  · exact ⟨fun _ he => he, h.2⟩
  · exact ⟨h.1, fun _ he => he⟩

theorem done_ok (env : WizardEnv) (w : NewSetWizard) (h : w.forwardOk) :
    (w.done env).forwardOk := by
  unfold NewSetWizard.done
  split
  · exact h
  · split
    · exact h
    · split
      · exact h
      · split
        · exact h
        · split <;> exact h

theorem onGameNext_ok (env : WizardEnv) (w : NewSetWizard) (h : w.forwardOk) :
    (w.onGameNext env).forwardOk := by
  unfold NewSetWizard.onGameNext
  split
  · exact h
  · split
    · exact h
    · exact showStep_ok _ _

theorem setList_self (w : NewSetWizard) (id : ListId) : w.setList id (w.list id) = w := by
  cases id <;> rfl

theorem setList_ok_of_hasSelection (w : NewSetWizard) (id : ListId) (l : SearchablePackageList)
    (h : w.forwardOk) (hl : l.hasSelection = true) : (w.setList id l).forwardOk := by
  cases id
  · exact ⟨fun _ _ => hl, h.2⟩
  · exact ⟨h.1, fun _ _ => hl⟩

theorem onLeftClick_cases (g : StyledPackageGrid) (v : View) (x y : Int) :
    ((g.onLeftClick v x y).2 = true ∧ (g.onLeftClick v x y).1.hasSelection = true) ∨
    ((g.onLeftClick v x y).2 = false ∧ (g.onLeftClick v x y).1 = g) := by
  unfold StyledPackageGrid.onLeftClick
  dsimp only
  split
  · next h =>
    left
    refine ⟨rfl, ?_⟩
    unfold StyledPackageGrid.hasSelection
    simpa using h
  · right
    exact ⟨rfl, rfl⟩

theorem handle_ok (env : WizardEnv) (w : NewSetWizard) (ev : WizardEvent) (h : w.forwardOk) :
    (w.handle env ev).forwardOk := by
  cases ev with
  | leftDown id v x y =>
    unfold NewSetWizard.handle
    dsimp only
    rcases onLeftClick_cases (w.list id).styledGrid v x y with ⟨h1, _⟩ | ⟨h1, h2⟩
    · rw [h1]
      exact onSelectEvent_ok _ _
    · rw [h1, h2]
      simp only [Bool.false_eq_true, if_false]
      rw [setList_self]
      exact h
  | leftDClick id v x y =>
    unfold NewSetWizard.handle
    dsimp only
    rcases onLeftClick_cases (w.list id).styledGrid v x y with ⟨h1, h3⟩ | ⟨h1, h2⟩
    · rw [h1]
      simp only [if_true]
      have hok := setList_ok_of_hasSelection w id
        { w.list id with styledGrid := ((w.list id).styledGrid.onLeftClick v x y).1 } h h3
      cases id
      · show (NewSetWizard.onGameActivate env _).forwardOk
        unfold NewSetWizard.onGameActivate
        split
        · exact onGameNext_ok env _ hok
        · exact hok
      · show (NewSetWizard.onStyleActivate env _).forwardOk
        unfold NewSetWizard.onStyleActivate
        split
        · exact done_ok env _ hok
        · exact hok
    · rw [h1, h2]
      simp only [Bool.false_eq_true, if_false]
      rw [setList_self]
      exact h
  | searchText id text =>
    unfold NewSetWizard.handle NewSetWizard.filterBySearch
    exact onSelectEvent_ok _ _
  | clickNext =>
    show (if w.gameNextEnabled = true then w.onGameNext env else w).forwardOk
    split
    · exact onGameNext_ok env w h
    · exact h
  | clickBack => exact showStep_ok _ _
  | clickCreate =>
    show (if w.styleCreateEnabled = true then w.done env else w).forwardOk
    split
    · exact done_ok env w h
    · exact h
  | updateUI b => exact onUpdateUI_ok w b h
  | idle => exact h

theorem handleAll_ok (env : WizardEnv) (w : NewSetWizard) (events : List WizardEvent)
    (h : w.forwardOk) : (NewSetWizard.handleAll env w events).forwardOk := by
  induction events generalizing w with
  | nil => exact h
  | cons ev rest ih => exact ih _ (handle_ok env w ev h)

theorem selectInList_game_ok (w : NewSetWizard) (name : String)
    (hs : w.currentStep = .STEP_SELECT_GAME) (hb : w.gameNextEnabled = false) :
    (w.selectInList .ID_WIZARD_GAME_LIST name true).forwardOk := by
  unfold NewSetWizard.selectInList
  dsimp only
  split
  · exact onSelectEvent_ok _ _
  · refine ⟨fun _ he => ?_, fun h2 => ?_⟩
    · have : w.gameNextEnabled = true := he
      rw [hb] at this
      cases this
    · have : w.currentStep = .STEP_SELECT_STYLE := h2
      rw [hs] at this
      cases this

theorem create_ok (env : WizardEnv) (settings : Settings) :
    (NewSetWizard.create env settings).forwardOk := by
  unfold NewSetWizard.create
  dsimp only
  apply onUpdateUI_ok
  apply onUpdateUI_ok
  apply selectInList_game_ok
  · cases hc : env.clearSendsText <;>
      simp [NewSetWizard.showDataInternal, NewSetWizard.showStep, NewSetWizard.updateButtonStates,
        NewSetWizard.setList, NewSetWizard.list, NewSetWizard.filterBySearch,
        NewSetWizard.onSelectEvent, NewSetWizard.onGameSelect, hc]
  · cases hc : env.clearSendsText <;>
      simp [NewSetWizard.showDataInternal, NewSetWizard.showStep, NewSetWizard.updateButtonStates,
        NewSetWizard.setList, NewSetWizard.list, NewSetWizard.filterBySearch,
        NewSetWizard.onSelectEvent, NewSetWizard.onGameSelect, hc,
        SearchablePackageList.hasSelection, StyledPackageGrid.hasSelection,
        StyledPackageGrid.filter, allIndicesFrom, matchingIndicesFrom]

/-- C2: in every state reached by the constructor and any sequence of events,
the forward button of the current step is enabled only if the list of that
step has a selection: "Next" in STEP_SELECT_GAME, "Create Set" in
STEP_SELECT_STYLE. -/
theorem forward_button_enabled_only_with_selection (env : WizardEnv) (settings : Settings)
    (events : List WizardEvent) :
    ((NewSetWizard.handleAll env (NewSetWizard.create env settings) events).currentStep
        = .STEP_SELECT_GAME →
      (NewSetWizard.handleAll env (NewSetWizard.create env settings) events).gameNextEnabled
        = true →
      (NewSetWizard.handleAll env (NewSetWizard.create env settings) events).gameList.hasSelection
        = true) ∧
    ((NewSetWizard.handleAll env (NewSetWizard.create env settings) events).currentStep
        = .STEP_SELECT_STYLE →
      (NewSetWizard.handleAll env (NewSetWizard.create env settings) events).styleCreateEnabled
        = true →
      (NewSetWizard.handleAll env (NewSetWizard.create env settings) events).styleList.hasSelection
        = true) :=
  handleAll_ok env _ events (create_ok env settings)

set_option maxRecDepth 100000 in
/-- C2 at concrete inputs: right after the constructor selected the default
game, and after "Next" followed by a click on the first stylesheet. -/
theorem forward_button_enabled_only_with_selection_witness :
    (NewSetWizard.create exampleWizardEnv exampleSettings).gameNextEnabled = true ∧
    (NewSetWizard.create exampleWizardEnv exampleSettings).gameList.hasSelection = true ∧
    (NewSetWizard.handleAll exampleWizardEnv (NewSetWizard.create exampleWizardEnv exampleSettings)
      [.clickNext, .leftDown .ID_WIZARD_STYLE_LIST ⟨0, 700, 400⟩ 60 40]).styleCreateEnabled
        = true ∧
    (NewSetWizard.handleAll exampleWizardEnv (NewSetWizard.create exampleWizardEnv exampleSettings)
      [.clickNext, .leftDown .ID_WIZARD_STYLE_LIST ⟨0, 700, 400⟩ 60 40]).styleList.hasSelection
        = true :=
  ⟨by decide,
   (forward_button_enabled_only_with_selection exampleWizardEnv exampleSettings []).1
     (by decide) (by decide),
   by decide,
   (forward_button_enabled_only_with_selection exampleWizardEnv exampleSettings
     [.clickNext, .leftDown .ID_WIZARD_STYLE_LIST ⟨0, 700, 400⟩ 60 40]).2
     (by decide) (by decide)⟩

/-! ## C3 -/

theorem findFrom_isSome_iff (needle : List Char) (i : Nat) (hay : List Char) :
    (findFrom needle i hay).isSome = true ↔ needle <:+: hay := by
  induction hay generalizing i with
  | nil =>
    unfold findFrom
    rw [List.infix_nil]
    cases needle <;> simp
  | cons c cs ih =>
    unfold findFrom
    rw [List.infix_cons_iff]
    by_cases hp : needle.isPrefixOf (c :: cs) = true
    · rw [if_pos hp]
      simp only [Option.isSome_some, true_iff]
      exact Or.inl (List.isPrefixOf_iff_prefix.mp hp)
    · rw [if_neg hp, ih]
      constructor
      · exact Or.inr
      · rintro (h | h)
        · exact absurd (List.isPrefixOf_iff_prefix.mpr h) hp
        · exact h

theorem wxFind_isSome_iff (haystack needle : String) :
    (wxFind haystack needle).isSome = true ↔ needle.data <:+: haystack.data :=
  findFrom_isSome_iff _ _ _

theorem allIndicesFrom_eq (i : Nat) (l : List PackageData) :
    allIndicesFrom i l = List.range' i l.length := by
  induction l generalizing i with
  | nil => rfl
  | cons a rest ih =>
    unfold allIndicesFrom
    rw [ih, List.length_cons, List.range'_succ]

theorem mem_matchingIndicesFrom (needle : String) (i : Nat) (l : List PackageData) (j : Nat) :
    j ∈ matchingIndicesFrom needle i l ↔
      i ≤ j ∧ ∃ pkg, l[j - i]? = some pkg ∧
        ((wxFind (Lower pkg.package.short_name) needle).isSome ||
          (wxFind (Lower pkg.package.full_name) needle).isSome) = true := by
  induction l generalizing i with
  | nil => simp [matchingIndicesFrom]
  | cons p rest ih =>
    have hrec : j ∈ matchingIndicesFrom needle (i + 1) rest ↔
        i < j ∧ ∃ pkg, (p :: rest)[j - i]? = some pkg ∧
          ((wxFind (Lower pkg.package.short_name) needle).isSome ||
            (wxFind (Lower pkg.package.full_name) needle).isSome) = true := by
      rw [ih]
      constructor
      · rintro ⟨h1, pkg, h2, h3⟩
        refine ⟨h1, pkg, ?_, h3⟩
        have : j - i = (j - (i + 1)) + 1 := by omega
        rw [this, List.getElem?_cons_succ]
        exact h2
      · rintro ⟨h1, pkg, h2, h3⟩
        refine ⟨h1, pkg, ?_, h3⟩
        have : j - i = (j - (i + 1)) + 1 := by omega
        rw [this, List.getElem?_cons_succ] at h2
        exact h2
    unfold matchingIndicesFrom
    dsimp only
    split
    · next hc =>
      rw [List.mem_cons, hrec]
      constructor
      · rintro (rfl | ⟨h1, h2⟩)
        · exact ⟨Nat.le_refl _, p, by simp, hc⟩
        · exact ⟨Nat.le_of_lt h1, h2⟩
      · rintro ⟨h1, h2⟩
        rcases Nat.eq_or_lt_of_le h1 with h | h
        · exact Or.inl h.symm
        · exact Or.inr ⟨h, h2⟩
    · next hc =>
      rw [hrec]
      constructor
      · rintro ⟨h1, h2⟩
        exact ⟨Nat.le_of_lt h1, h2⟩
      · rintro ⟨h1, pkg, h2, h3⟩
        rcases Nat.eq_or_lt_of_le h1 with h | h
        · subst h
          simp at h2
          subst h2
          exact absurd h3 hc
        · exact ⟨h, pkg, h2, h3⟩

theorem pairwise_matchingIndicesFrom (needle : String) (i : Nat) (l : List PackageData) :
    (matchingIndicesFrom needle i l).Pairwise (· < ·) := by
  induction l generalizing i with
  | nil => exact List.Pairwise.nil
  | cons p rest ih =>
    unfold matchingIndicesFrom
    dsimp only
    split
    · refine List.Pairwise.cons ?_ (ih _)
      intro j hj
      exact ((mem_matchingIndicesFrom needle (i + 1) rest j).mp hj).1
    · exact ih _

/-- C3: `filter` reduces the visible set to the name-matching subset.  After
`filter(t)` the list `filteredIndices` is strictly increasing and holds
exactly the indices of `allPackages` whose lower-cased short name or full
name contains the lower-cased `t`; for the empty `t` it is `0..n-1`; the
packages themselves are unchanged, and two search texts that differ only in
case give the same result. -/
theorem filter_shows_matching_subset (g : StyledPackageGrid) (t : String) :
    (g.filter t).filteredIndices.Pairwise (· < ·) ∧
    (∀ i, i ∈ (g.filter t).filteredIndices ↔
      ∃ pkg, g.allPackages[i]? = some pkg ∧
        ((Lower t).data <:+: (Lower pkg.package.short_name).data ∨
          (Lower t).data <:+: (Lower pkg.package.full_name).data)) ∧
    (t = "" → (g.filter t).filteredIndices = List.range g.allPackages.length) ∧
    (g.filter t).allPackages = g.allPackages ∧
    (∀ u, Lower u = Lower t → (g.filter u).filteredIndices = (g.filter t).filteredIndices) := by
  have hidx : (g.filter t).filteredIndices =
      if (Lower t).isEmpty = true then allIndicesFrom 0 g.allPackages
      else matchingIndicesFrom (Lower t) 0 g.allPackages := rfl
  refine ⟨?_, ?_, ?_, rfl, ?_⟩
  · rw [hidx]
    split
    · rw [allIndicesFrom_eq]
      exact List.pairwise_lt_range' 0 _
    · exact pairwise_matchingIndicesFrom _ _ _
  · intro i
    rw [hidx]
    split
    · next he =>
      have hnil : (Lower t).data = [] := by
        rw [(String.isEmpty_iff _).mp he]
      rw [allIndicesFrom_eq, hnil]
      simp only [List.mem_range'_1, Nat.zero_le, Nat.zero_add, true_and, List.nil_infix, or_self,
        and_true]
      constructor
      · intro h
        exact ⟨g.allPackages[i], List.getElem?_eq_getElem h⟩
      · rintro ⟨pkg, h⟩
        exact (List.getElem?_eq_some_iff.mp h).1
    · rw [mem_matchingIndicesFrom]
      simp only [Nat.zero_le, Nat.sub_zero, true_and, Bool.or_eq_true, wxFind_isSome_iff]
  · intro ht
    subst ht
    have he : (Lower "").isEmpty = true := by decide
    rw [hidx, if_pos he, allIndicesFrom_eq, List.range_eq_range']
  · intro u hu
    show (if (Lower u).isEmpty = true then allIndicesFrom 0 g.allPackages
      else matchingIndicesFrom (Lower u) 0 g.allPackages) = _
    rw [hidx, hu]

set_option maxRecDepth 100000 in
/-- C3 at concrete inputs: the empty text shows both games, and "MAG" shows
the same (single) game as "mag". -/
theorem filter_shows_matching_subset_witness :
    (exampleGrid.filter "").filteredIndices = List.range exampleGrid.allPackages.length ∧
    (exampleGrid.filter "MAG").filteredIndices = (exampleGrid.filter "mag").filteredIndices ∧
    (exampleGrid.filter "mag").filteredIndices = [0] ∧
    (exampleGrid.filter "system").filteredIndices = [1] :=
  ⟨(filter_shows_matching_subset exampleGrid "").2.2.1 rfl,
   (filter_shows_matching_subset exampleGrid "mag").2.2.2.2 "MAG" (by decide),
   by decide, by decide⟩

/-! ## C10 -/

/-- The file system after the directory step of `installFontFile`: files and
permissions are those of `fs`. -/
theorem installFontFile_dirStep (dir : String) (fs : FileSys) :
    (if (!wxDirExists fs dir) = true then (wxMkdir fs dir).2 else fs).files = fs.files ∧
    (if (!wxDirExists fs dir) = true then (wxMkdir fs dir).2 else fs).readable = fs.readable ∧
    (if (!wxDirExists fs dir) = true then (wxMkdir fs dir).2 else fs).writable = fs.writable ∧
    (if (!wxDirExists fs dir) = true then (wxMkdir fs dir).2 else fs).mkdirOk = fs.mkdirOk := by
  unfold wxMkdir
  split
  · split <;> exact ⟨rfl, rfl, rfl, rfl⟩
  · exact ⟨rfl, rfl, rfl, rfl⟩

/-- The directory step changes nothing when repeated. -/
theorem installFontFile_dirStep_idem (dir : String) (fs fs2 : FileSys)
    (hd : fs2.dirs = (if (!wxDirExists fs dir) = true then (wxMkdir fs dir).2 else fs).dirs)
    (hm : fs2.mkdirOk = fs.mkdirOk) :
    (if (!wxDirExists fs2 dir) = true then (wxMkdir fs2 dir).2 else fs2) = fs2 := by
  unfold wxMkdir wxDirExists at *
  cases h1 : fs.dirs dir <;> cases h2 : fs.mkdirOk dir <;>
    simp [h1, h2, hm] at hd ⊢ <;> simp [hd, h1]

theorem wxCopyFile_frame (fs : FileSys) (src dst : String) :
    (wxCopyFile fs src dst).2.dirs = fs.dirs ∧ (wxCopyFile fs src dst).2.mkdirOk = fs.mkdirOk ∧
    ((wxCopyFile fs src dst).1 = true → ((wxCopyFile fs src dst).2.files dst).isSome = true) ∧
    ((wxCopyFile fs src dst).1 = false → (wxCopyFile fs src dst).2 = fs) := by
  unfold wxCopyFile
  split
  · split
    · exact ⟨rfl, rfl, (fun _ => by simp), (fun h => by cases h)⟩
    · exact ⟨rfl, rfl, (fun h => by cases h), (fun _ => rfl)⟩
  · exact ⟨rfl, rfl, (fun h => by cases h), (fun _ => rfl)⟩

/-- C10: `installFontFile` is copy-if-absent.  With `d` the destination path:
if a file exists at `d` the call returns true and changes no file; otherwise
its result and the files afterwards are those of copying `p` to `d`.  A second
call right after a call that returned true returns true and changes nothing,
and a call that returned false has changed no file. -/
theorem installFontFile_copy_if_absent (dir : String) (fs : FileSys) (p : String) :
    ((fs.files (dir ++ "/" ++ GetFullName p)).isSome = true →
      (installFontFile dir fs p).1 = true ∧ (installFontFile dir fs p).2.files = fs.files) ∧
    (fs.files (dir ++ "/" ++ GetFullName p) = none →
      (installFontFile dir fs p).1 = (wxCopyFile fs p (dir ++ "/" ++ GetFullName p)).1 ∧
      (installFontFile dir fs p).2.files
        = (wxCopyFile fs p (dir ++ "/" ++ GetFullName p)).2.files) ∧
    ((installFontFile dir fs p).1 = true →
      installFontFile dir (installFontFile dir fs p).2 p = (true, (installFontFile dir fs p).2)) ∧
    ((installFontFile dir fs p).1 = false → (installFontFile dir fs p).2.files = fs.files) := by
  obtain ⟨hf, hr, hw, hm⟩ := installFontFile_dirStep dir fs
  have hdef : installFontFile dir fs p =
      if wxFileExists (if (!wxDirExists fs dir) = true then (wxMkdir fs dir).2 else fs)
          (dir ++ "/" ++ GetFullName p) = true
      then (true, if (!wxDirExists fs dir) = true then (wxMkdir fs dir).2 else fs)
      else wxCopyFile (if (!wxDirExists fs dir) = true then (wxMkdir fs dir).2 else fs) p
        (dir ++ "/" ++ GetFullName p) := rfl
  generalize hfs1 : (if (!wxDirExists fs dir) = true then (wxMkdir fs dir).2 else fs) = fs1
    at hf hr hw hm hdef
  have hcopy : (wxCopyFile fs1 p (dir ++ "/" ++ GetFullName p)).1
        = (wxCopyFile fs p (dir ++ "/" ++ GetFullName p)).1 ∧
      (wxCopyFile fs1 p (dir ++ "/" ++ GetFullName p)).2.files
        = (wxCopyFile fs p (dir ++ "/" ++ GetFullName p)).2.files := by
    unfold wxCopyFile
    rw [hf, hr, hw]
    cases fs.files p with
    | none => exact ⟨rfl, hf⟩
    | some content =>
      dsimp only
      split
      · exact ⟨rfl, rfl⟩
      · exact ⟨rfl, hf⟩
  refine ⟨?_, ?_, ?_, ?_⟩
  · intro he
    rw [hdef, if_pos (by unfold wxFileExists; rw [hf]; exact he)]
    exact ⟨rfl, hf⟩
  · intro hn
    rw [hdef, if_neg (by unfold wxFileExists; rw [hf, hn]; simp)]
    exact hcopy
  · intro h1
    have hex : wxFileExists (installFontFile dir fs p).2 (dir ++ "/" ++ GetFullName p) = true := by
      rw [hdef] at h1 ⊢
      split
      · next he => exact he
      · next he =>
        rw [if_neg he] at h1
        exact (wxCopyFile_frame fs1 p _).2.2.1 h1
    have hdirs : (installFontFile dir fs p).2.dirs = fs1.dirs ∧
        (installFontFile dir fs p).2.mkdirOk = fs.mkdirOk := by
      rw [hdef]
      split
      · exact ⟨rfl, hm⟩
      · exact ⟨(wxCopyFile_frame fs1 p _).1, by rw [(wxCopyFile_frame fs1 p _).2.1, hm]⟩
    have hidem := installFontFile_dirStep_idem dir fs (installFontFile dir fs p).2
      (by rw [hdirs.1, hfs1]) hdirs.2
    generalize installFontFile dir fs p = s1 at hex hidem ⊢
    show (if wxFileExists (if (!wxDirExists s1.2 dir) = true then (wxMkdir s1.2 dir).2 else s1.2)
          (dir ++ "/" ++ GetFullName p) = true
      then (true, if (!wxDirExists s1.2 dir) = true then (wxMkdir s1.2 dir).2 else s1.2)
      else wxCopyFile (if (!wxDirExists s1.2 dir) = true then (wxMkdir s1.2 dir).2 else s1.2) p
        (dir ++ "/" ++ GetFullName p)) = _
    rw [hidem, if_pos hex]
  · intro h0
    rw [hdef] at h0 ⊢
    split
    · exact hf
    · next he =>
      rw [if_neg he] at h0
      rw [(wxCopyFile_frame fs1 p _).2.2.2 h0]
      exact hf

set_option maxRecDepth 100000 in
/-- C10 at a concrete input: installing the bundled font twice into an empty
user font directory copies it once. -/
theorem installFontFile_copy_if_absent_witness :
    fontFs.files ("/home/u/.local/share/fonts" ++ "/" ++
      GetFullName "/opt/mse/Magic - Fonts/beleren-bold_P1.01.ttf") = none ∧
    (installFontFile "/home/u/.local/share/fonts" fontFs
      "/opt/mse/Magic - Fonts/beleren-bold_P1.01.ttf").1 = true ∧
    (installFontFile "/home/u/.local/share/fonts" fontFs
      "/opt/mse/Magic - Fonts/beleren-bold_P1.01.ttf").2.files
        "/home/u/.local/share/fonts/beleren-bold_P1.01.ttf" = some "font data" ∧
    installFontFile "/home/u/.local/share/fonts"
      (installFontFile "/home/u/.local/share/fonts" fontFs
        "/opt/mse/Magic - Fonts/beleren-bold_P1.01.ttf").2
      "/opt/mse/Magic - Fonts/beleren-bold_P1.01.ttf"
      = (true, (installFontFile "/home/u/.local/share/fonts" fontFs
        "/opt/mse/Magic - Fonts/beleren-bold_P1.01.ttf").2) :=
  ⟨by decide, by decide, by decide,
   (installFontFile_copy_if_absent "/home/u/.local/share/fonts" fontFs
      "/opt/mse/Magic - Fonts/beleren-bold_P1.01.ttf").2.2.1 (by decide)⟩

/-! ## C13 -/

theorem OnFile_eq (fonts : List String) (filename : String) :
    OnFile fonts filename = fonts ++ (if isFontPath filename = true then [filename] else []) := by
  unfold OnFile isFontPath
  dsimp only
  split
  · next h => simp [h]
  · next h => simp [h]

theorem traverseFiles_eq (pre : String) (entries : List DirEntry) (fonts : List String) :
    traverseFiles pre entries fonts = fonts ++ (ownFiles pre entries).filter isFontPath := by
  induction entries generalizing fonts with
  | nil => simp [traverseFiles, ownFiles]
  | cons e rest ih =>
    cases e with
    | file name =>
      unfold traverseFiles ownFiles
      rw [ih, OnFile_eq, List.filter_cons]
      split <;> simp
    | dir name openable contents =>
      unfold traverseFiles ownFiles
      exact ih fonts

mutual
theorem traverseDirEntry_eq (pre : String) (e : DirEntry) (fonts : List String) :
    traverseDirEntry pre e fonts = fonts ++ (reachableBelowEntry pre e).filter isFontPath := by
  cases e with
  | file name => simp [traverseDirEntry, reachableBelowEntry]
  | dir name openable contents =>
    unfold traverseDirEntry reachableBelowEntry
    cases openable with
    | false => simp
    | true =>
      simp only [if_true]
      rw [traverseFiles_eq, traverseDirs_eq (pre ++ name ++ "/") contents fonts,
        List.filter_append, List.append_assoc]
theorem traverseDirs_eq (pre : String) (entries : List DirEntry) (fonts : List String) :
    traverseDirs pre entries fonts = fonts ++ (reachableBelowList pre entries).filter isFontPath := by
  cases entries with
  | nil => simp [traverseDirs, reachableBelowList]
  | cons e rest =>
    unfold traverseDirs reachableBelowList
    rw [traverseDirs_eq pre rest, traverseDirEntry_eq pre e fonts, List.filter_append,
      List.append_assoc]
end

mutual
theorem reachableBelowEntry_eq_all (pre : String) (e : DirEntry) (h : allOpenableEntry e = true) :
    reachableBelowEntry pre e = allBelowEntry pre e := by
  cases e with
  | file name => simp [reachableBelowEntry, allBelowEntry]
  | dir name openable contents =>
    unfold allOpenableEntry at h
    rw [Bool.and_eq_true] at h
    unfold reachableBelowEntry allBelowEntry
    rw [if_pos h.1, reachableBelowList_eq_all _ contents h.2]
theorem reachableBelowList_eq_all (pre : String) (entries : List DirEntry)
    (h : allOpenableList entries = true) :
    reachableBelowList pre entries = allBelowList pre entries := by
  cases entries with
  | nil => simp [reachableBelowList, allBelowList]
  | cons e rest =>
    unfold allOpenableList at h
    rw [Bool.and_eq_true] at h
    unfold reachableBelowList allBelowList
    rw [reachableBelowEntry_eq_all pre e h.1, reachableBelowList_eq_all pre rest h.2]
end

set_option maxRecDepth 100000 in
/-- C13 as stated is violated: a font file in a sub-directory that cannot be
opened lies under the directory and has the extension "ttf", but
`findAllFonts` does not return it. -/
theorem font_in_unopenable_subdirectory_not_found :
    "/opt/mse/Magic - Fonts/locked/hidden.ttf" ∈ allFiles "/opt/mse/Magic - Fonts/" exampleFontTree ∧
    isFontPath "/opt/mse/Magic - Fonts/locked/hidden.ttf" = true ∧
    "/opt/mse/Magic - Fonts/locked/hidden.ttf" ∉
      findAllFonts exampleFontEnv bundledFs "/opt/mse/Magic - Fonts" := by
  refine ⟨by decide, by decide, by decide⟩

/-- C13 amended: `findAllFonts(dir)` returns exactly the files under `dir`
that lie in `dir` itself or in sub-directories that can be opened (a
sub-directory that cannot be opened is skipped) and whose extension, compared
case-insensitively, is "ttf" or "otf", each as often as it is listed and no
other file; when every sub-directory can be opened these are all such files
anywhere under `dir`; the result is empty when `dir` does not exist or cannot
be opened. -/
theorem findAllFonts_finds_reachable_fonts (env : FontEnv) (fs : FileSys) (dir : String) :
    (wxDirExists fs dir = false ∨ env.openDir dir = none → findAllFonts env fs dir = []) ∧
    (∀ entries, wxDirExists fs dir = true → env.openDir dir = some entries →
      findAllFonts env fs dir = (reachableFiles (dir ++ "/") entries).filter isFontPath ∧
      (allOpenableList entries = true →
        findAllFonts env fs dir = (allFiles (dir ++ "/") entries).filter isFontPath)) ∧
    (∀ path, isFontPath path = true ↔
      (Lower (GetExt path) = "ttf" ∨ Lower (GetExt path) = "otf")) := by
  refine ⟨?_, ?_, ?_⟩
  · rintro (h | h)
    · unfold findAllFonts
      rw [h]
      rfl
    · unfold findAllFonts
      rw [h]
      split <;> rfl
  · intro entries hd ho
    have hres : findAllFonts env fs dir
        = (reachableFiles (dir ++ "/") entries).filter isFontPath := by
      unfold findAllFonts
      rw [hd, ho]
      simp only [Bool.not_true, Bool.false_eq_true, if_false]
      unfold wxDirTraverse reachableFiles
      rw [traverseFiles_eq, traverseDirs_eq, List.nil_append, List.filter_append]
    refine ⟨hres, fun hall => ?_⟩
    rw [hres]
    unfold reachableFiles allFiles
    rw [reachableBelowList_eq_all _ _ hall]
  · intro path
    unfold isFontPath
    simp

set_option maxRecDepth 100000 in
/-- C13 amended, at the example directory: the three reachable fonts are
found, upper-case extension included. -/
theorem findAllFonts_finds_reachable_fonts_witness :
    findAllFonts exampleFontEnv bundledFs "/opt/mse/Magic - Fonts" =
      ["/opt/mse/Magic - Fonts/extra/MPlantin.OTF",
       "/opt/mse/Magic - Fonts/beleren-bold_P1.01.ttf",
       "/opt/mse/Magic - Fonts/mana.otf"] ∧
    findAllFonts exampleFontEnv bundledFs "/opt/mse/Magic - Fonts" =
      (reachableFiles ("/opt/mse/Magic - Fonts" ++ "/") exampleFontTree).filter isFontPath ∧
    findAllFonts exampleFontEnv emptyFs "/opt/mse/Magic - Fonts" = [] :=
  ⟨by decide,
   ((findAllFonts_finds_reachable_fonts exampleFontEnv bundledFs "/opt/mse/Magic - Fonts").2.1
      exampleFontTree (by decide) rfl).1,
   (findAllFonts_finds_reachable_fonts exampleFontEnv emptyFs "/opt/mse/Magic - Fonts").1
      (Or.inl (by decide))⟩

/-! ## C11 and C12 -/

theorem suffix_conflict (a b s1 s2 : String) (h : a ++ s1 = b ++ s2)
    (hl : s2.data.length ≤ s1.data.length) : s2.data <:+ s1.data := by
  have h1 := congrArg String.data h
  rw [String.data_append, String.data_append] at h1
  have hs1 : s1.data <:+ a.data ++ s1.data := List.suffix_append _ _
  have hs2 : s2.data <:+ a.data ++ s1.data := by rw [h1]; exact List.suffix_append _ _
  exact List.suffix_of_suffix_length_le hs2 hs1 hl

/-- The user font directory is none of the directories in which the bundled
fonts are looked for. -/
theorem userFontDir_ne_bundled (env : FontEnv) (base : String) :
    base ++ "/Magic - Fonts" ≠ getUserFontDirectory env := by
  intro h
  unfold getUserFontDirectory at h
  cases hp : env.platform <;> rw [hp] at h <;> dsimp only at h
  · exact absurd (suffix_conflict _ _ _ _ h (by decide)) (by decide)
  · exact absurd (suffix_conflict _ _ _ _ h.symm (by decide)) (by decide)
  · exact absurd (suffix_conflict _ _ _ _ h.symm (by decide)) (by decide)

/-- What one `installFontFile` can change. -/
theorem installFontFile_frame (dir : String) (fs : FileSys) (p : String) :
    (installFontFile dir fs p).2.readable = fs.readable ∧
    (installFontFile dir fs p).2.writable = fs.writable ∧
    (∀ q, q ≠ dir → (installFontFile dir fs p).2.dirs q = fs.dirs q) ∧
    (∀ q, (fs.files q).isSome = true → ((installFontFile dir fs p).2.files q).isSome = true) ∧
    ((installFontFile dir fs p).1 = true →
      ((installFontFile dir fs p).2.files (dir ++ "/" ++ GetFullName p)).isSome = true) := by
  obtain ⟨hf, hr, hw, hm⟩ := installFontFile_dirStep dir fs
  have hdirs : ∀ q, q ≠ dir →
      (if (!wxDirExists fs dir) = true then (wxMkdir fs dir).2 else fs).dirs q = fs.dirs q := by
    intro q hq
    unfold wxMkdir
    split
    · split
      · simp [hq]
      · rfl
    · rfl
  have hdef : installFontFile dir fs p =
      if wxFileExists (if (!wxDirExists fs dir) = true then (wxMkdir fs dir).2 else fs)
          (dir ++ "/" ++ GetFullName p) = true
      then (true, if (!wxDirExists fs dir) = true then (wxMkdir fs dir).2 else fs)
      else wxCopyFile (if (!wxDirExists fs dir) = true then (wxMkdir fs dir).2 else fs) p
        (dir ++ "/" ++ GetFullName p) := rfl
  generalize (if (!wxDirExists fs dir) = true then (wxMkdir fs dir).2 else fs) = fs1
    at hf hr hw hm hdef hdirs
  rw [hdef]
  split
  · next he => exact ⟨hr, hw, hdirs, fun q hq => by rw [hf]; exact hq, fun _ => he⟩
  · unfold wxCopyFile
    split
    · split
      · refine ⟨hr, hw, hdirs, fun q hq => ?_, fun _ => by simp⟩
        dsimp only
        split
        · rfl
        · rw [hf]; exact hq
      · exact ⟨hr, hw, hdirs, fun q hq => by rw [hf]; exact hq, fun h => by cases h⟩
    · exact ⟨hr, hw, hdirs, fun q hq => by rw [hf]; exact hq, fun h => by cases h⟩

/-- When the source is a readable file and the destination is writable,
`installFontFile` returns true. -/
theorem installFontFile_succeeds (dir : String) (fs : FileSys) (p : String)
    (hsrc : (fs.files p).isSome = true) (hr : fs.readable p = true)
    (hw : fs.writable (dir ++ "/" ++ GetFullName p) = true) :
    (installFontFile dir fs p).1 = true := by
  obtain ⟨hf, hr1, hw1, _⟩ := installFontFile_dirStep dir fs
  have hdef : installFontFile dir fs p =
      if wxFileExists (if (!wxDirExists fs dir) = true then (wxMkdir fs dir).2 else fs)
          (dir ++ "/" ++ GetFullName p) = true
      then (true, if (!wxDirExists fs dir) = true then (wxMkdir fs dir).2 else fs)
      else wxCopyFile (if (!wxDirExists fs dir) = true then (wxMkdir fs dir).2 else fs) p
        (dir ++ "/" ++ GetFullName p) := rfl
  generalize (if (!wxDirExists fs dir) = true then (wxMkdir fs dir).2 else fs) = fs1
    at hf hr1 hw1 hdef
  rw [hdef]
  split
  · rfl
  · unfold wxCopyFile
    rw [hf, hr1, hw1]
    cases hc : fs.files p with
    | none => rw [hc] at hsrc; cases hsrc
    | some content => simp [hr, hw]

/-- The file system after the loop does not depend on the counter. -/
theorem installLoop_snd (env : FontEnv) (fonts : List String) (n : Int) (fs : FileSys) :
    (installLoop env fonts n fs).2 = (installLoop env fonts 0 fs).2 := by
  induction fonts generalizing n fs with
  | nil => rfl
  | cons f rest ih =>
    unfold installLoop
    dsimp only
    split
    · rw [ih (n + 1), ih (0 + 1)]
    · rw [ih n, ih 0]

theorem installLoop_cons_snd (env : FontEnv) (f : String) (rest : List String) (fs : FileSys) :
    (installLoop env (f :: rest) 0 fs).2 =
      (installLoop env rest 0 (installFontFile (getUserFontDirectory env) fs f).2).2 := by
  conv_lhs => unfold installLoop
  dsimp only
  split
  · rw [installLoop_snd]
  · rfl

/-- The counter after the loop: one more for every font for which
`installFontFile` returned true. -/
theorem installLoop_fst (env : FontEnv) (fonts : List String) (n : Int) (fs : FileSys) :
    (installLoop env fonts n fs).1 =
      n + (((installTrace env fonts fs).filter (fun t => t.2)).length : Int) := by
  induction fonts generalizing n fs with
  | nil => simp [installLoop, installTrace]
  | cons f rest ih =>
    unfold installLoop installTrace
    dsimp only
    cases hres : (installFontFile (getUserFontDirectory env) fs f).1 with
    | true =>
      simp only [if_true, List.filter_cons, hres]
      rw [ih]
      simp only [List.length_cons, Nat.cast_add, Nat.cast_one]
      omega
    | false =>
      simp only [Bool.false_eq_true, if_false, List.filter_cons, hres]
      rw [ih]

/-- What the whole loop can change. -/
theorem installLoop_frame (env : FontEnv) (fonts : List String) (fs : FileSys) :
    (installLoop env fonts 0 fs).2.readable = fs.readable ∧
    (installLoop env fonts 0 fs).2.writable = fs.writable ∧
    (∀ q, q ≠ getUserFontDirectory env → (installLoop env fonts 0 fs).2.dirs q = fs.dirs q) ∧
    (∀ q, (fs.files q).isSome = true →
      ((installLoop env fonts 0 fs).2.files q).isSome = true) := by
  induction fonts generalizing fs with
  | nil => exact ⟨rfl, rfl, fun _ _ => rfl, fun _ h => h⟩
  | cons f rest ih =>
    rw [installLoop_cons_snd]
    obtain ⟨h1, h2, h3, h4⟩ := ih (installFontFile (getUserFontDirectory env) fs f).2
    obtain ⟨g1, g2, g3, g4, _⟩ := installFontFile_frame (getUserFontDirectory env) fs f
    refine ⟨by rw [h1, g1], by rw [h2, g2], fun q hq => by rw [h3 q hq, g3 q hq],
      fun q hq => h4 q (g4 q hq)⟩

/-- Installing fonts does not change which bundled fonts are found. -/
theorem findAllFonts_after_install (env : FontEnv) (fs fs2 : FileSys)
    (hd : ∀ q, q ≠ getUserFontDirectory env → fs2.dirs q = fs.dirs q) :
    findAllFonts env fs2 (getBundledFontsDirectory env fs2)
      = findAllFonts env fs (getBundledFontsDirectory env fs) := by
  have h1 := hd _ (userFontDir_ne_bundled env env.dataDir)
  have h2 := hd _ (userFontDir_ne_bundled env env.dataDirUp)
  have h3 := hd _ (userFontDir_ne_bundled env env.exeDir)
  have hb : getBundledFontsDirectory env fs2 = getBundledFontsDirectory env fs := by
    unfold getBundledFontsDirectory wxDirExists
    dsimp only
    rw [h1, h2]
  rw [hb]
  unfold findAllFonts wxDirExists
  have h4 : fs2.dirs (getBundledFontsDirectory env fs) = fs.dirs (getBundledFontsDirectory env fs) := by
    unfold getBundledFontsDirectory wxDirExists
    dsimp only
    split
    · exact h1
    · split
      · exact h2
      · exact h3
  rw [h4]

/-- The count of `countMissingFonts` is the number of fonts that are not
installed. -/
theorem countMissingLoop_eq (env : FontEnv) (fs : FileSys) (fonts : List String) (n : Int) :
    countMissingLoop env fs fonts n =
      n + ((fonts.filter (fun f => !isFontFileInstalled env fs f)).length : Int) := by
  induction fonts generalizing n with
  | nil => simp [countMissingLoop]
  | cons f rest ih =>
    unfold countMissingLoop
    cases hi : isFontFileInstalled env fs f with
    | true =>
      simp only [Bool.not_true, Bool.false_eq_true, if_false, List.filter_cons, hi]
      rw [ih]
    | false =>
      simp only [Bool.not_false, if_true, List.filter_cons, hi]
      rw [ih]
      simp only [List.length_cons, Nat.cast_add, Nat.cast_one]
      omega

/-- A font still absent after the loop is one whose copy failed. -/
theorem absent_after_loop (env : FontEnv) (fonts : List String) (fs : FileSys) :
    ((fonts.zip (installTrace env fonts fs)).filter
        (fun ft => !ft.2.2 && !isFontFileInstalled env (installLoop env fonts 0 fs).2 ft.1)).length
      = (fonts.filter
        (fun f => !isFontFileInstalled env (installLoop env fonts 0 fs).2 f)).length := by
  induction fonts generalizing fs with
  | nil => rfl
  | cons f rest ih =>
    rw [installLoop_cons_snd]
    unfold installTrace
    rw [List.zip_cons_cons, List.filter_cons, List.filter_cons]
    have ih2 := ih (installFontFile (getUserFontDirectory env) fs f).2
    cases hres : (installFontFile (getUserFontDirectory env) fs f).1 with
    | false =>
      dsimp only
      simp only [Bool.not_false, Bool.true_and]
      split
      · simp only [List.length_cons]; rw [ih2]
      · exact ih2
    | true =>
      have hpres : isFontFileInstalled env
          (installLoop env rest 0 (installFontFile (getUserFontDirectory env) fs f).2).2 f
            = true := by
        unfold isFontFileInstalled wxFileExists
        exact (installLoop_frame env rest _).2.2.2 _
          ((installFontFile_frame (getUserFontDirectory env) fs f).2.2.2.2 hres)
      dsimp only
      rw [hpres]
      simp only [Bool.not_true, Bool.false_and, Bool.false_eq_true, if_false]
      exact ih2

/-- When every copy can succeed, every font is installed after the loop. -/
theorem all_installed_after_loop (env : FontEnv) (fonts : List String) (fs : FileSys)
    (hok : ∀ f ∈ fonts, (fs.files f).isSome = true ∧ fs.readable f = true ∧
      fs.writable (getUserFontDirectory env ++ "/" ++ GetFullName f) = true) :
    ∀ f ∈ fonts, isFontFileInstalled env (installLoop env fonts 0 fs).2 f = true := by
  induction fonts generalizing fs with
  | nil => intro f hf; cases hf
  | cons g rest ih =>
    intro f hf
    rw [installLoop_cons_snd]
    obtain ⟨g1, g2, _, g4, g5⟩ := installFontFile_frame (getUserFontDirectory env) fs g
    rcases List.mem_cons.mp hf with rfl | hf
    · obtain ⟨h1, h2, h3⟩ := hok f (List.mem_cons_self _ _)
      unfold isFontFileInstalled wxFileExists
      exact (installLoop_frame env rest _).2.2.2 _
        (g5 (installFontFile_succeeds _ fs f h1 h2 h3))
    · apply ih _ _ f hf
      intro f2 hf2
      obtain ⟨h1, h2, h3⟩ := hok f2 (List.mem_cons_of_mem _ hf2)
      exact ⟨g4 _ h1, by rw [g1]; exact h2, by rw [g2]; exact h3⟩

/-- C11: the missing-font count after `installAllFonts`.  A bundled font is
missing exactly when no file with its base name exists in the user font
directory; the count after the installation is no larger than before and is
the number of fonts whose copy failed and whose base name is still absent; and
when fonts are missing and every copy can succeed, the count afterwards is 0,
strictly smaller than before. -/
theorem missing_fonts_after_install (env : FontEnv) (fs : FileSys) :
    countMissingFonts env fs =
      (((findAllFonts env fs (getBundledFontsDirectory env fs)).filter
        (fun f => !wxFileExists fs (getUserFontDirectory env ++ "/" ++ GetFullName f))).length
          : Int) ∧
    countMissingFonts env (installAllFonts env fs).fs ≤ countMissingFonts env fs ∧
    countMissingFonts env (installAllFonts env fs).fs =
      ((((findAllFonts env fs (getBundledFontsDirectory env fs)).zip
          (installTrace env (findAllFonts env fs (getBundledFontsDirectory env fs)) fs)).filter
        (fun ft => !ft.2.2 && !isFontFileInstalled env (installAllFonts env fs).fs ft.1)).length
          : Int) ∧
    (0 < countMissingFonts env fs →
      (∀ f ∈ findAllFonts env fs (getBundledFontsDirectory env fs),
        (fs.files f).isSome = true ∧ fs.readable f = true ∧
        fs.writable (getUserFontDirectory env ++ "/" ++ GetFullName f) = true) →
      countMissingFonts env (installAllFonts env fs).fs = 0 ∧
      countMissingFonts env (installAllFonts env fs).fs < countMissingFonts env fs) := by
  have hfs : (installAllFonts env fs).fs
      = (installLoop env (findAllFonts env fs (getBundledFontsDirectory env fs)) 0 fs).2 := rfl
  have hfonts : findAllFonts env (installAllFonts env fs).fs
        (getBundledFontsDirectory env (installAllFonts env fs).fs)
      = findAllFonts env fs (getBundledFontsDirectory env fs) := by
    rw [hfs]
    exact findAllFonts_after_install env fs _ (installLoop_frame env _ fs).2.2.1
  have hafter : countMissingFonts env (installAllFonts env fs).fs =
      (((findAllFonts env fs (getBundledFontsDirectory env fs)).filter
        (fun f => !isFontFileInstalled env (installAllFonts env fs).fs f)).length : Int) := by
    unfold countMissingFonts
    rw [hfonts, countMissingLoop_eq, Int.zero_add]
  have hbefore : countMissingFonts env fs =
      (((findAllFonts env fs (getBundledFontsDirectory env fs)).filter
        (fun f => !isFontFileInstalled env fs f)).length : Int) := by
    unfold countMissingFonts
    rw [countMissingLoop_eq, Int.zero_add]
  generalize findAllFonts env fs (getBundledFontsDirectory env fs) = fonts at *
  refine ⟨hbefore, ?_, ?_, ?_⟩
  · rw [hafter, hbefore]
    apply Int.ofNat_le.mpr
    apply List.Sublist.length_le
    apply List.monotone_filter_right
    intro f hf
    unfold isFontFileInstalled wxFileExists at hf ⊢
    cases hb : (fs.files (getUserFontDirectory env ++ "/" ++ GetFullName f)).isSome with
    | false => rfl
    | true =>
      rw [hfs, (installLoop_frame env fonts fs).2.2.2 _ hb] at hf
      cases hf
  · rw [hafter, hfs, absent_after_loop]
  · intro hpos hok
    have hzero : countMissingFonts env (installAllFonts env fs).fs = 0 := by
      rw [hafter, hfs]
      have : fonts.filter
          (fun f => !isFontFileInstalled env (installLoop env fonts 0 fs).2 f) = [] := by
        rw [List.filter_eq_nil_iff]
        intro f hf
        rw [all_installed_after_loop env fonts fs hok f hf]
        simp
      rw [this]
      rfl
    exact ⟨hzero, by rw [hzero]; exact hpos⟩

set_option maxRecDepth 100000 in
/-- C11 at concrete inputs: three fonts missing and all copies possible, and
a state in which one copy fails. -/
theorem missing_fonts_after_install_witness :
    countMissingFonts exampleFontEnv bundledFs = 3 ∧
    countMissingFonts exampleFontEnv (installAllFonts exampleFontEnv bundledFs).fs = 0 ∧
    countMissingFonts exampleFontEnv partlyInstalledFs = 2 ∧
    countMissingFonts exampleFontEnv (installAllFonts exampleFontEnv partlyInstalledFs).fs = 1 :=
  ⟨by decide,
   ((missing_fonts_after_install exampleFontEnv bundledFs).2.2.2 (by decide) (by decide)).1,
   by decide, by decide⟩

theorem installFontFile_of_existing (dir : String) (fs : FileSys) (p : String)
    (he : (fs.files (dir ++ "/" ++ GetFullName p)).isSome = true) :
    (installFontFile dir fs p).1 = true := by
  obtain ⟨hf, _, _, _⟩ := installFontFile_dirStep dir fs
  have hdef : installFontFile dir fs p =
      if wxFileExists (if (!wxDirExists fs dir) = true then (wxMkdir fs dir).2 else fs)
          (dir ++ "/" ++ GetFullName p) = true
      then (true, if (!wxDirExists fs dir) = true then (wxMkdir fs dir).2 else fs)
      else wxCopyFile (if (!wxDirExists fs dir) = true then (wxMkdir fs dir).2 else fs) p
        (dir ++ "/" ++ GetFullName p) := rfl
  rw [hdef, if_pos (by unfold wxFileExists; rw [hf]; exact he)]

/-- A destination that exists makes `installFontFile` return true. -/
theorem installTrace_existing (env : FontEnv) (fonts : List String) (fs : FileSys) :
    ∀ t ∈ installTrace env fonts fs, t.1 = true → t.2 = true := by
  induction fonts generalizing fs with
  | nil => intro t ht; cases ht
  | cons f rest ih =>
    intro t ht
    unfold installTrace at ht
    rcases List.mem_cons.mp ht with rfl | ht
    · intro he
      exact installFontFile_of_existing (getUserFontDirectory env) fs f he
    · exact ih _ t ht

theorem count_true_split (l : List (Bool × Bool)) (h : ∀ t ∈ l, t.1 = true → t.2 = true) :
    (l.filter (fun t => t.2)).length =
      (l.filter (fun t => !t.1 && t.2)).length + (l.filter (fun t => t.1)).length := by
  induction l with
  | nil => rfl
  | cons t rest ih =>
    have ih2 := ih (fun u hu => h u (List.mem_cons_of_mem _ hu))
    have ht := h t (List.mem_cons_self _ _)
    rw [List.filter_cons, List.filter_cons, List.filter_cons]
    rcases t with ⟨a, b⟩
    cases a <;> cases b <;> simp_all <;> omega

set_option maxRecDepth 100000 in
/-- C12 as stated is violated: when all bundled fonts are already installed,
`installAllFonts` returns 3 although this call copied no font. -/
theorem installAllFonts_counts_fonts_already_installed :
    (installAllFonts exampleFontEnv allInstalledFs).installed = 3 ∧
    ((installTrace exampleFontEnv
        (findAllFonts exampleFontEnv allInstalledFs
          (getBundledFontsDirectory exampleFontEnv allInstalledFs)) allInstalledFs).filter
      (fun t => !t.1 && t.2)).length = 0 := by
  refine ⟨by decide, by decide⟩

/-- C12 amended: the result of `installAllFonts` is the number of bundled
font files for which `installFontFile` returned true, that is, the fonts this
call copied into the user's font directory plus the fonts whose file name was
already present there; it is 0 when there are no bundled fonts, and the font
cache is refreshed exactly when the result is positive. -/
theorem installAllFonts_result (env : FontEnv) (fs : FileSys) :
    (installAllFonts env fs).installed =
      (((installTrace env (findAllFonts env fs (getBundledFontsDirectory env fs)) fs).filter
        (fun t => t.2)).length : Int) ∧
    (installAllFonts env fs).installed =
      (((installTrace env (findAllFonts env fs (getBundledFontsDirectory env fs)) fs).filter
          (fun t => !t.1 && t.2)).length : Int) +
      (((installTrace env (findAllFonts env fs (getBundledFontsDirectory env fs)) fs).filter
          (fun t => t.1)).length : Int) ∧
    (findAllFonts env fs (getBundledFontsDirectory env fs) = [] →
      (installAllFonts env fs).installed = 0) ∧
    ((installAllFonts env fs).cacheRefreshed = true ↔ 0 < (installAllFonts env fs).installed) := by
  have hres : (installAllFonts env fs).installed =
      (((installTrace env (findAllFonts env fs (getBundledFontsDirectory env fs)) fs).filter
        (fun t => t.2)).length : Int) := by
    show (installLoop env _ 0 fs).1 = _
    rw [installLoop_fst, Int.zero_add]
  refine ⟨hres, ?_, ?_, ?_⟩
  · rw [hres, count_true_split _ (installTrace_existing env _ fs)]
    simp
  · intro hnil
    rw [hres, hnil]
    rfl
  · show decide ((installLoop env _ 0 fs).1 > 0) = true ↔ 0 < (installLoop env _ 0 fs).1
    simp

set_option maxRecDepth 100000 in
/-- C12 amended, at concrete inputs: three fonts copied on a fresh system; no
bundled fonts on an empty one. -/
theorem installAllFonts_result_witness :
    (installAllFonts exampleFontEnv bundledFs).installed = 3 ∧
    (installAllFonts exampleFontEnv bundledFs).cacheRefreshed = true ∧
    (installAllFonts exampleFontEnv emptyFs).installed = 0 :=
  ⟨by decide,
   (installAllFonts_result exampleFontEnv bundledFs).2.2.2.mpr (by decide),
   (installAllFonts_result exampleFontEnv emptyFs).2.2.1 (by decide)⟩

/-! ## C14 -/

theorem join_cons (a : String) (l : List String) :
    String.join (a :: l) = a ++ String.join l := by
  apply String.ext
  rw [String.data_append, String.data_join, String.data_join, List.map_cons, List.flatten_cons]

theorem readStream_eq (stream : List StreamRead) (data : String) :
    readStream stream data = data ++ String.join ((readsUntilEof stream).map (fun r => r.data)) := by
  induction stream generalizing data with
  | nil =>
    unfold readStream readsUntilEof
    apply String.ext
    simp [String.data_append]
  | cons r rest ih =>
    have hdata : (if r.data.length > 0 then data ++ r.data else data) = data ++ r.data := by
      split
      · rfl
      · next h =>
        have h0 : r.data.data.length = 0 := by
          have : r.data.length = 0 := by omega
          exact this
        have : r.data = "" := String.ext (List.length_eq_zero.mp h0)
        rw [this]
        apply String.ext
        simp [String.data_append]
    unfold readStream readsUntilEof
    dsimp only
    rw [hdata]
    split
    · rw [List.map_cons, join_cons]
      apply String.ext
      simp [String.data_append]
    · rw [ih, List.map_cons, join_cons]
      apply String.ext
      simp [String.data_append]

/-- C14: `parse_json_string` and `parse_json_stream` return the empty object
when the parser rejects its input (any exception) and the parsed value when it
accepts it, and they always return; `parse_json_stream` hands the parser the
concatenation, in order, of the bytes of all reads up to the end of the
stream. -/
theorem json_helpers_never_raise (toStdString : String → String)
    (parse : String → Except String Json) (str : String) (stream : List StreamRead) :
    (∀ what, parse (toStdString str) = .error what →
      parse_json_string toStdString parse str = Json.object []) ∧
    (∀ j, parse (toStdString str) = .ok j → parse_json_string toStdString parse str = j) ∧
    readStream stream "" = String.join ((readsUntilEof stream).map (fun r => r.data)) ∧
    (∀ what, parse (String.join ((readsUntilEof stream).map (fun r => r.data))) = .error what →
      parse_json_stream parse stream = Json.object []) ∧
    (∀ j, parse (String.join ((readsUntilEof stream).map (fun r => r.data))) = .ok j →
      parse_json_stream parse stream = j) := by
  have hread : readStream stream ""
      = String.join ((readsUntilEof stream).map (fun r => r.data)) := by
    rw [readStream_eq]
    apply String.ext
    simp [String.data_append]
  refine ⟨?_, ?_, hread, ?_, ?_⟩
  · intro what h
    unfold parse_json_string
    rw [h]
  · intro j h
    unfold parse_json_string
    rw [h]
  · intro what h
    unfold parse_json_stream
    rw [hread, h]
  · intro j h
    unfold parse_json_stream
    rw [hread, h]

/-- C14 at concrete inputs: a response delivered in two reads, and text the
parser rejects. -/
theorem json_helpers_never_raise_witness :
    parse_json_stream parseSha exampleStream = Json.object [("sha", .str "abc123")] ∧
    parse_json_string (fun s => s) parseSha "not json" = Json.object [] :=
  ⟨(json_helpers_never_raise (fun s => s) parseSha "not json" exampleStream).2.2.2.2 _
      rfl,
   (json_helpers_never_raise (fun s => s) parseSha "not json" exampleStream).1
      "[json.exception.parse_error.101] parse error" rfl⟩

/-! ## C15 -/

/-- C15 as stated is violated: right after `postponeUpdate()`, `isPostponed()`
returns false. -/
theorem not_postponed_after_postponeUpdate :
    isPostponed (postponeUpdate ({}, emptyFs)) = false := rfl

/-- C15 amended: `postponeUpdate` changes nothing and `isPostponed` returns
false in every state, also immediately after `postponeUpdate()` (and when
`postponeUpdate()` has never been called). -/
theorem postpone_has_no_effect (s : GitHubUpdateChecker × FileSys) :
    postponeUpdate s = s ∧ isPostponed (postponeUpdate s) = false ∧ isPostponed s = false :=
  ⟨rfl, rfl, rfl⟩

/-! ## C19 -/

theorem getItemRect_of_lt (g : StyledPackageGrid) (v : View) (i : Nat)
    (hi : i < g.filteredIndices.length) :
    g.getItemRect v i =
      { x := (v.clientWidth - ((g.columnCount : Int) * 140 + ((g.columnCount : Int) - 1) * 16)).tdiv 2
              + ((i % g.columnCount : Nat) : Int) * 156,
        y := 16 + ((i / g.columnCount : Nat) : Int) * 186,
        width := 140, height := 170 } := by
  unfold StyledPackageGrid.getItemRect
  rw [if_neg (by omega)]
  simp only [ITEM_WIDTH, ITEM_HEIGHT, ITEM_SPACING]
  norm_num

theorem div_mod_differ (c i j : Nat) (hij : i ≠ j) : i % c ≠ j % c ∨ i / c ≠ j / c := by
  by_contra h
  push_neg at h
  apply hij
  rw [← Nat.div_add_mod i c, ← Nat.div_add_mod j c, h.1, h.2]

/-- C19: fixed-column-count layout with wrapping rows.  For a column count
`c >= 1`: an index below the number of filtered items gets the 140x170
rectangle at `x = startX + (i mod c)*156`, `y = 16 + (i div c)*186`, with
`startX = (w - (c*140 + (c-1)*16)) / 2` (truncating division); any other index
gets the empty rectangle; a row holds at most `c` items; and the rectangles of
two distinct items do not overlap. -/
theorem getItemRect_layout (g : StyledPackageGrid) (v : View) (i : Nat)
    (hc : 1 ≤ g.columnCount) :
    (i < g.filteredIndices.length →
      g.getItemRect v i =
        { x := (v.clientWidth
                  - ((g.columnCount : Int) * 140 + ((g.columnCount : Int) - 1) * 16)).tdiv 2
                + ((i % g.columnCount : Nat) : Int) * 156,
          y := 16 + ((i / g.columnCount : Nat) : Int) * 186,
          width := 140, height := 170 }) ∧
    (g.filteredIndices.length ≤ i →
      g.getItemRect v i = { x := 0, y := 0, width := 0, height := 0 }) ∧
    (∀ row : Nat,
      ((List.range g.filteredIndices.length).filter
        (fun k => decide ((g.getItemRect v k).y = 16 + (row : Int) * 186))).length
          ≤ g.columnCount) ∧
    (∀ j, i < g.filteredIndices.length → j < g.filteredIndices.length → i ≠ j →
      (g.getItemRect v i).Intersects (g.getItemRect v j) = false) := by
  refine ⟨getItemRect_of_lt g v i, ?_, ?_, ?_⟩
  · intro hi
    unfold StyledPackageGrid.getItemRect
    rw [if_pos hi]
  · intro row
    have hnd : ((List.range g.filteredIndices.length).filter
        (fun k => decide ((g.getItemRect v k).y = 16 + (row : Int) * 186))).Nodup :=
      (List.nodup_range _).filter _
    have hss : ((List.range g.filteredIndices.length).filter
        (fun k => decide ((g.getItemRect v k).y = 16 + (row : Int) * 186))) ⊆
        List.range' (row * g.columnCount) g.columnCount := by
      intro k hk
      rw [List.mem_filter, List.mem_range] at hk
      obtain ⟨hk1, hk2⟩ := hk
      rw [getItemRect_of_lt g v k hk1] at hk2
      simp only [decide_eq_true_eq] at hk2
      have hrow : k / g.columnCount = row := by
        have : ((k / g.columnCount : Nat) : Int) = (row : Int) := by omega
        exact_mod_cast this
      rw [List.mem_range'_1]
      have h1 := Nat.div_mul_le_self k g.columnCount
      have h2 := Nat.lt_div_mul_add (a := k) (b := g.columnCount) (by omega)
      rw [hrow] at h1 h2
      exact ⟨h1, h2⟩
    calc _ ≤ (List.range' (row * g.columnCount) g.columnCount).length :=
          (List.subperm_of_subset hnd hss).length_le
      _ = g.columnCount := List.length_range' _ _ _
  · intro j hi hj hij
    rw [getItemRect_of_lt g v i hi, getItemRect_of_lt g v j hj]
    unfold wxRect.Intersects
    simp only [decide_eq_false_iff_not]
    rcases div_mod_differ g.columnCount i j hij with h | h
    · have h2 : ((i % g.columnCount : Nat) : Int) ≠ ((j % g.columnCount : Nat) : Int) := by
        exact_mod_cast h
      omega
    · have h2 : ((i / g.columnCount : Nat) : Int) ≠ ((j / g.columnCount : Nat) : Int) := by
        exact_mod_cast h
      omega

set_option maxRecDepth 100000 in
/-- C19 at a concrete input: the second of the two example games in a grid of
client width 700. -/
theorem getItemRect_layout_witness :
    1 ≤ exampleGrid.columnCount ∧
    exampleGrid.getItemRect ⟨0, 700, 400⟩ 1 = { x := 202, y := 16, width := 140, height := 170 } ∧
    exampleGrid.getItemRect ⟨0, 700, 400⟩ 2 = { x := 0, y := 0, width := 0, height := 0 } ∧
    (exampleGrid.getItemRect ⟨0, 700, 400⟩ 1).Intersects
      (exampleGrid.getItemRect ⟨0, 700, 400⟩ 0) = false :=
  ⟨by decide, by decide,
   (getItemRect_layout exampleGrid ⟨0, 700, 400⟩ 2 (by decide)).2.1 (by decide),
   (getItemRect_layout exampleGrid ⟨0, 700, 400⟩ 1 (by decide)).2.2.2 0 (by decide) (by decide)
     (by decide)⟩

/-! ## C16 -/

theorem sameStep_refl (w : NewSetWizard) : w.sameStep w := ⟨rfl, rfl, rfl, rfl⟩

theorem sameStep_trans {a b c : NewSetWizard} (h1 : a.sameStep b) (h2 : b.sameStep c) :
    a.sameStep c :=
  ⟨h2.1.trans h1.1, h2.2.1.trans h1.2.1, h2.2.2.1.trans h1.2.2.1, h2.2.2.2.trans h1.2.2.2⟩

theorem sameStep_updateButtonStates (w : NewSetWizard) : w.sameStep w.updateButtonStates := by
  unfold NewSetWizard.updateButtonStates
  split <;> exact ⟨rfl, rfl, rfl, rfl⟩

theorem sameStep_setList (w : NewSetWizard) (id : ListId) (l : SearchablePackageList) :
    w.sameStep (w.setList id l) := by
  cases id <;> exact ⟨rfl, rfl, rfl, rfl⟩

theorem sameStep_onSelectEvent (w : NewSetWizard) (id : ListId) :
    w.sameStep (w.onSelectEvent id) := by
  cases id
  · exact sameStep_updateButtonStates w
  · unfold NewSetWizard.onSelectEvent NewSetWizard.onStyleSelect
    dsimp only
    refine sameStep_trans ?_ (sameStep_updateButtonStates _)
    split
    · split <;> exact ⟨rfl, rfl, rfl, rfl⟩
    · exact sameStep_refl w

theorem sameStep_filterBySearch (w : NewSetWizard) (id : ListId) (text : String) :
    w.sameStep (w.filterBySearch id text) := by
  unfold NewSetWizard.filterBySearch
  exact sameStep_trans (sameStep_setList _ _ _) (sameStep_onSelectEvent _ _)

theorem sameStep_showDataInternal (env : WizardEnv) (w : NewSetWizard) (id : ListId)
    (pattern : String) : w.sameStep (w.showDataInternal env id pattern) := by
  unfold NewSetWizard.showDataInternal
  dsimp only
  refine sameStep_trans ?_ (sameStep_setList _ _ _)
  split
  · exact sameStep_trans (sameStep_setList _ _ _) (sameStep_filterBySearch _ _ _)
  · exact sameStep_setList _ _ _

theorem sameStep_selectInList (w : NewSetWizard) (id : ListId) (name : String) (b : Bool) :
    w.sameStep (w.selectInList id name b) := by
  unfold NewSetWizard.selectInList
  dsimp only
  split
  · exact sameStep_trans (sameStep_setList _ _ _) (sameStep_onSelectEvent _ _)
  · exact sameStep_setList _ _ _

theorem sameStep_done (env : WizardEnv) (w : NewSetWizard) : w.sameStep (w.done env) := by
  unfold NewSetWizard.done
  split
  · exact sameStep_refl w
  · split
    · exact sameStep_refl w
    · split
      · exact sameStep_refl w
      · split
        · exact sameStep_refl w
        · split <;> exact ⟨rfl, rfl, rfl, rfl⟩

theorem sameStep_onUpdateUI (w : NewSetWizard) (b : Bool) : w.sameStep (w.onUpdateUI b) := by
  unfold NewSetWizard.onUpdateUI
  cases b <;> exact ⟨rfl, rfl, rfl, rfl⟩

theorem showStep_fields (w : NewSetWizard) (step : WizardStep) :
    (w.showStep step).currentStep = step ∧
    (w.showStep step).gamePanelShown = decide (step = WizardStep.STEP_SELECT_GAME) ∧
    (w.showStep step).stylePanelShown = decide (step = WizardStep.STEP_SELECT_STYLE) ∧
    (w.showStep step).selectedGame = w.selectedGame ∧
    (w.showStep step).gameList = w.gameList ∧ (w.showStep step).styleList = w.styleList := by
  unfold NewSetWizard.showStep NewSetWizard.updateButtonStates
  dsimp only
  split <;> exact ⟨rfl, rfl, rfl, rfl, rfl, rfl⟩

/-- What `onGameNext` does: nothing, or the switch to the style step with the
selected game stored. -/
theorem onGameNext_cases (env : WizardEnv) (w : NewSetWizard) :
    ((w.gameList.hasSelection = false ∨ w.gameList.styledGrid.getSelection = none) ∧
      w.onGameNext env = w) ∨
    (w.gameList.hasSelection = true ∧
      (w.onGameNext env).currentStep = .STEP_SELECT_STYLE ∧
      (w.onGameNext env).gamePanelShown = false ∧ (w.onGameNext env).stylePanelShown = true ∧
      ∃ game, w.gameList.styledGrid.getSelection = some game ∧
        (w.onGameNext env).selectedGame = some game) := by
  unfold NewSetWizard.onGameNext
  split
  · next hno => exact Or.inl ⟨Or.inl (by simpa using hno), rfl⟩
  · next hsel =>
    split
    · next hnone => exact Or.inl ⟨Or.inr hnone, rfl⟩
    · next game hget =>
      right
      dsimp only
      obtain ⟨h1, h2, h3, h4, _, _⟩ := showStep_fields
        (NewSetWizard.selectInList
          (NewSetWizard.showDataInternal env
            { w with selectedGame := some game,
                     settings := { w.settings with default_game := game.name } }
            .ID_WIZARD_STYLE_LIST (game.name ++ "-*" ++ ".mse-" ++ env.styleTypeName))
          .ID_WIZARD_STYLE_LIST
          ((NewSetWizard.showDataInternal env
            { w with selectedGame := some game,
                     settings := { w.settings with default_game := game.name } }
            .ID_WIZARD_STYLE_LIST
            (game.name ++ "-*" ++ ".mse-" ++ env.styleTypeName)).settings.default_stylesheet
              game.name) true) .STEP_SELECT_STYLE
      refine ⟨by simpa using hsel, h1, by rw [h2]; rfl, by rw [h3]; rfl, game, hget, ?_⟩
      rw [h4]
      have s1 := sameStep_showDataInternal env
        { w with selectedGame := some game,
                 settings := { w.settings with default_game := game.name } }
        .ID_WIZARD_STYLE_LIST (game.name ++ "-*" ++ ".mse-" ++ env.styleTypeName)
      have s2 := sameStep_selectInList
        (NewSetWizard.showDataInternal env
          { w with selectedGame := some game,
                   settings := { w.settings with default_game := game.name } }
          .ID_WIZARD_STYLE_LIST (game.name ++ "-*" ++ ".mse-" ++ env.styleTypeName))
        .ID_WIZARD_STYLE_LIST
        ((NewSetWizard.showDataInternal env
          { w with selectedGame := some game,
                   settings := { w.settings with default_game := game.name } }
          .ID_WIZARD_STYLE_LIST
          (game.name ++ "-*" ++ ".mse-" ++ env.styleTypeName)).settings.default_stylesheet
            game.name) true
      rw [s2.2.2.2, s1.2.2.2]

theorem lists_onSelectEvent (w : NewSetWizard) (id : ListId) :
    (w.onSelectEvent id).styleList = w.styleList ∧ (w.onSelectEvent id).gameList = w.gameList := by
  cases id
  · unfold NewSetWizard.onSelectEvent NewSetWizard.onGameSelect NewSetWizard.updateButtonStates
    dsimp only
    split <;> exact ⟨rfl, rfl⟩
  · unfold NewSetWizard.onSelectEvent NewSetWizard.onStyleSelect NewSetWizard.updateButtonStates
    dsimp only
    split <;> split <;> (try split) <;> exact ⟨rfl, rfl⟩

theorem styleGrid_showDataInternal (env : WizardEnv) (w : NewSetWizard) (pattern : String) :
    (w.showDataInternal env .ID_WIZARD_STYLE_LIST pattern).styleList.styledGrid.allPackages =
      sortPackages ((env.findMatching pattern).map
        (fun p => { package := p, imageLoaded := false })) ∧
    (w.showDataInternal env .ID_WIZARD_STYLE_LIST pattern).styleList.styledGrid.filteredIndices =
      allIndicesFrom 0 (sortPackages ((env.findMatching pattern).map
        (fun p => { package := p, imageLoaded := false }))) := by
  unfold NewSetWizard.showDataInternal
  exact ⟨rfl, rfl⟩

theorem styleGrid_selectInList (w : NewSetWizard) (name : String) (b : Bool) :
    (w.selectInList .ID_WIZARD_STYLE_LIST name b).styleList.styledGrid.allPackages =
      w.styleList.styledGrid.allPackages ∧
    (w.selectInList .ID_WIZARD_STYLE_LIST name b).styleList.styledGrid.filteredIndices =
      w.styleList.styledGrid.filteredIndices := by
  have hsel : ∀ g : StyledPackageGrid,
      (g.select name b).1.allPackages = g.allPackages ∧
      (g.select name b).1.filteredIndices = g.filteredIndices := by
    intro g
    unfold StyledPackageGrid.select
    split <;> exact ⟨rfl, rfl⟩
  unfold NewSetWizard.selectInList
  dsimp only
  split
  · rw [(lists_onSelectEvent _ _).1]
    exact hsel _
  · exact hsel _

/-- The style list after `onGameNext` with a game selected: the packages the
package manager finds for "<game name>-*" with the stylesheet extension, all
of them visible. -/
theorem onGameNext_styleList (env : WizardEnv) (w : NewSetWizard) (game : Packaged)
    (hsel : w.gameList.hasSelection = true)
    (hget : w.gameList.styledGrid.getSelection = some game) :
    (w.onGameNext env).styleList.styledGrid.allPackages =
      sortPackages ((env.findMatching
        (game.name ++ "-*" ++ ".mse-" ++ env.styleTypeName)).map
          (fun p => { package := p, imageLoaded := false })) ∧
    (w.onGameNext env).styleList.styledGrid.filteredIndices =
      allIndicesFrom 0 (sortPackages ((env.findMatching
        (game.name ++ "-*" ++ ".mse-" ++ env.styleTypeName)).map
          (fun p => { package := p, imageLoaded := false }))) := by
  unfold NewSetWizard.onGameNext
  rw [if_neg (by rw [hsel]; decide)]
  simp only [hget]
  rw [(showStep_fields _ _).2.2.2.2.2]
  obtain ⟨h1, h2⟩ := styleGrid_selectInList
    (NewSetWizard.showDataInternal env
      { w with selectedGame := some game,
               settings := { w.settings with default_game := game.name } }
      .ID_WIZARD_STYLE_LIST (game.name ++ "-*" ++ ".mse-" ++ env.styleTypeName))
    ((NewSetWizard.showDataInternal env
      { w with selectedGame := some game,
               settings := { w.settings with default_game := game.name } }
      .ID_WIZARD_STYLE_LIST
      (game.name ++ "-*" ++ ".mse-" ++ env.styleTypeName)).settings.default_stylesheet
        game.name) true
  rw [h1, h2]
  exact styleGrid_showDataInternal env _ _

/-- What one event can do to the step: nothing, back to the game step (only
"Back"), or `onGameNext` with a game selected (only "Next" or a double click
on the game list). -/
theorem handle_cases (env : WizardEnv) (w : NewSetWizard) (ev : WizardEvent) :
    w.sameStep (w.handle env ev) ∨
    (ev = .clickBack ∧ w.handle env ev = w.showStep .STEP_SELECT_GAME) ∨
    (∃ w1, w.sameStep w1 ∧ w1.gameList.hasSelection = true ∧
      w.handle env ev = w1.onGameNext env ∧
      (w.handle env ev).currentStep = .STEP_SELECT_STYLE ∧
      (w.handle env ev).gamePanelShown = false ∧ (w.handle env ev).stylePanelShown = true ∧
      (∃ game, w1.gameList.styledGrid.getSelection = some game ∧
        (w.handle env ev).selectedGame = some game) ∧
      (ev = .clickNext ∨ ∃ v x y, ev = .leftDClick .ID_WIZARD_GAME_LIST v x y)) := by
  have hnext : ∀ w1 : NewSetWizard, w.sameStep w1 →
      (ev = .clickNext ∨ ∃ v x y, ev = .leftDClick .ID_WIZARD_GAME_LIST v x y) →
      w.sameStep (w1.onGameNext env) ∨
      (∃ w2, w.sameStep w2 ∧ w2.gameList.hasSelection = true ∧
        w1.onGameNext env = w2.onGameNext env ∧
        (w1.onGameNext env).currentStep = .STEP_SELECT_STYLE ∧
        (w1.onGameNext env).gamePanelShown = false ∧
        (w1.onGameNext env).stylePanelShown = true ∧
        (∃ game, w2.gameList.styledGrid.getSelection = some game ∧
          (w1.onGameNext env).selectedGame = some game) ∧
        (ev = .clickNext ∨ ∃ v x y, ev = .leftDClick .ID_WIZARD_GAME_LIST v x y)) := by
    intro w1 hs hev
    rcases onGameNext_cases env w1 with h | ⟨h1, h2, h3, h4, h5⟩
    · left; rw [h.2]; exact hs
    · right; exact ⟨w1, hs, h1, rfl, h2, h3, h4, h5, hev⟩
  cases ev with
  | leftDown id v x y =>
    left
    unfold NewSetWizard.handle
    dsimp only
    split
    · exact sameStep_trans (sameStep_setList _ _ _) (sameStep_onSelectEvent _ _)
    · exact sameStep_setList _ _ _
  | leftDClick id v x y =>
    unfold NewSetWizard.handle
    dsimp only
    split
    · cases id with
      | ID_WIZARD_GAME_LIST =>
        dsimp only
        unfold NewSetWizard.onGameActivate
        split
        · rcases hnext _ (sameStep_setList w .ID_WIZARD_GAME_LIST _)
            (Or.inr ⟨v, x, y, rfl⟩) with h | h
          · exact Or.inl h
          · exact Or.inr (Or.inr h)
        · exact Or.inl (sameStep_setList _ _ _)
      | ID_WIZARD_STYLE_LIST =>
        left
        dsimp only
        unfold NewSetWizard.onStyleActivate
        split
        · exact sameStep_trans (sameStep_setList _ _ _) (sameStep_done _ _)
        · exact sameStep_setList _ _ _
    · exact Or.inl (sameStep_setList _ _ _)
  | searchText id text =>
    left
    unfold NewSetWizard.handle
    exact sameStep_trans (sameStep_setList _ _ _) (sameStep_filterBySearch _ _ _)
  | clickNext =>
    have hh : w.handle env .clickNext
        = if w.gameNextEnabled = true then w.onGameNext env else w := rfl
    rw [hh]
    split
    · rcases hnext w (sameStep_refl w) (Or.inl rfl) with h | h
      · exact Or.inl h
      · exact Or.inr (Or.inr h)
    · exact Or.inl (sameStep_refl w)
  | clickBack => exact Or.inr (Or.inl ⟨rfl, rfl⟩)
  | clickCreate =>
    left
    show w.sameStep (if w.styleCreateEnabled = true then w.done env else w)
    split
    · exact sameStep_done env w
    · exact sameStep_refl w
  | updateUI b => exact Or.inl (sameStep_onUpdateUI w b)
  | idle => exact Or.inl (sameStep_refl w)

theorem onGameNext_of_selection (env : WizardEnv) (w : NewSetWizard) (game : Packaged)
    (hsel : w.gameList.hasSelection = true)
    (hget : w.gameList.styledGrid.getSelection = some game) :
    (w.onGameNext env).currentStep = .STEP_SELECT_STYLE ∧
    (w.onGameNext env).selectedGame = some game := by
  rcases onGameNext_cases env w with ⟨h | h, _⟩ | ⟨_, h2, _, _, g, hg, hs⟩
  · rw [hsel] at h; cases h
  · rw [hget] at h; cases h
  · rw [hget] at hg
    cases hg
    exact ⟨h2, hs⟩

theorem create_step (env : WizardEnv) (settings : Settings) :
    (NewSetWizard.create env settings).currentStep = .STEP_SELECT_GAME ∧
    (NewSetWizard.create env settings).gamePanelShown = true ∧
    (NewSetWizard.create env settings).stylePanelShown = false := by
  unfold NewSetWizard.create
  dsimp only
  have s1 := sameStep_onUpdateUI
    (NewSetWizard.onUpdateUI
      (NewSetWizard.selectInList
        (NewSetWizard.showDataInternal env
          (NewSetWizard.showStep { settings := settings } .STEP_SELECT_GAME)
          .ID_WIZARD_GAME_LIST ("*" ++ ".mse-" ++ env.gameTypeName))
        .ID_WIZARD_GAME_LIST
        (NewSetWizard.showDataInternal env
          (NewSetWizard.showStep { settings := settings } .STEP_SELECT_GAME)
          .ID_WIZARD_GAME_LIST ("*" ++ ".mse-" ++ env.gameTypeName)).settings.default_game true)
      false) true
  have s2 := sameStep_onUpdateUI
      (NewSetWizard.selectInList
        (NewSetWizard.showDataInternal env
          (NewSetWizard.showStep { settings := settings } .STEP_SELECT_GAME)
          .ID_WIZARD_GAME_LIST ("*" ++ ".mse-" ++ env.gameTypeName))
        .ID_WIZARD_GAME_LIST
        (NewSetWizard.showDataInternal env
          (NewSetWizard.showStep { settings := settings } .STEP_SELECT_GAME)
          .ID_WIZARD_GAME_LIST ("*" ++ ".mse-" ++ env.gameTypeName)).settings.default_game true)
      false
  have s3 := sameStep_selectInList
        (NewSetWizard.showDataInternal env
          (NewSetWizard.showStep { settings := settings } .STEP_SELECT_GAME)
          .ID_WIZARD_GAME_LIST ("*" ++ ".mse-" ++ env.gameTypeName))
        .ID_WIZARD_GAME_LIST
        (NewSetWizard.showDataInternal env
          (NewSetWizard.showStep { settings := settings } .STEP_SELECT_GAME)
          .ID_WIZARD_GAME_LIST ("*" ++ ".mse-" ++ env.gameTypeName)).settings.default_game true
  have s4 := sameStep_showDataInternal env
          (NewSetWizard.showStep { settings := settings } .STEP_SELECT_GAME)
          .ID_WIZARD_GAME_LIST ("*" ++ ".mse-" ++ env.gameTypeName)
  have s := sameStep_trans (sameStep_trans (sameStep_trans s4 s3) s2) s1
  obtain ⟨h1, h2, h3, _⟩ := showStep_fields { settings := settings } .STEP_SELECT_GAME
  exact ⟨s.1.trans h1, s.2.1.trans h2, s.2.2.1.trans h3⟩

theorem handle_panels (env : WizardEnv) (w : NewSetWizard) (ev : WizardEvent)
    (h : w.gamePanelShown = decide (w.currentStep = WizardStep.STEP_SELECT_GAME) ∧
      w.stylePanelShown = decide (w.currentStep = WizardStep.STEP_SELECT_STYLE)) :
    (w.handle env ev).gamePanelShown
      = decide ((w.handle env ev).currentStep = WizardStep.STEP_SELECT_GAME) ∧
    (w.handle env ev).stylePanelShown
      = decide ((w.handle env ev).currentStep = WizardStep.STEP_SELECT_STYLE) := by
  rcases handle_cases env w ev with hs | ⟨_, hb⟩ | ⟨w1, _, _, _, h1, h2, h3, _⟩
  · rw [hs.1, hs.2.1, hs.2.2.1]
    exact h
  · rw [hb]
    obtain ⟨g1, g2, g3, _⟩ := showStep_fields w .STEP_SELECT_GAME
    rw [g1, g2, g3]
    exact ⟨rfl, rfl⟩
  · rw [h1, h2, h3]
    exact ⟨rfl, rfl⟩

theorem handleAll_panels (env : WizardEnv) (w : NewSetWizard) (events : List WizardEvent)
    (h : w.gamePanelShown = decide (w.currentStep = WizardStep.STEP_SELECT_GAME) ∧
      w.stylePanelShown = decide (w.currentStep = WizardStep.STEP_SELECT_STYLE)) :
    (NewSetWizard.handleAll env w events).gamePanelShown
      = decide ((NewSetWizard.handleAll env w events).currentStep
          = WizardStep.STEP_SELECT_GAME) ∧
    (NewSetWizard.handleAll env w events).stylePanelShown
      = decide ((NewSetWizard.handleAll env w events).currentStep
          = WizardStep.STEP_SELECT_STYLE) := by
  induction events generalizing w with
  | nil => exact h
  | cons ev rest ih => exact ih _ (handle_panels env w ev h)

/-- C16: the new-set wizard is a two-step linear state machine.  It starts in
STEP_SELECT_GAME; `showStep` shows exactly the panel of the step it sets, and
in every reachable state exactly the panel of the current step is shown;
`onGameNext` with a game selected switches to STEP_SELECT_STYLE, stores the
selected game and fills the style list with the stylesheet packages matching
"<game name>-*"; `onGameNext` without a selection changes nothing; an event
leads from the game step to the style step only through `onGameNext` with a
game selected, and from the style step to the game step only through "Back",
which is handled by `onStyleBack`. -/
theorem wizard_two_step_machine (env : WizardEnv) (settings : Settings)
    (events : List WizardEvent) (w : NewSetWizard) (ev : WizardEvent) (step : WizardStep) :
    (NewSetWizard.create env settings).currentStep = .STEP_SELECT_GAME ∧
    ((w.showStep step).currentStep = step ∧
      (w.showStep step).gamePanelShown = decide (step = WizardStep.STEP_SELECT_GAME) ∧
      (w.showStep step).stylePanelShown = decide (step = WizardStep.STEP_SELECT_STYLE) ∧
      (w.showStep step).gamePanelShown ≠ (w.showStep step).stylePanelShown) ∧
    ((NewSetWizard.handleAll env (NewSetWizard.create env settings) events).gamePanelShown
        = decide ((NewSetWizard.handleAll env (NewSetWizard.create env settings) events).currentStep
            = WizardStep.STEP_SELECT_GAME) ∧
      (NewSetWizard.handleAll env (NewSetWizard.create env settings) events).stylePanelShown
        = decide ((NewSetWizard.handleAll env (NewSetWizard.create env settings) events).currentStep
            = WizardStep.STEP_SELECT_STYLE)) ∧
    (∀ game, w.gameList.hasSelection = true →
      w.gameList.styledGrid.getSelection = some game →
      (w.onGameNext env).currentStep = .STEP_SELECT_STYLE ∧
      (w.onGameNext env).selectedGame = some game ∧
      (w.onGameNext env).styleList.styledGrid.allPackages =
        sortPackages ((env.findMatching
          (game.name ++ "-*" ++ ".mse-" ++ env.styleTypeName)).map
            (fun p => { package := p, imageLoaded := false })) ∧
      (w.onGameNext env).styleList.styledGrid.filteredIndices =
        allIndicesFrom 0 (w.onGameNext env).styleList.styledGrid.allPackages) ∧
    (w.gameList.hasSelection = false → w.onGameNext env = w) ∧
    (w.currentStep = .STEP_SELECT_GAME → (w.handle env ev).currentStep = .STEP_SELECT_STYLE →
      ∃ w1 : NewSetWizard, w1.gameList.hasSelection = true ∧
        w.handle env ev = w1.onGameNext env ∧
        (w.handle env ev).selectedGame ≠ none ∧
        (ev = .clickNext ∨ ∃ v x y, ev = .leftDClick .ID_WIZARD_GAME_LIST v x y)) ∧
    (w.currentStep = .STEP_SELECT_STYLE → (w.handle env ev).currentStep = .STEP_SELECT_GAME →
      ev = .clickBack ∧ w.handle env ev = w.onStyleBack) := by
  refine ⟨(create_step env settings).1, ?_, ?_, ?_, ?_, ?_, ?_⟩
  · obtain ⟨h1, h2, h3, _⟩ := showStep_fields w step
    refine ⟨h1, h2, h3, ?_⟩
    rw [h2, h3]
    cases step <;> decide
  · apply handleAll_panels
    obtain ⟨h1, h2, h3⟩ := create_step env settings
    rw [h1, h2, h3]
    exact ⟨rfl, rfl⟩
  · intro game hsel hget
    obtain ⟨h1, h2⟩ := onGameNext_of_selection env w game hsel hget
    obtain ⟨h3, h4⟩ := onGameNext_styleList env w game hsel hget
    exact ⟨h1, h2, h3, by rw [h4, h3]⟩
  · intro hno
    unfold NewSetWizard.onGameNext
    rw [if_pos (by rw [hno]; rfl)]
  · intro hg hs
    rcases handle_cases env w ev with h | ⟨_, hb⟩ | ⟨w1, _, h1, h2, _, _, _, ⟨game, _, h3⟩, h4⟩
    · rw [h.1, hg] at hs; cases hs
    · rw [hb, (showStep_fields _ _).1] at hs; cases hs
    · exact ⟨w1, h1, h2, by rw [h3]; simp, h4⟩
  · intro hst hg
    rcases handle_cases env w ev with h | ⟨he, hb⟩ | ⟨_, _, _, _, h1, _⟩
    · rw [h.1, hst] at hg; cases hg
    · exact ⟨he, hb⟩
    · rw [h1] at hg; cases hg

set_option maxRecDepth 100000 in
/-- C16 at concrete inputs: "Next" with the default game selected leads to the
style step, and "Back" leads to the game step again. -/
theorem wizard_two_step_machine_witness :
    (NewSetWizard.create exampleWizardEnv exampleSettings).gameList.hasSelection = true ∧
    ((NewSetWizard.create exampleWizardEnv exampleSettings).onGameNext
      exampleWizardEnv).currentStep = .STEP_SELECT_STYLE ∧
    (NewSetWizard.handleAll exampleWizardEnv (NewSetWizard.create exampleWizardEnv exampleSettings)
      [.clickNext, .clickBack]).currentStep = .STEP_SELECT_GAME :=
  ⟨by decide,
   ((wizard_two_step_machine exampleWizardEnv exampleSettings []
      (NewSetWizard.create exampleWizardEnv exampleSettings) .idle .STEP_SELECT_GAME).2.2.2.1
      { name := "magic", short_name := "Magic", full_name := "Magic the Gathering",
        position_hint := 1 } (by decide) (by decide)).1,
   by decide⟩

/-! ## C17 and C18 -/

theorem startCheckTry_result (env : Env) (c c2 : GitHubUpdateChecker) (lv : String) (hd : Bool)
    (jsonStr : String) (h : startCheckTry env c lv hd jsonStr = .ok c2)
    (hc : c.result.fileCount = 0) :
    (c2.status = .ERROR → c2.result.fileCount = 0) ∧
    (c2.result.fileCount > 0 → c2.result.filesToUpdate ≠ []) := by
  unfold startCheckTry at h
  cases hp : env.parse jsonStr with
  | error e => simp [hp, bind, Except.bind] at h
  | ok j =>
    cases hs : j.contains "sha" with
    | false =>
      simp [hp, hs, bind, Except.bind, pure, Except.pure] at h
      subst h
      refine ⟨fun _ => hc, fun h0 => ?_⟩
      simp only [hc] at h0
      exact absurd h0 (by decide)
    | true =>
      cases hg : (j.at "sha").getString with
      | error e => simp [hp, hs, hg, bind, Except.bind, pure, Except.pure] at h
      | ok sha =>
        simp [hp, hs, hg, bind, Except.bind, pure, Except.pure] at h
        subst h
        refine ⟨(fun h0 => by cases h0), fun h0 => ?_⟩
        dsimp only at h0 ⊢
        split at h0
        · rw [if_pos (by assumption)]
          simp
        · exact absurd h0 (lt_irrefl (0 : Int))

theorem startCheckBody_result (env : Env) (c : GitHubUpdateChecker) (fs : FileSys)
    (hc : c.result.fileCount = 0) :
    ((startCheckBody env c fs).1.status = .ERROR →
      (startCheckBody env c fs).1.result.fileCount = 0) ∧
    ((startCheckBody env c fs).1.result.fileCount > 0 →
      (startCheckBody env c fs).1.result.filesToUpdate ≠ []) := by
  unfold startCheckBody
  dsimp only
  split
  · refine ⟨fun _ => hc, fun h0 => ?_⟩
    simp only [hc] at h0
    exact absurd h0 (by decide)
  · split
    · next c2 h => exact startCheckTry_result _ _ _ _ _ _ h hc
    · refine ⟨fun _ => hc, fun h0 => ?_⟩
      simp only [hc] at h0
      exact absurd h0 (by decide)

theorem startCheck_result (env : Env) (c : GitHubUpdateChecker) (fs : FileSys)
    (hstart : c.status ≠ .CHECKING ∧ c.status ≠ .DOWNLOADING) :
    ((startCheck env c fs).1.status = .CHECK_COMPLETE ∨
      (startCheck env c fs).1.status = .ERROR) ∧
    ((startCheck env c fs).1.status = .ERROR →
      (startCheck env c fs).1.result.fileCount = 0) ∧
    ((startCheck env c fs).1.result.fileCount > 0 →
      (startCheck env c fs).1.result.filesToUpdate ≠ []) := by
  rw [startCheck_of_enter env c fs hstart]
  exact ⟨startCheckBody_status _ _ _, startCheckBody_result _ _ _ rfl⟩

theorem showCheckOutcome_kept (w : OnboardingWindow) (c : GitHubUpdateChecker) :
    (showCheckOutcome w c).currentStep = w.currentStep ∧
    (showCheckOutcome w c).checksStarted = w.checksStarted ∧
    (showCheckOutcome w c).welcomeWindowsShown = w.welcomeWindowsShown ∧
    (showCheckOutcome w c).closed = w.closed := by
  unfold showCheckOutcome
  dsimp only
  split
  · split
    · split <;> exact ⟨rfl, rfl, rfl, rfl⟩
    · exact ⟨rfl, rfl, rfl, rfl⟩
  · split <;> exact ⟨rfl, rfl, rfl, rfl⟩

theorem updateFontsStep_kept (fenv : FontEnv) (s : OnboardingWorld) :
    (s.updateFontsStep fenv).window.currentStep = s.window.currentStep ∧
    (s.updateFontsStep fenv).window.checksStarted = s.window.checksStarted ∧
    (s.updateFontsStep fenv).window.welcomeWindowsShown = s.window.welcomeWindowsShown ∧
    (s.updateFontsStep fenv).window.closed = s.window.closed := by
  unfold OnboardingWorld.updateFontsStep
  dsimp only
  split <;> exact ⟨rfl, rfl, rfl, rfl⟩

theorem updateUpdatesStep_kept (env : Env) (s : OnboardingWorld) :
    (s.updateUpdatesStep env).window.currentStep = s.window.currentStep ∧
    (s.updateUpdatesStep env).window.checksStarted = s.window.checksStarted + 1 ∧
    (s.updateUpdatesStep env).window.welcomeWindowsShown = s.window.welcomeWindowsShown ∧
    (s.updateUpdatesStep env).window.closed = s.window.closed := by
  unfold OnboardingWorld.updateUpdatesStep
  dsimp only
  obtain ⟨h1, h2, h3, h4⟩ := showCheckOutcome_kept
    { s.window with
      titleLabel := "Data Pack",
      updateState := .UPDATE_CHECKING,
      statusLabel := "Checking for updates...",
      actionButton := { s.window.actionButton with shown := false },
      continueButton := { s.window.continueButton with shown := false },
      checksStarted := s.window.checksStarted + 1 } (startCheck env s.checker s.fs).1
  exact ⟨h1, h2, h3, h4⟩

theorem onActionButton_kept (env : Env) (fenv : FontEnv) (s : OnboardingWorld) :
    (s.onActionButton env fenv).window.currentStep = s.window.currentStep ∧
    (s.onActionButton env fenv).window.checksStarted = s.window.checksStarted ∧
    (s.onActionButton env fenv).window.welcomeWindowsShown = s.window.welcomeWindowsShown ∧
    (s.onActionButton env fenv).window.closed = s.window.closed := by
  unfold OnboardingWorld.onActionButton
  dsimp only
  split
  · exact ⟨rfl, rfl, rfl, rfl⟩
  · split
    · split
      · split <;> exact ⟨rfl, rfl, rfl, rfl⟩
      · exact ⟨rfl, rfl, rfl, rfl⟩
    · exact ⟨rfl, rfl, rfl, rfl⟩

theorem onIdle_kept (s : OnboardingWorld) :
    s.onIdle.window.currentStep = s.window.currentStep ∧
    s.onIdle.window.checksStarted = s.window.checksStarted ∧
    s.onIdle.window.welcomeWindowsShown = s.window.welcomeWindowsShown ∧
    s.onIdle.window.closed = s.window.closed := by
  unfold OnboardingWorld.onIdle
  split
  · exact ⟨rfl, rfl, rfl, rfl⟩
  · split <;> exact ⟨rfl, rfl, rfl, rfl⟩

theorem onContinue_updates (env : Env) (fenv : FontEnv) (s : OnboardingWorld)
    (h : s.window.currentStep = .STEP_UPDATES) :
    (s.onContinue env fenv).window.currentStep = .STEP_FONTS ∧
    (s.onContinue env fenv).window.checksStarted = s.window.checksStarted ∧
    (s.onContinue env fenv).window.welcomeWindowsShown = s.window.welcomeWindowsShown ∧
    (s.onContinue env fenv).window.closed = s.window.closed := by
  unfold OnboardingWorld.onContinue
  rw [h]
  exact updateFontsStep_kept fenv
    { s with window := { s.window with currentStep := .STEP_FONTS } }

theorem onContinue_fonts (env : Env) (fenv : FontEnv) (s : OnboardingWorld)
    (h : s.window.currentStep = .STEP_FONTS) :
    (s.onContinue env fenv).window.currentStep = .STEP_FONTS ∧
    (s.onContinue env fenv).window.checksStarted = s.window.checksStarted ∧
    (s.onContinue env fenv).window.welcomeWindowsShown = s.window.welcomeWindowsShown + 1 ∧
    (s.onContinue env fenv).window.closed = true := by
  unfold OnboardingWorld.onContinue
  rw [h]
  exact ⟨h, rfl, rfl, rfl⟩

theorem handle_checksStarted (fenv : FontEnv) (s : OnboardingWorld)
    (ev : Env × OnboardingEvent) :
    (s.handle fenv ev).window.checksStarted = s.window.checksStarted := by
  obtain ⟨env, e⟩ := ev
  cases e with
  | paint => rfl
  | clickAction => exact (onActionButton_kept env fenv s).2.1
  | clickContinue =>
    cases h : s.window.currentStep with
    | STEP_FONTS => exact (onContinue_fonts env fenv s h).2.1
    | STEP_UPDATES => exact (onContinue_updates env fenv s h).2.1
  | idle => exact (onIdle_kept s).2.1

theorem handle_fonts (fenv : FontEnv) (s : OnboardingWorld) (ev : Env × OnboardingEvent)
    (h : s.window.currentStep = .STEP_FONTS) :
    (s.handle fenv ev).window.currentStep = .STEP_FONTS := by
  obtain ⟨env, e⟩ := ev
  cases e with
  | paint => exact h
  | clickAction => exact (onActionButton_kept env fenv s).1.trans h
  | clickContinue => exact (onContinue_fonts env fenv s h).1
  | idle => exact (onIdle_kept s).1.trans h

theorem handleAll_checksStarted (fenv : FontEnv) (s : OnboardingWorld)
    (events : List (Env × OnboardingEvent)) :
    (OnboardingWorld.handleAll fenv s events).window.checksStarted = s.window.checksStarted := by
  induction events generalizing s with
  | nil => rfl
  | cons ev rest ih =>
    exact (ih (s.handle fenv ev)).trans (handle_checksStarted fenv s ev)

theorem handleAll_fonts (fenv : FontEnv) (s : OnboardingWorld)
    (events : List (Env × OnboardingEvent)) (h : s.window.currentStep = .STEP_FONTS) :
    (OnboardingWorld.handleAll fenv s events).window.currentStep = .STEP_FONTS := by
  induction events generalizing s with
  | nil => exact h
  | cons ev rest ih => exact ih (s.handle fenv ev) (handle_fonts fenv s ev h)

theorem create_kept (env : Env) (fenv : FontEnv) (checker : GitHubUpdateChecker) (fs : FileSys) :
    (OnboardingWorld.create env fenv checker fs).window.currentStep = .STEP_UPDATES ∧
    (OnboardingWorld.create env fenv checker fs).window.checksStarted = 1 ∧
    (OnboardingWorld.create env fenv checker fs).window.welcomeWindowsShown = 0 ∧
    (OnboardingWorld.create env fenv checker fs).window.closed = false :=
  updateUpdatesStep_kept env
    { window := { currentStep := .STEP_UPDATES }, checker := checker, fs := fs }

/-- C17: the onboarding window runs the update check first and the font
installation check second.  After construction the step is STEP_UPDATES, the
update check has been started once, and the window is open; Continue leads
from STEP_UPDATES to STEP_FONTS (the window stays open) and from STEP_FONTS to
completion (one more welcome window shown, the window closed); no event leads
from STEP_FONTS to another step, the step changes only on Continue, and no
event starts another update check, so after any sequence of events the window
has started exactly one check. -/
theorem onboarding_updates_then_fonts (env : Env) (fenv : FontEnv)
    (checker : GitHubUpdateChecker) (fs : FileSys) (s : OnboardingWorld)
    (ev : Env × OnboardingEvent) (events : List (Env × OnboardingEvent)) :
    ((OnboardingWorld.create env fenv checker fs).window.currentStep = .STEP_UPDATES ∧
      (OnboardingWorld.create env fenv checker fs).window.checksStarted = 1 ∧
      (OnboardingWorld.create env fenv checker fs).window.welcomeWindowsShown = 0 ∧
      (OnboardingWorld.create env fenv checker fs).window.closed = false) ∧
    (s.window.currentStep = .STEP_UPDATES →
      (s.onContinue env fenv).window.currentStep = .STEP_FONTS ∧
      (s.onContinue env fenv).window.welcomeWindowsShown = s.window.welcomeWindowsShown ∧
      (s.onContinue env fenv).window.closed = s.window.closed) ∧
    (s.window.currentStep = .STEP_FONTS →
      (s.onContinue env fenv).window.currentStep = .STEP_FONTS ∧
      (s.onContinue env fenv).window.welcomeWindowsShown = s.window.welcomeWindowsShown + 1 ∧
      (s.onContinue env fenv).window.closed = true) ∧
    (s.window.currentStep = .STEP_FONTS →
      (s.handle fenv ev).window.currentStep = .STEP_FONTS ∧
      (OnboardingWorld.handleAll fenv s events).window.currentStep = .STEP_FONTS) ∧
    ((s.handle fenv ev).window.currentStep ≠ s.window.currentStep →
      ev.2 = .clickContinue) ∧
    (s.handle fenv ev).window.checksStarted = s.window.checksStarted ∧
    (OnboardingWorld.handleAll fenv (OnboardingWorld.create env fenv checker fs)
      events).window.checksStarted = 1 := by
  refine ⟨create_kept env fenv checker fs, ?_, ?_, ?_, ?_, handle_checksStarted fenv s ev, ?_⟩
  · intro h
    obtain ⟨h1, _, h3, h4⟩ := onContinue_updates env fenv s h
    exact ⟨h1, h3, h4⟩
  · intro h
    obtain ⟨h1, _, h3, h4⟩ := onContinue_fonts env fenv s h
    exact ⟨h1, h3, h4⟩
  · intro h
    exact ⟨handle_fonts fenv s ev h, handleAll_fonts fenv s events h⟩
  · intro h
    obtain ⟨env2, e⟩ := ev
    cases e with
    | paint => exact absurd rfl h
    | clickAction => exact absurd (onActionButton_kept env2 fenv s).1 h
    | clickContinue => rfl
    | idle => exact absurd (onIdle_kept s).1 h
  · rw [handleAll_checksStarted]
    exact (create_kept env fenv checker fs).2.1

/-- C17 at a concrete input: a first start with the network up; Continue
leads to STEP_FONTS, a second Continue closes the window. -/
theorem onboarding_updates_then_fonts_witness :
    (OnboardingWorld.create goodEnv exampleFontEnv {} emptyFs).window.currentStep
      = .STEP_UPDATES ∧
    ((OnboardingWorld.create goodEnv exampleFontEnv {} emptyFs).onContinue goodEnv
      exampleFontEnv).window.currentStep = .STEP_FONTS ∧
    (((OnboardingWorld.create goodEnv exampleFontEnv {} emptyFs).onContinue goodEnv
      exampleFontEnv).onContinue goodEnv exampleFontEnv).window.closed = true :=
  have h := onboarding_updates_then_fonts goodEnv exampleFontEnv {} emptyFs
    (OnboardingWorld.create goodEnv exampleFontEnv {} emptyFs) (goodEnv, .idle) []
  have h2 := onboarding_updates_then_fonts goodEnv exampleFontEnv {} emptyFs
    ((OnboardingWorld.create goodEnv exampleFontEnv {} emptyFs).onContinue goodEnv
      exampleFontEnv) (goodEnv, .idle) []
  ⟨h.1.1, (h.2.1 h.1.1).1, (h2.2.2.1 (h.2.1 h.1.1).1).2.2⟩

theorem showCheckOutcome_complete (w : OnboardingWindow) (c : GitHubUpdateChecker)
    (h : c.status = .CHECK_COMPLETE) :
    (showCheckOutcome w c).continueButton.shown = true ∧
    (showCheckOutcome w c).actionButton.shown = decide (c.result.fileCount > 0) ∧
    (showCheckOutcome w c).updateState =
      (if c.result.fileCount > 0 then .UPDATE_AVAILABLE else .UPDATE_UP_TO_DATE) := by
  unfold showCheckOutcome
  dsimp only
  rw [if_pos h]
  split
  · next hpos =>
    split <;> exact ⟨rfl, (decide_eq_true hpos).symm, rfl⟩
  · next hneg => exact ⟨rfl, (decide_eq_false hneg).symm, rfl⟩

theorem showCheckOutcome_error (w : OnboardingWindow) (c : GitHubUpdateChecker)
    (h : c.status = .ERROR) :
    (showCheckOutcome w c).continueButton.shown = true ∧
    (showCheckOutcome w c).continueButton.label = "Continue" ∧
    (showCheckOutcome w c).actionButton.shown = false ∧
    (showCheckOutcome w c).updateState = .UPDATE_ERROR ∧
    (showCheckOutcome w c).statusLabel = "Error: " ++ c.result.errorMessage := by
  unfold showCheckOutcome
  dsimp only
  rw [if_neg (by rw [h]; decide), if_pos h]
  exact ⟨rfl, rfl, rfl, rfl, rfl⟩

theorem updateUpdatesStep_outcome (env : Env) (s : OnboardingWorld)
    (hidle : s.checker.status ≠ .CHECKING ∧ s.checker.status ≠ .DOWNLOADING) :
    ((s.updateUpdatesStep env).window.updateState = .UPDATE_AVAILABLE ∨
      (s.updateUpdatesStep env).window.updateState = .UPDATE_UP_TO_DATE ∨
      (s.updateUpdatesStep env).window.updateState = .UPDATE_ERROR) ∧
    (s.updateUpdatesStep env).window.continueButton.shown = true ∧
    ((s.updateUpdatesStep env).checker.status = .ERROR →
      (s.updateUpdatesStep env).window.updateState = .UPDATE_ERROR ∧
      (s.updateUpdatesStep env).window.statusLabel
        = "Error: " ++ (s.updateUpdatesStep env).checker.result.errorMessage ∧
      (s.updateUpdatesStep env).window.actionButton.shown = false) ∧
    ((s.updateUpdatesStep env).window.actionButton.shown = true ↔
      (s.updateUpdatesStep env).checker.result.fileCount > 0) ∧
    ((s.updateUpdatesStep env).window.updateState = .UPDATE_AVAILABLE ↔
      (s.updateUpdatesStep env).checker.result.fileCount > 0) ∧
    ((s.updateUpdatesStep env).window.updateState = .UPDATE_AVAILABLE →
      (s.updateUpdatesStep env).checker.status = .CHECK_COMPLETE ∧
      (s.updateUpdatesStep env).checker.result.filesToUpdate ≠ []) := by
  obtain ⟨hst, herr, hfiles⟩ := startCheck_result env s.checker s.fs hidle
  unfold OnboardingWorld.updateUpdatesStep
  dsimp only
  generalize startCheck env s.checker s.fs = r at hst herr hfiles
  generalize ({ s.window with
      titleLabel := "Data Pack",
      updateState := .UPDATE_CHECKING,
      statusLabel := "Checking for updates...",
      actionButton := { s.window.actionButton with shown := false },
      continueButton := { s.window.continueButton with shown := false },
      checksStarted := s.window.checksStarted + 1 } : OnboardingWindow) = w
  rcases hst with hc | he
  · obtain ⟨h1, h2, h3⟩ := showCheckOutcome_complete w r.1 hc
    rw [h1, h2, h3]
    by_cases hpos : r.1.result.fileCount > 0
    · rw [if_pos hpos]
      refine ⟨Or.inl rfl, rfl, ?_, ?_, ?_, ?_⟩
      · intro h; rw [hc] at h; cases h
      · simp [hpos]
      · simp [hpos]
      · intro _; exact ⟨hc, hfiles hpos⟩
    · rw [if_neg hpos]
      refine ⟨Or.inr (Or.inl rfl), rfl, ?_, ?_, ?_, ?_⟩
      · intro h; rw [hc] at h; cases h
      · simp [hpos]
      · simp [hpos]
      · intro h; cases h
  · obtain ⟨h1, _, h3, h4, h5⟩ := showCheckOutcome_error w r.1 he
    have h0 := herr he
    rw [h1, h3, h4, h5]
    refine ⟨Or.inr (Or.inr rfl), rfl, fun _ => ⟨rfl, rfl, rfl⟩, ?_, ?_, ?_⟩
    · simp [h0]
    · simp [h0]
    · intro h; cases h

theorem onAction_then_idle (env : Env) (fenv : FontEnv) (s : OnboardingWorld)
    (hstep : s.window.currentStep = .STEP_UPDATES)
    (hstate : s.window.updateState = .UPDATE_AVAILABLE)
    (hchk : s.checker.status = .CHECK_COMPLETE ∧ s.checker.result.filesToUpdate ≠ []) :
    (s.onActionButton env fenv).window.continueButton.shown = false ∧
    (((s.onActionButton env fenv).onIdle.window.updateState = .UPDATE_COMPLETE ∧
        (s.onActionButton env fenv).checker.status = .DOWNLOAD_COMPLETE) ∨
      ((s.onActionButton env fenv).onIdle.window.updateState = .UPDATE_ERROR ∧
        (s.onActionButton env fenv).checker.status = .ERROR ∧
        (s.onActionButton env fenv).onIdle.window.statusLabel
          = "Error: " ++ (s.onActionButton env fenv).checker.result.errorMessage)) ∧
    (s.onActionButton env fenv).onIdle.window.continueButton.shown = true ∧
    (s.onActionButton env fenv).onIdle.window.actionButton.shown = false := by
  have hd := startDownloadBody_status env
    { s.checker with status := .DOWNLOADING,
                     progress := { totalFiles := 1, currentFile := 1,
                                   currentFileName := "Full-Magic-Pack.zip" } } s.fs
  rw [← startDownload_of_enter env s.checker s.fs hchk] at hd
  have e : s.onActionButton env fenv =
      { window := { s.window with
          updateState := .UPDATE_DOWNLOADING,
          actionButton := { s.window.actionButton with shown := false },
          continueButton := { s.window.continueButton with shown := false },
          statusLabel := "Starting download..." },
        checker := (startDownload env s.checker s.fs).1,
        fs := (startDownload env s.checker s.fs).2 } := by
    unfold OnboardingWorld.onActionButton
    rw [if_pos ⟨hstep, hstate⟩]
  rw [e]
  generalize startDownload env s.checker s.fs = r at hd
  unfold OnboardingWorld.onIdle
  dsimp only
  rw [if_neg (by rw [hstep]; simp)]
  rcases hd with h | h
  · rw [h]
    exact ⟨rfl, Or.inl ⟨rfl, rfl⟩, rfl, rfl⟩
  · rw [h]
    exact ⟨rfl, Or.inr ⟨rfl, rfl, rfl⟩, rfl, rfl⟩

/-- C18: the update step of the onboarding window ends in "show a message,
let the user click Continue".  When `updateUpdatesStep` is entered while the
checker is not busy (which is the case after any sequence of calls of the
synchronous checker, so also when the window is constructed), it returns with
updateState UPDATE_AVAILABLE, UPDATE_UP_TO_DATE or UPDATE_ERROR and the
Continue button visible; when the checker ended in ERROR the state is
UPDATE_ERROR, the status label is "Error: " followed by the error message of
the result, and the action button is hidden; the action button is visible
exactly when the result's fileCount is positive, which is exactly when the
state is UPDATE_AVAILABLE.  The download started from UPDATE_AVAILABLE is
synchronous too, and the next idle event shows Continue again. -/
theorem update_step_ends_with_continue (env : Env) (fenv : FontEnv) (s : OnboardingWorld)
    (calls : List Call) (fs : FileSys)
    (hidle : s.checker.status ≠ .CHECKING ∧ s.checker.status ≠ .DOWNLOADING) :
    (((s.updateUpdatesStep env).window.updateState = .UPDATE_AVAILABLE ∨
        (s.updateUpdatesStep env).window.updateState = .UPDATE_UP_TO_DATE ∨
        (s.updateUpdatesStep env).window.updateState = .UPDATE_ERROR) ∧
      (s.updateUpdatesStep env).window.continueButton.shown = true ∧
      ((s.updateUpdatesStep env).checker.status = .ERROR →
        (s.updateUpdatesStep env).window.updateState = .UPDATE_ERROR ∧
        (s.updateUpdatesStep env).window.statusLabel
          = "Error: " ++ (s.updateUpdatesStep env).checker.result.errorMessage ∧
        (s.updateUpdatesStep env).window.actionButton.shown = false) ∧
      ((s.updateUpdatesStep env).window.actionButton.shown = true ↔
        (s.updateUpdatesStep env).checker.result.fileCount > 0) ∧
      ((s.updateUpdatesStep env).window.updateState = .UPDATE_AVAILABLE ↔
        (s.updateUpdatesStep env).checker.result.fileCount > 0)) ∧
    (s.updateUpdatesStep env).checker = (startCheck env s.checker s.fs).1 ∧
    (((OnboardingWorld.create env fenv (runCalls calls ({}, fs)).1
          (runCalls calls ({}, fs)).2).window.updateState = .UPDATE_AVAILABLE ∨
        (OnboardingWorld.create env fenv (runCalls calls ({}, fs)).1
          (runCalls calls ({}, fs)).2).window.updateState = .UPDATE_UP_TO_DATE ∨
        (OnboardingWorld.create env fenv (runCalls calls ({}, fs)).1
          (runCalls calls ({}, fs)).2).window.updateState = .UPDATE_ERROR) ∧
      (OnboardingWorld.create env fenv (runCalls calls ({}, fs)).1
        (runCalls calls ({}, fs)).2).window.continueButton.shown = true) ∧
    (s.window.currentStep = .STEP_UPDATES →
      (s.updateUpdatesStep env).window.updateState = .UPDATE_AVAILABLE →
      (((s.updateUpdatesStep env).onActionButton env fenv).onIdle.window.updateState
          = .UPDATE_COMPLETE ∨
        ((s.updateUpdatesStep env).onActionButton env fenv).onIdle.window.updateState
          = .UPDATE_ERROR) ∧
      ((s.updateUpdatesStep env).onActionButton env fenv).onIdle.window.continueButton.shown
        = true) := by
  obtain ⟨h1, h2, h3, h4, h5, h6⟩ := updateUpdatesStep_outcome env s hidle
  refine ⟨⟨h1, h2, h3, h4, h5⟩, rfl, ?_, ?_⟩
  · have hb := runCalls_not_busy calls (({} : GitHubUpdateChecker), fs) ⟨by simp, by simp⟩
    obtain ⟨g1, g2, _⟩ := updateUpdatesStep_outcome env
      { window := { currentStep := .STEP_UPDATES }, checker := (runCalls calls ({}, fs)).1,
        fs := (runCalls calls ({}, fs)).2 } hb
    exact ⟨g1, g2⟩
  · intro hstep hav
    obtain ⟨_, g2, g3, _⟩ := onAction_then_idle env fenv (s.updateUpdatesStep env)
      ((updateUpdatesStep_kept env s).1.trans hstep) hav (h6 hav)
    refine ⟨?_, g3⟩
    rcases g2 with g | g
    · exact Or.inl g.1
    · exact Or.inr g.1

set_option maxRecDepth 100000 in
/-- C18 at concrete inputs: with the network down the window shows the
connection error and Continue. -/
theorem update_step_ends_with_continue_witness :
    (GitHubUpdateChecker.mk .IDLE {} {}).status ≠ .CHECKING ∧
    ((OnboardingWorld.updateUpdatesStep offlineEnv
      { window := {}, checker := {}, fs := emptyFs }).window.updateState = .UPDATE_AVAILABLE ∨
     (OnboardingWorld.updateUpdatesStep offlineEnv
      { window := {}, checker := {}, fs := emptyFs }).window.updateState = .UPDATE_UP_TO_DATE ∨
     (OnboardingWorld.updateUpdatesStep offlineEnv
      { window := {}, checker := {}, fs := emptyFs }).window.updateState = .UPDATE_ERROR) ∧
    (OnboardingWorld.updateUpdatesStep offlineEnv
      { window := {}, checker := {}, fs := emptyFs }).window.continueButton.shown = true ∧
    (OnboardingWorld.updateUpdatesStep offlineEnv
      { window := {}, checker := {}, fs := emptyFs }).window.statusLabel
        = "Error: Failed to connect to GitHub" :=
  have h := update_step_ends_with_continue offlineEnv exampleFontEnv
    { window := {}, checker := {}, fs := emptyFs } [] emptyFs ⟨by decide, by decide⟩
  ⟨by decide, h.1.1, h.1.2.1, by decide⟩

/-! ## C20 -/

theorem mem_insertPackage (a d : PackageData) (l : List PackageData) :
    d ∈ insertPackage a l ↔ d = a ∨ d ∈ l := by
  induction l with
  | nil => simp [insertPackage]
  | cons b rest ih =>
    unfold insertPackage
    split
    · simp only [List.mem_cons, ih]
      tauto
    · simp only [List.mem_cons]

theorem mem_sortPackages (d : PackageData) (l : List PackageData) :
    d ∈ sortPackages l ↔ d ∈ l := by
  induction l with
  | nil => simp [sortPackages]
  | cons a rest ih =>
    unfold sortPackages
    rw [mem_insertPackage, ih, List.mem_cons]

theorem showData_not_loaded (g : StyledPackageGrid) (matching : List Packaged)
    (d : PackageData) (h : d ∈ (g.showData matching).allPackages) :
    d.imageLoaded = false ∧ d.image = none := by
  unfold StyledPackageGrid.showData at h
  dsimp only at h
  rw [mem_sortPackages, List.mem_map] at h
  obtain ⟨p, _, hp⟩ := h
  subst hp
  exact ⟨rfl, rfl⟩

theorem loadImageForItem_facts (env : IconEnv) (item : PackageData) :
    (loadImageForItem env item).1.imageLoaded = true ∧
    (loadImageForItem env item).1.package = item.package ∧
    (loadImageForItem env item).2 = !item.imageLoaded ∧
    (item.imageLoaded = true → (loadImageForItem env item).1 = item) := by
  unfold loadImageForItem
  cases hl : item.imageLoaded with
  | true => simp [hl]
  | false =>
    simp only [Bool.false_eq_true, if_false]
    split
    · exact ⟨rfl, rfl, rfl, fun h => by cases h⟩
    · split
      · exact ⟨rfl, rfl, rfl, fun h => by cases h⟩
      · exact ⟨rfl, rfl, rfl, fun h => by cases h⟩

theorem paintItems_spec (env : IconEnv) (v : View) (n : Nat) :
    ∀ (i : Nat) (g : StyledPackageGrid) (opened : List Nat),
    (paintItems env v i n g opened).1.filteredIndices = g.filteredIndices ∧
    (paintItems env v i n g opened).1.columnCount = g.columnCount ∧
    (∀ (idx : Nat) (d : PackageData), g.allPackages[idx]? = some d → d.imageLoaded = true →
      (paintItems env v i n g opened).1.allPackages[idx]? = some d) ∧
    (∀ (idx : Nat) (d2 : PackageData), (paintItems env v i n g opened).1.allPackages[idx]? = some d2 →
      d2.imageLoaded = false → g.allPackages[idx]? = some d2) ∧
    ∃ extra, (paintItems env v i n g opened).2 = opened ++ extra ∧ extra.Nodup ∧
      ∀ idx ∈ extra,
        (∃ d, g.allPackages[idx]? = some d ∧ d.imageLoaded = false) ∧
        (∃ d2, (paintItems env v i n g opened).1.allPackages[idx]? = some d2 ∧
          d2.imageLoaded = true) ∧
        ∃ j, i ≤ j ∧ j < i + n ∧ g.filteredIndices[j]? = some idx ∧
          ¬ ((g.getItemRect v j).y + (g.getItemRect v j).height < v.viewStartY * 20 ∨
             (g.getItemRect v j).y > v.viewStartY * 20 + v.clientHeight) := by
  induction n with
  | zero =>
    intro i g opened
    exact ⟨rfl, rfl, fun _ _ h _ => h, fun _ _ h _ => h, [], by simp [paintItems],
      List.nodup_nil, fun _ h => by cases h⟩
  | succ n ih =>
    intro i g opened
    have hskip : ∀ (heq : paintItems env v i (n + 1) g opened
        = paintItems env v (i + 1) n g opened),
        (paintItems env v i (n + 1) g opened).1.filteredIndices = g.filteredIndices ∧
        (paintItems env v i (n + 1) g opened).1.columnCount = g.columnCount ∧
        (∀ (idx : Nat) (d : PackageData), g.allPackages[idx]? = some d → d.imageLoaded = true →
          (paintItems env v i (n + 1) g opened).1.allPackages[idx]? = some d) ∧
        (∀ (idx : Nat) (d2 : PackageData), (paintItems env v i (n + 1) g opened).1.allPackages[idx]? = some d2 →
          d2.imageLoaded = false → g.allPackages[idx]? = some d2) ∧
        ∃ extra, (paintItems env v i (n + 1) g opened).2 = opened ++ extra ∧ extra.Nodup ∧
          ∀ idx ∈ extra,
            (∃ d, g.allPackages[idx]? = some d ∧ d.imageLoaded = false) ∧
            (∃ d2, (paintItems env v i (n + 1) g opened).1.allPackages[idx]? = some d2 ∧
              d2.imageLoaded = true) ∧
            ∃ j, i ≤ j ∧ j < i + (n + 1) ∧ g.filteredIndices[j]? = some idx ∧
              ¬ ((g.getItemRect v j).y + (g.getItemRect v j).height < v.viewStartY * 20 ∨
                 (g.getItemRect v j).y > v.viewStartY * 20 + v.clientHeight) := by
      intro heq
      rw [heq]
      obtain ⟨h1, h2, h3, h4, extra, h5, h6, h7⟩ := ih (i + 1) g opened
      refine ⟨h1, h2, h3, h4, extra, h5, h6, fun idx hidx => ?_⟩
      obtain ⟨a, b, j, hj1, hj2, hj3, hj4⟩ := h7 idx hidx
      exact ⟨a, b, j, by omega, by omega, hj3, hj4⟩
    by_cases hvis : (g.getItemRect v i).y + (g.getItemRect v i).height < v.viewStartY * 20 ∨
        (g.getItemRect v i).y > v.viewStartY * 20 + v.clientHeight
    · exact hskip (by simp only [paintItems]; rw [if_pos hvis])
    · cases hidx : g.filteredIndices[i]? with
      | none => exact hskip (by simp only [paintItems]; rw [if_neg hvis]; simp only [hidx])
      | some idx =>
        cases hpkg : g.allPackages[idx]? with
        | none =>
          exact hskip (by simp only [paintItems]; rw [if_neg hvis]; simp only [hidx, hpkg])
        | some pkg =>
          cases hl : pkg.imageLoaded with
          | true =>
            exact hskip (by
              simp only [paintItems]; rw [if_neg hvis]; simp only [hidx, hpkg, hl]; rfl)
          | false =>
            obtain ⟨f1, _, f3, _⟩ := loadImageForItem_facts env pkg
            have heq : paintItems env v i (n + 1) g opened
                = paintItems env v (i + 1) n
                    { g with allPackages := g.allPackages.set idx (loadImageForItem env pkg).1 }
                    (opened ++ [idx]) := by
              simp only [paintItems]
              rw [if_neg hvis]
              simp only [hidx, hpkg, hl, f3]
              rfl
            rw [heq]
            have hlt : idx < g.allPackages.length := (List.getElem?_eq_some.mp hpkg).1
            have hg1 : (g.allPackages.set idx (loadImageForItem env pkg).1)[idx]?
                = some (loadImageForItem env pkg).1 := List.getElem?_set_self hlt
            obtain ⟨h1, h2, h3, h4, extra, h5, h6, h7⟩ := ih (i + 1)
              { g with allPackages := g.allPackages.set idx (loadImageForItem env pkg).1 }
              (opened ++ [idx])
            refine ⟨h1, h2, ?_, ?_, idx :: extra, ?_, ?_, ?_⟩
            · intro idx2 d hd hdl
              apply h3 idx2 d _ hdl
              by_cases he : idx = idx2
              · subst he
                rw [hpkg] at hd
                cases hd
                rw [hl] at hdl
                cases hdl
              · show (g.allPackages.set idx (loadImageForItem env pkg).1)[idx2]? = some d
                rw [List.getElem?_set_ne he]
                exact hd
            · intro idx2 d2 hd hdl
              have hd1 := h4 idx2 d2 hd hdl
              by_cases he : idx = idx2
              · subst he
                have hd1b : (g.allPackages.set idx (loadImageForItem env pkg).1)[idx]?
                    = some d2 := hd1
                rw [hg1] at hd1b
                cases hd1b
                rw [f1] at hdl
                cases hdl
              · have hd1b : (g.allPackages.set idx (loadImageForItem env pkg).1)[idx2]?
                    = some d2 := hd1
                rw [List.getElem?_set_ne he] at hd1b
                exact hd1b
            · rw [h5]
              simp
            · rw [List.nodup_cons]
              refine ⟨fun hmem => ?_, h6⟩
              obtain ⟨⟨d, hd, hdl⟩, _⟩ := h7 idx hmem
              have hd1b : (g.allPackages.set idx (loadImageForItem env pkg).1)[idx]?
                  = some d := hd
              rw [hg1] at hd1b
              cases hd1b
              rw [f1] at hdl
              cases hdl
            · intro idx2 hmem
              rcases List.mem_cons.mp hmem with he | hmem2
              · subst he
                exact ⟨⟨pkg, hpkg, hl⟩, ⟨_, h3 idx2 _ hg1 f1, f1⟩,
                  i, le_refl i, by omega, hidx, hvis⟩
              · obtain ⟨⟨d, hd, hdl⟩, b, j, hj1, hj2, hj3, hj4⟩ := h7 idx2 hmem2
                have hd1b : (g.allPackages.set idx (loadImageForItem env pkg).1)[idx2]?
                    = some d := hd
                have hne : idx ≠ idx2 := by
                  intro he
                  subst he
                  rw [hg1] at hd1b
                  cases hd1b
                  rw [f1] at hdl
                  cases hdl
                rw [List.getElem?_set_ne hne] at hd1b
                exact ⟨⟨d, hd1b, hdl⟩, b, j, by omega, by omega, hj3, hj4⟩

theorem gridOp_spec (env : IconEnv) (op : GridOp) (g : StyledPackageGrid) :
    (op.run env g).2.Nodup ∧
    (∀ idx ∈ (op.run env g).2,
      (∃ d, g.allPackages[idx]? = some d ∧ d.imageLoaded = false) ∧
      (∃ d2, (op.run env g).1.allPackages[idx]? = some d2 ∧ d2.imageLoaded = true)) ∧
    (∀ (idx : Nat) (d2 : PackageData), (op.run env g).1.allPackages[idx]? = some d2 →
      d2.imageLoaded = false → g.allPackages[idx]? = some d2) := by
  cases op with
  | paint v =>
    obtain ⟨_, _, _, h4, extra, h5, h6, h7⟩ :=
      paintItems_spec env v g.filteredIndices.length 0 g []
    have e : (GridOp.run env (.paint v) g) = paintItems env v 0 g.filteredIndices.length g [] :=
      rfl
    rw [e, h5, List.nil_append]
    exact ⟨h6, fun idx hidx => ⟨(h7 idx hidx).1, (h7 idx hidx).2.1⟩, h4⟩
  | filter searchText =>
    exact ⟨List.nodup_nil, (fun _ h => by cases h), fun _ _ h _ => h⟩
  | select name send_event =>
    refine ⟨List.nodup_nil, (fun _ h => by cases h), fun idx d2 h _ => ?_⟩
    have e : (GridOp.run env (.select name send_event) g).1.allPackages = g.allPackages := by
      show (g.select name send_event).1.allPackages = g.allPackages
      unfold StyledPackageGrid.select
      split <;> rfl
    rw [e] at h
    exact h
  | leftClick v x y =>
    refine ⟨List.nodup_nil, (fun _ h => by cases h), fun idx d2 h _ => ?_⟩
    have e : (GridOp.run env (.leftClick v x y) g).1.allPackages = g.allPackages := by
      show (g.onLeftClick v x y).1.allPackages = g.allPackages
      unfold StyledPackageGrid.onLeftClick
      dsimp only
      split <;> rfl
    rw [e] at h
    exact h
  | clear =>
    refine ⟨List.nodup_nil, (fun _ h => by cases h), fun idx d2 h _ => ?_⟩
    have e : (GridOp.run env .clear g).1.allPackages = [] := rfl
    rw [e] at h
    simp at h

theorem runGridOps_spec (env : IconEnv) (ops : List GridOp) :
    ∀ g : StyledPackageGrid,
    (runGridOps env ops g).2.Nodup ∧
    ∀ idx ∈ (runGridOps env ops g).2,
      ∃ d, g.allPackages[idx]? = some d ∧ d.imageLoaded = false := by
  induction ops with
  | nil =>
    intro g
    exact ⟨List.nodup_nil, fun _ h => by cases h⟩
  | cons op rest ih =>
    intro g
    obtain ⟨h1, h2, h3⟩ := gridOp_spec env op g
    obtain ⟨r1, r2⟩ := ih (op.run env g).1
    have e : (runGridOps env (op :: rest) g).2
        = (op.run env g).2 ++ (runGridOps env rest (op.run env g).1).2 := rfl
    rw [e]
    refine ⟨List.Nodup.append h1 r1 ?_, fun idx hidx => ?_⟩
    · intro idx ha hb
      obtain ⟨d2, hd2, hl2⟩ := (h2 idx ha).2
      obtain ⟨d, hd, hl⟩ := r2 idx hb
      rw [hd2] at hd
      cases hd
      rw [hl2] at hl
      cases hl
    · rcases List.mem_append.mp hidx with ha | hb
      · exact (h2 idx ha).1
      · obtain ⟨d, hd, hl⟩ := r2 idx hb
        exact ⟨d, h3 idx d hd hl, hl⟩

/-- C20: icons are loaded lazily on the first visible paint.  `showData` loads
no icon: every item has imageLoaded = false (and no image) afterwards.
`loadImageForItem` opens the icon file exactly when imageLoaded is false, and
the item has imageLoaded = true afterwards whatever the outcome of opening
and decoding; it leaves a loaded item alone.  Over any sequence of paints,
filters, selections, clicks and clears that follows (no `showData` among
them), no item's icon file is opened twice, and only items not yet loaded are
opened.  A paint opens icon files only for items of the filtered view that
were not loaded and whose rectangle meets the visible range: its bottom edge
is not above scrollY and its top edge not below scrollY + clientHeight. -/
theorem icons_loaded_lazily (env : IconEnv) (g : StyledPackageGrid) (matching : List Packaged)
    (item : PackageData) (ops : List GridOp) (v : View) :
    (∀ d ∈ (g.showData matching).allPackages, d.imageLoaded = false ∧ d.image = none) ∧
    ((loadImageForItem env item).1.imageLoaded = true ∧
      (loadImageForItem env item).1.package = item.package ∧
      (loadImageForItem env item).2 = !item.imageLoaded ∧
      (item.imageLoaded = true → (loadImageForItem env item).1 = item)) ∧
    ((runGridOps env ops (g.showData matching)).2.Nodup ∧
      (runGridOps env ops g).2.Nodup ∧
      ∀ idx ∈ (runGridOps env ops g).2,
        ∃ d, g.allPackages[idx]? = some d ∧ d.imageLoaded = false) ∧
    (∀ idx ∈ (g.onPaint env v).2,
      (∃ d, g.allPackages[idx]? = some d ∧ d.imageLoaded = false) ∧
      ∃ i, i < g.filteredIndices.length ∧ g.filteredIndices[i]? = some idx ∧
        v.viewStartY * 20 ≤ (g.getItemRect v i).y + (g.getItemRect v i).height ∧
        (g.getItemRect v i).y ≤ v.viewStartY * 20 + v.clientHeight) := by
  refine ⟨fun d hd => showData_not_loaded g matching d hd, loadImageForItem_facts env item,
    ⟨(runGridOps_spec env ops (g.showData matching)).1, runGridOps_spec env ops g⟩, ?_⟩
  intro idx hidx
  obtain ⟨_, _, _, _, extra, h5, _, h7⟩ :=
    paintItems_spec env v g.filteredIndices.length 0 g []
  have e : g.onPaint env v = paintItems env v 0 g.filteredIndices.length g [] := rfl
  rw [e, h5, List.nil_append] at hidx
  obtain ⟨a, _, j, _, hj2, hj3, hj4⟩ := h7 idx hidx
  refine ⟨a, j, by omega, hj3, ?_, ?_⟩
  · by_contra hc
    exact hj4 (Or.inl (not_le.mp hc))
  · by_contra hc
    exact hj4 (Or.inr (not_le.mp hc))

set_option maxRecDepth 100000 in
/-- C20 at concrete inputs: a paint scrolled past the two items opens no icon
file, the first paint at the top opens both (one of them cannot be opened), a
second paint at the top opens none. -/
theorem icons_loaded_lazily_witness :
    (runGridOps exampleIconEnv [.paint scrolledView, .paint topView, .paint topView]
      exampleGrid).2 = [0, 1] ∧
    (runGridOps exampleIconEnv [.paint scrolledView, .paint topView, .paint topView]
      exampleGrid).2.Nodup ∧
    (runGridOps exampleIconEnv [.paint scrolledView, .paint topView, .paint topView]
      exampleGrid).1.allPackages.map (fun d => (d.imageLoaded, d.image))
      = [(true, some "icon bytes"), (true, none)] :=
  ⟨by decide,
   (icons_loaded_lazily exampleIconEnv exampleGrid []
     { package := { name := "", short_name := "", full_name := "", position_hint := 0 } }
     [.paint scrolledView, .paint topView, .paint topView] topView).2.2.1.2.1,
   by decide⟩

/-! ## C21 -/

theorem packageLess_iff (a b : PackageData) :
    packageLess a b = true ↔
      a.package.position_hint < b.package.position_hint ∨
      (a.package.position_hint = b.package.position_hint ∧ a.package.name < b.package.name) := by
  unfold packageLess
  split
  · next hne =>
    rw [decide_eq_true_iff]
    constructor
    · exact fun h => Or.inl h
    · rintro (h | ⟨h, _⟩)
      · exact h
      · exact absurd h hne
  · next heq =>
    rw [decide_eq_true_iff]
    have heq2 : a.package.position_hint = b.package.position_hint := by
      by_contra hc
      exact heq hc
    constructor
    · exact fun h => Or.inr ⟨heq2, h⟩
    · rintro (h | ⟨_, h⟩)
      · rw [heq2] at h
        exact absurd h (lt_irrefl _)
      · exact h

theorem packageLess_false_iff (a b : PackageData) :
    packageLess b a = false ↔
      a.package.position_hint < b.package.position_hint ∨
      (a.package.position_hint = b.package.position_hint ∧ a.package.name ≤ b.package.name) := by
  rw [← Bool.not_eq_true, packageLess_iff]
  constructor
  · intro h
    push_neg at h
    rcases lt_trichotomy a.package.position_hint b.package.position_hint with h1 | h1 | h1
    · exact Or.inl h1
    · exact Or.inr ⟨h1, h.2 h1.symm⟩
    · exact absurd h1 (not_lt.mpr h.1)
  · rintro (h | ⟨h1, h2⟩) hc
    · rcases hc with hc | ⟨hc, _⟩
      · exact absurd h (lt_asymm hc)
      · rw [hc] at h
        exact absurd h (lt_irrefl _)
    · rcases hc with hc | ⟨_, hc⟩
      · rw [h1] at hc
        exact absurd hc (lt_irrefl _)
      · exact absurd hc (not_lt.mpr h2)

theorem packageLess_irrefl (a : PackageData) : packageLess a a = false := by
  rw [packageLess_false_iff]
  exact Or.inr ⟨rfl, le_refl _⟩

theorem packageLess_trans (a b c : PackageData) (hab : packageLess a b = true)
    (hbc : packageLess b c = true) : packageLess a c = true := by
  rw [packageLess_iff] at *
  rcases hab with h1 | ⟨h1, h2⟩ <;> rcases hbc with h3 | ⟨h3, h4⟩
  · exact Or.inl (lt_trans h1 h3)
  · exact Or.inl (h3 ▸ h1)
  · exact Or.inl (h1 ▸ h3)
  · exact Or.inr ⟨h1.trans h3, lt_trans h2 h4⟩

/-- The relation "not after": `b` does not sort before `a`. -/
theorem notAfter_trans (a b c : PackageData) (hab : packageLess b a = false)
    (hbc : packageLess c b = false) : packageLess c a = false := by
  rw [packageLess_false_iff] at *
  rcases hab with h1 | ⟨h1, h2⟩ <;> rcases hbc with h3 | ⟨h3, h4⟩
  · exact Or.inl (lt_trans h1 h3)
  · exact Or.inl (h3 ▸ h1)
  · exact Or.inl (h1 ▸ h3)
  · exact Or.inr ⟨h1.trans h3, le_trans h2 h4⟩

theorem packageLess_asymm (a b : PackageData) (hab : packageLess a b = true) :
    packageLess b a = false := by
  rw [packageLess_false_iff]
  rw [packageLess_iff] at hab
  rcases hab with h | ⟨h1, h2⟩
  · exact Or.inl h
  · exact Or.inr ⟨h1, le_of_lt h2⟩

theorem perm_insertPackage (a : PackageData) (l : List PackageData) :
    (insertPackage a l).Perm (a :: l) := by
  induction l with
  | nil => exact List.Perm.refl _
  | cons b rest ih =>
    unfold insertPackage
    split
    · exact ((List.Perm.cons b ih).trans (List.Perm.swap a b rest))
    · exact List.Perm.refl _

theorem perm_sortPackages (l : List PackageData) : (sortPackages l).Perm l := by
  induction l with
  | nil => exact List.Perm.refl _
  | cons a rest ih =>
    unfold sortPackages
    exact (perm_insertPackage a _).trans (List.Perm.cons a ih)

theorem pairwise_insertPackage (a : PackageData) (l : List PackageData)
    (h : l.Pairwise (fun x y => packageLess y x = false)) :
    (insertPackage a l).Pairwise (fun x y => packageLess y x = false) := by
  induction l with
  | nil => exact List.pairwise_singleton _ _
  | cons b rest ih =>
    rw [List.pairwise_cons] at h
    unfold insertPackage
    split
    · next hlt =>
      rw [List.pairwise_cons]
      refine ⟨fun x hx => ?_, ih h.2⟩
      rcases (mem_insertPackage a x rest).mp hx with he | hm
      · subst he
        exact packageLess_asymm b x hlt
      · exact h.1 x hm
    · next hnlt =>
      have hba : packageLess b a = false := by
        cases hv : packageLess b a
        · rfl
        · exact absurd hv hnlt
      rw [List.pairwise_cons]
      refine ⟨fun x hx => ?_, List.pairwise_cons.mpr h⟩
      rcases List.mem_cons.mp hx with he | hm
      · subst he
        exact hba
      · exact notAfter_trans a b x hba (h.1 x hm)

theorem pairwise_sortPackages (l : List PackageData) :
    (sortPackages l).Pairwise (fun x y => packageLess y x = false) := by
  induction l with
  | nil => exact List.Pairwise.nil
  | cons a rest ih =>
    unfold sortPackages
    exact pairwise_insertPackage a _ ih

theorem length_sortPackages (l : List PackageData) : (sortPackages l).length = l.length :=
  (perm_sortPackages l).length_eq

theorem allIndicesFrom_range (l : List PackageData) :
    allIndicesFrom 0 l = List.range l.length := by
  rw [allIndicesFrom_eq, List.range_eq_range']

/-- C21: `showData` sorts by position hint.  Afterwards `allPackages` is a
permutation of the packages found by the package manager (each with no image
loaded), ordered by non-decreasing position hint with ties in ascending order
of name; the comparator is a strict weak ordering (irreflexive, transitive,
and with a transitive "neither sorts before the other"); `filteredIndices` is
0, 1, .., n-1; the search text is empty; and the selection is `(size_t)-1`,
so there is no selection. -/
theorem showData_sorts_by_position_hint (g : StyledPackageGrid) (matching : List Packaged) :
    (g.showData matching).allPackages.Perm
      (matching.map (fun p => { package := p, imageLoaded := false })) ∧
    ((g.showData matching).allPackages.map (fun d => d.package)).Perm matching ∧
    (g.showData matching).allPackages.Pairwise (fun a b =>
      a.package.position_hint < b.package.position_hint ∨
      (a.package.position_hint = b.package.position_hint ∧
        a.package.name ≤ b.package.name)) ∧
    ((∀ a, packageLess a a = false) ∧
      (∀ a b c, packageLess a b = true → packageLess b c = true → packageLess a c = true) ∧
      (∀ a b c, packageLess a b = false → packageLess b a = false →
        packageLess b c = false → packageLess c b = false →
        packageLess a c = false ∧ packageLess c a = false)) ∧
    (g.showData matching).filteredIndices = List.range matching.length ∧
    (g.showData matching).currentSearchText = "" ∧
    (g.showData matching).selection = NO_SELECTION ∧
    (matching.length ≤ NO_SELECTION → (g.showData matching).hasSelection = false) := by
  have hperm := perm_sortPackages
    (matching.map (fun p => ({ package := p, imageLoaded := false } : PackageData)))
  have hidx : (g.showData matching).filteredIndices = List.range matching.length := by
    show allIndicesFrom 0 (sortPackages _) = _
    rw [allIndicesFrom_range, length_sortPackages, List.length_map]
  refine ⟨hperm, ?_, ?_, ⟨packageLess_irrefl, packageLess_trans, ?_⟩, hidx, rfl, rfl, ?_⟩
  · have h2 := hperm.map (fun d => d.package)
    rw [List.map_map] at h2
    have e : ((fun d : PackageData => d.package) ∘
        (fun p => ({ package := p, imageLoaded := false } : PackageData))) = id := rfl
    rw [e, List.map_id] at h2
    exact h2
  · have hp := pairwise_sortPackages
      (matching.map (fun p => ({ package := p, imageLoaded := false } : PackageData)))
    exact hp.imp (fun {a b} h => (packageLess_false_iff a b).mp h)
  · intro a b c h1 h2 h3 h4
    exact ⟨notAfter_trans c b a h3 h1, notAfter_trans a b c h2 h4⟩
  · intro hlen
    unfold StyledPackageGrid.hasSelection
    rw [hidx, List.length_range]
    show decide (NO_SELECTION < matching.length) = false
    exact decide_eq_false (not_lt.mpr hlen)

set_option maxRecDepth 100000 in
/-- C21 at a concrete input: the two example games come out with "magic"
(position hint 1) before "vs" (position hint 2). -/
theorem showData_sorts_by_position_hint_witness :
    exampleGames.length ≤ NO_SELECTION ∧
    (StyledPackageGrid.showData {} exampleGames).hasSelection = false ∧
    (StyledPackageGrid.showData {} exampleGames).allPackages.map (fun d => d.package.name)
      = ["magic", "vs"] ∧
    (StyledPackageGrid.showData {} exampleGames).filteredIndices = [0, 1] :=
  ⟨by decide,
   (showData_sorts_by_position_hint {} exampleGames).2.2.2.2.2.2.2 (by decide),
   by decide, by decide⟩

/-! ## C25 -/

theorem length_matchingIndicesFrom (needle : String) (i : Nat) (l : List PackageData) :
    (matchingIndicesFrom needle i l).length ≤ l.length := by
  induction l generalizing i with
  | nil => exact Nat.le_refl _
  | cons p rest ih =>
    unfold matchingIndicesFrom
    dsimp only
    split
    · exact Nat.succ_le_succ (ih _)
    · exact Nat.le_succ_of_le (ih _)

theorem filter_fields (g : StyledPackageGrid) (searchText : String) :
    (g.filter searchText).allPackages = g.allPackages ∧
    (g.filter searchText).columnCount = g.columnCount ∧
    (g.filter searchText).currentSearchText = Lower searchText ∧
    (g.filter searchText).filteredIndices =
      (if (Lower searchText).isEmpty then allIndicesFrom 0 g.allPackages
       else matchingIndicesFrom (Lower searchText) 0 g.allPackages) ∧
    (g.filter searchText).selection =
      (if g.selection ≥ (g.filter searchText).filteredIndices.length then
        (if (g.filter searchText).filteredIndices.isEmpty then NO_SELECTION else 0)
       else g.selection) :=
  ⟨rfl, rfl, rfl, rfl, rfl⟩

theorem filter_length_le (g : StyledPackageGrid) (searchText : String) :
    (g.filter searchText).filteredIndices.length ≤ g.allPackages.length := by
  rw [(filter_fields g searchText).2.2.2.1]
  split
  · rw [allIndicesFrom_eq, List.length_range']
  · exact length_matchingIndicesFrom _ _ _

/-- C25: `filter` treats the selection as a position in the filtered view.
If the previous selection index is smaller than the new number of filtered
items, the index is unchanged, and the selected package is whichever package
now stands at that position; otherwise the selection becomes 0 when the
filtered view is non-empty and `(size_t)-1` when it is empty.  In particular,
with no prior selection and a non-empty result the first item is selected.
The select event is sent in every case: `filterBySearch` hands the filtered
list to the handler of the select event. -/
theorem filter_selection_is_a_position (g : StyledPackageGrid) (searchText : String)
    (w : NewSetWizard) (id : ListId) :
    (g.selection < (g.filter searchText).filteredIndices.length →
      (g.filter searchText).selection = g.selection ∧
      (g.filter searchText).getSelection =
        ((g.filter searchText).filteredIndices[g.selection]?).bind
          (fun i => (g.allPackages[i]?).map (fun d => d.package))) ∧
    ((g.filter searchText).filteredIndices.length ≤ g.selection →
      (g.filter searchText).filteredIndices ≠ [] → (g.filter searchText).selection = 0) ∧
    ((g.filter searchText).filteredIndices.length ≤ g.selection →
      (g.filter searchText).filteredIndices = [] →
      (g.filter searchText).selection = NO_SELECTION) ∧
    (g.selection = NO_SELECTION → g.allPackages.length ≤ NO_SELECTION →
      (g.filter searchText).filteredIndices ≠ [] →
      (g.filter searchText).selection = 0 ∧ (g.filter searchText).hasSelection = true) ∧
    w.filterBySearch id searchText =
      (w.setList id { w.list id with
        searchText := searchText,
        styledGrid := (w.list id).styledGrid.filter searchText }).onSelectEvent id := by
  obtain ⟨hall, _, _, _, hsel⟩ := filter_fields g searchText
  have hzero : (g.filter searchText).filteredIndices.length ≤ g.selection →
      (g.filter searchText).filteredIndices ≠ [] → (g.filter searchText).selection = 0 := by
    intro hge hne
    rw [hsel, if_pos hge, if_neg]
    intro he
    exact hne (List.isEmpty_iff.mp he)
  refine ⟨?_, hzero, ?_, ?_, rfl⟩
  · intro hlt
    have hs : (g.filter searchText).selection = g.selection := by
      rw [hsel, if_neg (by omega)]
    refine ⟨hs, ?_⟩
    unfold StyledPackageGrid.getSelection StyledPackageGrid.hasSelection
    rw [hs, hall]
    rw [decide_eq_true hlt]
    simp only [Bool.not_true, Bool.false_eq_true, if_false]
    cases (g.filter searchText).filteredIndices[g.selection]? <;> rfl
  · intro hge he
    rw [hsel, if_pos hge, if_pos]
    rw [he]
    rfl
  · intro hno hlen hne
    have hge : (g.filter searchText).filteredIndices.length ≤ g.selection := by
      rw [hno]
      exact le_trans (filter_length_le g searchText) hlen
    have h0 := hzero hge hne
    refine ⟨h0, ?_⟩
    unfold StyledPackageGrid.hasSelection
    rw [h0]
    exact decide_eq_true (List.length_pos.mpr hne)

set_option maxRecDepth 100000 in
/-- C25 at a concrete input: with "magic" selected at position 0, filtering
for "vs" keeps position 0, which now holds "vs". -/
theorem filter_selection_is_a_position_witness :
    ({ exampleGrid with selection := 0 } : StyledPackageGrid).getSelection.map (fun p => p.name)
      = some "magic" ∧
    (0 : Nat) < (StyledPackageGrid.filter { exampleGrid with selection := 0 }
      "vs").filteredIndices.length ∧
    (StyledPackageGrid.filter { exampleGrid with selection := 0 } "vs").selection = 0 ∧
    (StyledPackageGrid.filter { exampleGrid with selection := 0 } "vs").getSelection.map
      (fun p => p.name) = some "vs" :=
  ⟨by decide, by decide,
   ((filter_selection_is_a_position { exampleGrid with selection := 0 } "vs"
      (NewSetWizard.create exampleWizardEnv exampleSettings) .ID_WIZARD_GAME_LIST).1
      (by decide)).1,
   by decide⟩

/-! ## C26 -/

theorem findItemLoop_spec (c : Nat) (startX x sy : Int) (n : Nat) :
    ∀ i : Nat,
    (∃ k, i ≤ k ∧ k < i + n ∧ findItemLoop c startX x sy i n = k ∧
      (x ≥ startX + ((k % c : Nat) : Int) * (ITEM_WIDTH + ITEM_SPACING) ∧
        x < startX + ((k % c : Nat) : Int) * (ITEM_WIDTH + ITEM_SPACING) + ITEM_WIDTH ∧
        sy ≥ ITEM_SPACING + ((k / c : Nat) : Int) * (ITEM_HEIGHT + ITEM_SPACING) ∧
        sy < ITEM_SPACING + ((k / c : Nat) : Int) * (ITEM_HEIGHT + ITEM_SPACING)
          + ITEM_HEIGHT)) ∨
    (findItemLoop c startX x sy i n = NO_SELECTION ∧
      ∀ k, i ≤ k → k < i + n →
        ¬ (x ≥ startX + ((k % c : Nat) : Int) * (ITEM_WIDTH + ITEM_SPACING) ∧
          x < startX + ((k % c : Nat) : Int) * (ITEM_WIDTH + ITEM_SPACING) + ITEM_WIDTH ∧
          sy ≥ ITEM_SPACING + ((k / c : Nat) : Int) * (ITEM_HEIGHT + ITEM_SPACING) ∧
          sy < ITEM_SPACING + ((k / c : Nat) : Int) * (ITEM_HEIGHT + ITEM_SPACING)
            + ITEM_HEIGHT)) := by
  induction n with
  | zero =>
    intro i
    right
    exact ⟨rfl, fun k h1 h2 => by omega⟩
  | succ n ih =>
    intro i
    by_cases hP : x ≥ startX + ((i % c : Nat) : Int) * (ITEM_WIDTH + ITEM_SPACING) ∧
        x < startX + ((i % c : Nat) : Int) * (ITEM_WIDTH + ITEM_SPACING) + ITEM_WIDTH ∧
        sy ≥ ITEM_SPACING + ((i / c : Nat) : Int) * (ITEM_HEIGHT + ITEM_SPACING) ∧
        sy < ITEM_SPACING + ((i / c : Nat) : Int) * (ITEM_HEIGHT + ITEM_SPACING) + ITEM_HEIGHT
    · left
      refine ⟨i, le_refl i, by omega, ?_, hP⟩
      simp only [findItemLoop]
      rw [if_pos hP]
    · have e : findItemLoop c startX x sy i (n + 1) = findItemLoop c startX x sy (i + 1) n := by
        simp only [findItemLoop]
        rw [if_neg hP]
      rw [e]
      rcases ih (i + 1) with ⟨k, h1, h2, h3, h4⟩ | ⟨h1, h2⟩
      · left
        exact ⟨k, by omega, by omega, h3, h4⟩
      · right
        refine ⟨h1, fun k hk1 hk2 => ?_⟩
        by_cases hk : k = i
        · subst hk
          exact hP
        · exact h2 k (by omega) (by omega)

theorem contains_getItemRect_iff (g : StyledPackageGrid) (v : View) (k : Nat) (x sy : Int)
    (hk : k < g.filteredIndices.length) :
    (g.getItemRect v k).Contains x sy = true ↔
      (x ≥ (v.clientWidth - ((g.columnCount : Int) * ITEM_WIDTH
              + ((g.columnCount : Int) - 1) * ITEM_SPACING)).tdiv 2
            + ((k % g.columnCount : Nat) : Int) * (ITEM_WIDTH + ITEM_SPACING) ∧
        x < (v.clientWidth - ((g.columnCount : Int) * ITEM_WIDTH
              + ((g.columnCount : Int) - 1) * ITEM_SPACING)).tdiv 2
            + ((k % g.columnCount : Nat) : Int) * (ITEM_WIDTH + ITEM_SPACING) + ITEM_WIDTH ∧
        sy ≥ ITEM_SPACING + ((k / g.columnCount : Nat) : Int) * (ITEM_HEIGHT + ITEM_SPACING) ∧
        sy < ITEM_SPACING + ((k / g.columnCount : Nat) : Int) * (ITEM_HEIGHT + ITEM_SPACING)
          + ITEM_HEIGHT) := by
  unfold StyledPackageGrid.getItemRect wxRect.Contains
  rw [if_neg (by omega)]
  simp only [decide_eq_true_iff, ITEM_WIDTH, ITEM_HEIGHT, ITEM_SPACING]
  constructor
  · rintro ⟨h1, h2, h3, h4⟩
    exact ⟨h1, by omega, h2, by omega⟩
  · rintro ⟨h1, h2, h3, h4⟩
    exact ⟨h1, h3, by omega, by omega⟩

/-- C26: hit-testing inverts the layout.  For a column count of at least 1: a
point whose scrolled position `(x, y + 20 * viewStartY)` lies inside the
rectangle of item `i` of the filtered view is found as `i`; a point whose
scrolled position lies inside no item's rectangle is found as `(size_t)-1`;
and what `findItemAt` returns is always `(size_t)-1` or the index of an item
whose rectangle holds the scrolled position. -/
theorem findItemAt_inverts_layout (g : StyledPackageGrid) (v : View) (i : Nat) (x y : Int)
    (_hc : 1 ≤ g.columnCount) :
    (i < g.filteredIndices.length →
      (g.getItemRect v i).Contains x (y + v.viewStartY * 20) = true →
      g.findItemAt v x y = i) ∧
    ((∀ j, j < g.filteredIndices.length →
        (g.getItemRect v j).Contains x (y + v.viewStartY * 20) = false) →
      g.findItemAt v x y = NO_SELECTION) ∧
    (g.findItemAt v x y = NO_SELECTION ∨
      (g.findItemAt v x y < g.filteredIndices.length ∧
        (g.getItemRect v (g.findItemAt v x y)).Contains x (y + v.viewStartY * 20) = true)) := by
  have hspec := findItemLoop_spec g.columnCount
    ((v.clientWidth - ((g.columnCount : Int) * ITEM_WIDTH
      + ((g.columnCount : Int) - 1) * ITEM_SPACING)).tdiv 2) x (y + v.viewStartY * 20)
    g.filteredIndices.length 0
  have e : g.findItemAt v x y = findItemLoop g.columnCount
      ((v.clientWidth - ((g.columnCount : Int) * ITEM_WIDTH
        + ((g.columnCount : Int) - 1) * ITEM_SPACING)).tdiv 2) x (y + v.viewStartY * 20)
      0 g.filteredIndices.length := rfl
  rw [← e] at hspec
  refine ⟨?_, ?_, ?_⟩
  · intro hi hin
    rw [contains_getItemRect_iff g v i x _ hi] at hin
    rcases hspec with ⟨k, _, hk2, hk3, hk4⟩ | ⟨_, hnone⟩
    · rw [hk3]
      simp only [ITEM_WIDTH, ITEM_HEIGHT, ITEM_SPACING] at hin hk4
      have hcol : ((k % g.columnCount : Nat) : Int) = ((i % g.columnCount : Nat) : Int) := by
        omega
      have hrow : ((k / g.columnCount : Nat) : Int) = ((i / g.columnCount : Nat) : Int) := by
        omega
      by_contra hne
      rcases div_mod_differ g.columnCount k i hne with h | h
      · exact h (by exact_mod_cast hcol)
      · exact h (by exact_mod_cast hrow)
    · exact absurd hin (hnone i (Nat.zero_le i) (by omega))
  · intro hout
    rcases hspec with ⟨k, _, hk2, _, hk4⟩ | ⟨hres, _⟩
    · have hk : k < g.filteredIndices.length := by omega
      have hin := (contains_getItemRect_iff g v k x (y + v.viewStartY * 20) hk).mpr hk4
      rw [hout k hk] at hin
      cases hin
    · exact hres
  · rcases hspec with ⟨k, _, hk2, hk3, hk4⟩ | ⟨hres, _⟩
    · right
      have hk : k < g.filteredIndices.length := by omega
      rw [hk3]
      exact ⟨hk, (contains_getItemRect_iff g v k x (y + v.viewStartY * 20) hk).mpr hk4⟩
    · exact Or.inl hres

set_option maxRecDepth 100000 in
/-- C26 at a concrete input: in a window of width 640 scrolled down by one
unit, the point (200, 50) lies in the rectangle of the second game. -/
theorem findItemAt_inverts_layout_witness :
    1 ≤ exampleGrid.columnCount ∧ 1 < exampleGrid.filteredIndices.length ∧
    (exampleGrid.getItemRect ⟨1, 640, 400⟩ 1).Contains 200 (50 + 1 * 20) = true ∧
    exampleGrid.findItemAt ⟨1, 640, 400⟩ 200 50 = 1 ∧
    exampleGrid.findItemAt ⟨1, 640, 400⟩ 200 300 = NO_SELECTION :=
  ⟨by decide, by decide, by decide,
   (findItemAt_inverts_layout exampleGrid ⟨1, 640, 400⟩ 1 200 50 (by decide)).1
     (by decide) (by decide),
   by decide⟩

/-! ## C24 -/

theorem length_le_of_increasing (l : List Nat) (n : Nat) (hp : l.Pairwise (fun a b => a < b))
    (hb : ∀ x ∈ l, x < n) : l.length ≤ n := by
  have hnd : l.Nodup := hp.imp (fun {a b} h => Nat.ne_of_lt h)
  have hss : l ⊆ List.range n := fun x hx => List.mem_range.mpr (hb x hx)
  calc l.length ≤ (List.range n).length := (List.subperm_of_subset hnd hss).length_le
    _ = n := List.length_range n

theorem findByName_bounds (all : List PackageData) (name : String) (l : List Nat) :
    ∀ (i k : Nat), findByName all name i l = some k → i ≤ k ∧ k < i + l.length := by
  induction l with
  | nil =>
    intro i k h
    simp [findByName] at h
  | cons idx rest ih =>
    intro i k h
    simp only [findByName] at h
    rw [List.length_cons]
    split at h
    · split at h
      · cases h
        exact ⟨le_refl _, by omega⟩
      · obtain ⟨h1, h2⟩ := ih (i + 1) k h
        exact ⟨by omega, by omega⟩
    · obtain ⟨h1, h2⟩ := ih (i + 1) k h
      exact ⟨by omega, by omega⟩

theorem paintItems_shape (env : IconEnv) (v : View) (n : Nat) :
    ∀ (i : Nat) (g : StyledPackageGrid) (opened : List Nat),
    (paintItems env v i n g opened).1.allPackages.length = g.allPackages.length ∧
    (paintItems env v i n g opened).1.selection = g.selection := by
  induction n with
  | zero =>
    intro i g opened
    exact ⟨rfl, rfl⟩
  | succ n ih =>
    intro i g opened
    simp only [paintItems]
    split
    · exact ih _ _ _
    · split
      · exact ih _ _ _
      · split
        · exact ih _ _ _
        · split
          · obtain ⟨h1, h2⟩ := ih (i + 1)
              { g with allPackages := g.allPackages.set _ (loadImageForItem env _).1 }
              (if (loadImageForItem env _).2 = true then opened ++ [_] else opened)
            exact ⟨h1.trans (List.length_set _ _ _), h2⟩
          · exact ih _ _ _

theorem showData_safe (g : StyledPackageGrid) (matching : List Packaged)
    (hlen : matching.length ≤ NO_SELECTION) :
    (g.showData matching).indexSafe ∧ (g.showData matching).allPackages.length ≤ NO_SELECTION := by
  have hl : (g.showData matching).allPackages.length = matching.length := by
    show (sortPackages _).length = _
    rw [length_sortPackages, List.length_map]
  have hi : (g.showData matching).filteredIndices
      = List.range' 0 (g.showData matching).allPackages.length := allIndicesFrom_eq 0 _
  refine ⟨⟨?_, ?_, Or.inl rfl⟩, by rw [hl]; exact hlen⟩
  · intro idx hidx
    rw [hi, List.mem_range'_1] at hidx
    omega
  · rw [hi]
    exact List.pairwise_lt_range' 0 _

theorem filter_safe (g : StyledPackageGrid) (searchText : String)
    (hlen : g.allPackages.length ≤ NO_SELECTION) :
    (g.filter searchText).indexSafe ∧ (g.filter searchText).allPackages.length ≤ NO_SELECTION := by
  obtain ⟨hall, _, _, hidx, hsel⟩ := filter_fields g searchText
  refine ⟨⟨?_, ?_, ?_⟩, by rw [hall]; exact hlen⟩
  · intro idx hmem
    rw [hall]
    rw [hidx] at hmem
    split at hmem
    · rw [allIndicesFrom_eq, List.mem_range'_1] at hmem
      omega
    · obtain ⟨_, pkg, hpkg, _⟩ := (mem_matchingIndicesFrom _ _ _ _).mp hmem
      exact (List.getElem?_eq_some.mp hpkg).1
  · rw [hidx]
    split
    · rw [allIndicesFrom_eq]
      exact List.pairwise_lt_range' 0 _
    · exact pairwise_matchingIndicesFrom _ _ _
  · rw [hsel]
    split
    · split
      · exact Or.inl rfl
      · next hne =>
        right
        apply List.length_pos.mpr
        intro he
        apply hne
        rw [he]
        rfl
    · next hlt => exact Or.inr (by omega)

theorem select_safe (g : StyledPackageGrid) (name : String) (send_event : Bool)
    (h : g.indexSafe) : (g.select name send_event).1.indexSafe ∧
      (g.select name send_event).1.allPackages = g.allPackages := by
  unfold StyledPackageGrid.select
  split
  · next k hk =>
    obtain ⟨_, h2⟩ := findByName_bounds _ _ _ _ _ hk
    exact ⟨⟨h.1, h.2.1, Or.inr (by simpa using h2)⟩, rfl⟩
  · exact ⟨⟨h.1, h.2.1, Or.inl rfl⟩, rfl⟩

theorem onLeftClick_safe (g : StyledPackageGrid) (v : View) (x y : Int)
    (h : g.indexSafe) : (g.onLeftClick v x y).1.indexSafe ∧
      (g.onLeftClick v x y).1.allPackages = g.allPackages := by
  unfold StyledPackageGrid.onLeftClick
  dsimp only
  split
  · next hlt => exact ⟨⟨h.1, h.2.1, Or.inr hlt⟩, rfl⟩
  · exact ⟨h, rfl⟩

theorem onPaint_safe (env : IconEnv) (g : StyledPackageGrid) (v : View)
    (h : g.indexSafe) : (g.onPaint env v).1.indexSafe ∧
      (g.onPaint env v).1.allPackages.length = g.allPackages.length := by
  obtain ⟨h1, _⟩ := paintItems_spec env v g.filteredIndices.length 0 g []
  obtain ⟨h2, h3⟩ := paintItems_shape env v g.filteredIndices.length 0 g []
  have e : g.onPaint env v = paintItems env v 0 g.filteredIndices.length g [] := rfl
  rw [e]
  refine ⟨⟨?_, ?_, ?_⟩, h2⟩
  · rw [h1, h2]
    exact h.1
  · rw [h1]
    exact h.2.1
  · rw [h1, h3]
    exact h.2.2

theorem gridCall_safe (call : GridCall) (g : StyledPackageGrid)
    (hsize : ∀ m, call = GridCall.showData m → m.length ≤ NO_SELECTION)
    (h : g.indexSafe ∧ g.allPackages.length ≤ NO_SELECTION) :
    (call.run g).indexSafe ∧ (call.run g).allPackages.length ≤ NO_SELECTION := by
  cases call with
  | showData matching => exact showData_safe g matching (hsize matching rfl)
  | filter searchText => exact filter_safe g searchText h.2
  | clear => exact ⟨⟨(fun _ hx => by cases hx), List.Pairwise.nil, Or.inl rfl⟩, Nat.zero_le _⟩
  | select name send_event =>
    obtain ⟨h1, h2⟩ := select_safe g name send_event h.1
    refine ⟨h1, ?_⟩
    show (g.select name send_event).1.allPackages.length ≤ _
    rw [h2]
    exact h.2
  | onLeftDown v x y =>
    obtain ⟨h1, h2⟩ := onLeftClick_safe g v x y h.1
    refine ⟨h1, ?_⟩
    show (g.onLeftClick v x y).1.allPackages.length ≤ _
    rw [h2]
    exact h.2
  | onLeftDClick v x y =>
    obtain ⟨h1, h2⟩ := onLeftClick_safe g v x y h.1
    refine ⟨h1, ?_⟩
    show (g.onLeftClick v x y).1.allPackages.length ≤ _
    rw [h2]
    exact h.2
  | onPaint env v =>
    obtain ⟨h1, h2⟩ := onPaint_safe env g v h.1
    refine ⟨h1, ?_⟩
    show (g.onPaint env v).1.allPackages.length ≤ _
    rw [h2]
    exact h.2

theorem runGridCalls_safe (calls : List GridCall) :
    ∀ (g : StyledPackageGrid),
    (∀ m, GridCall.showData m ∈ calls → m.length ≤ NO_SELECTION) →
    g.indexSafe ∧ g.allPackages.length ≤ NO_SELECTION →
    (runGridCalls calls g).indexSafe ∧ (runGridCalls calls g).allPackages.length ≤ NO_SELECTION := by
  induction calls with
  | nil => exact fun g _ h => h
  | cons call rest ih =>
    intro g hsize h
    exact ih (call.run g) (fun m hm => hsize m (List.mem_cons_of_mem _ hm))
      (gridCall_safe call g (fun m hm => hsize m (by rw [hm]; exact List.mem_cons_self _ _)) h)

theorem indexSafe_consequences (g : StyledPackageGrid)
    (h : g.indexSafe ∧ g.allPackages.length ≤ NO_SELECTION) :
    (g.hasSelection = true ↔ g.selection ≠ NO_SELECTION) ∧
    g.getSelection.isSome = g.hasSelection ∧
    (∀ i, i < g.filteredIndices.length →
      ∃ idx d, g.filteredIndices[i]? = some idx ∧ g.allPackages[idx]? = some d) := by
  obtain ⟨⟨h1, h2, h3⟩, h4⟩ := h
  have hlen : g.filteredIndices.length ≤ NO_SELECTION :=
    le_trans (length_le_of_increasing _ _ h2 h1) h4
  have hidx : ∀ i, i < g.filteredIndices.length →
      ∃ idx d, g.filteredIndices[i]? = some idx ∧ g.allPackages[idx]? = some d := by
    intro i hi
    have hm : g.filteredIndices[i] ∈ g.filteredIndices := List.getElem_mem hi
    exact ⟨g.filteredIndices[i], _, List.getElem?_eq_getElem hi,
      List.getElem?_eq_some.mpr ⟨h1 _ hm, rfl⟩⟩
  refine ⟨?_, ?_, hidx⟩
  · unfold StyledPackageGrid.hasSelection
    rw [decide_eq_true_iff]
    constructor
    · intro hlt he
      omega
    · intro hne
      rcases h3 with he | hlt
      · exact absurd he hne
      · exact hlt
  · unfold StyledPackageGrid.getSelection
    cases hs : g.hasSelection with
    | false => rfl
    | true =>
      have hlt : g.selection < g.filteredIndices.length := by
        unfold StyledPackageGrid.hasSelection at hs
        exact of_decide_eq_true hs
      obtain ⟨idx, d, e1, e2⟩ := hidx g.selection hlt
      simp [e1, e2]

/-- C24: index safety of the grid.  In every state reached from a new grid
through `showData`, `filter`, `clear`, `select`, `onLeftDown`, `onLeftDClick`
(and painting), where the package manager never lists more than
`(size_t)-1` packages: every filtered index is smaller than
`allPackages.size()`, the filtered indices increase strictly, and the
selection is `(size_t)-1` or smaller than `filteredIndices.size()`.  Hence
`hasSelection` holds exactly when the selection is not `(size_t)-1`,
`getSelection` yields a package exactly when there is a selection, and every
position of the filtered view (the positions `select` and `onPaint` run
through) names an index inside `filteredIndices` and `allPackages`. -/
theorem grid_index_safety (calls : List GridCall) (call : GridCall)
    (hsize : ∀ m, GridCall.showData m ∈ calls ++ [call] → m.length ≤ NO_SELECTION) :
    (runGridCalls calls {}).indexSafe ∧
    (call.run (runGridCalls calls {})).indexSafe ∧
    ((runGridCalls calls {}).hasSelection = true ↔
      (runGridCalls calls {}).selection ≠ NO_SELECTION) ∧
    (runGridCalls calls {}).getSelection.isSome = (runGridCalls calls {}).hasSelection ∧
    (∀ i, i < (runGridCalls calls {}).filteredIndices.length →
      ∃ idx d, (runGridCalls calls {}).filteredIndices[i]? = some idx ∧
        (runGridCalls calls {}).allPackages[idx]? = some d) := by
  have h0 : (({} : StyledPackageGrid)).indexSafe ∧
      (({} : StyledPackageGrid)).allPackages.length ≤ NO_SELECTION :=
    ⟨⟨(fun _ hx => by cases hx), List.Pairwise.nil, Or.inl rfl⟩, Nat.zero_le _⟩
  have h := runGridCalls_safe calls {}
    (fun m hm => hsize m (List.mem_append_left _ hm)) h0
  have hstep := gridCall_safe call (runGridCalls calls {})
    (fun m hm => hsize m (List.mem_append_right _ (by rw [hm]; exact List.mem_singleton_self _)))
    h
  obtain ⟨c1, c2, c3⟩ := indexSafe_consequences _ h
  exact ⟨h.1, hstep.1, c1, c2, c3⟩

set_option maxRecDepth 100000 in
/-- C24 at a concrete input: the two games are shown, the second is clicked,
and the view is filtered for "magic": the selection falls back to position
0. -/
theorem grid_index_safety_witness :
    (∀ m, GridCall.showData m ∈
        [GridCall.showData exampleGames, GridCall.onLeftDown topView 200 50]
          ++ [GridCall.filter "magic"] →
      m.length ≤ NO_SELECTION) ∧
    (runGridCalls [.showData exampleGames, .onLeftDown topView 200 50] {}).selection = 1 ∧
    (runGridCalls [.showData exampleGames, .onLeftDown topView 200 50, .filter "magic"]
      {}).selection = 0 ∧
    (runGridCalls [.showData exampleGames, .onLeftDown topView 200 50] {}).indexSafe :=
  have hsize : ∀ m, GridCall.showData m ∈
      [GridCall.showData exampleGames, GridCall.onLeftDown topView 200 50]
        ++ [GridCall.filter "magic"] → m.length ≤ NO_SELECTION := by
    intro m hm
    simp only [List.cons_append, List.nil_append, List.mem_cons, GridCall.showData.injEq,
      List.mem_singleton, reduceCtorEq, or_false, List.not_mem_nil] at hm
    rw [hm]
    decide
  ⟨hsize, by decide, by decide,
   (grid_index_safety [.showData exampleGames, .onLeftDown topView 200 50]
     (.filter "magic") hsize).1⟩

/-! ## C23 -/

theorem done_cases (env : WizardEnv) (w : NewSetWizard) :
    (w.done env = w ∧
      (w.styleList.hasSelection = false ∨ w.styleList.styledGrid.getSelection = none ∨
        ∃ stylesheet, w.styleList.styledGrid.getSelection = some stylesheet ∧
          (env.loadFullyOk stylesheet = false ∨ env.constructOk stylesheet = false))) ∨
    (∃ stylesheet, w.styleList.hasSelection = true ∧
      w.styleList.styledGrid.getSelection = some stylesheet ∧
      env.loadFullyOk stylesheet = true ∧ env.constructOk stylesheet = true ∧
      ((env.validateOk stylesheet = false ∧
          w.done env = { w with set := some stylesheet }) ∨
        (env.validateOk stylesheet = true ∧
          w.done env = { w with set := some stylesheet, modalResult := some 5100 }))) := by
  unfold NewSetWizard.done
  cases hs : w.styleList.hasSelection with
  | false => exact Or.inl ⟨by simp, Or.inl rfl⟩
  | true =>
    cases hg : w.styleList.styledGrid.getSelection with
    | none => exact Or.inl ⟨by simp, Or.inr (Or.inl rfl)⟩
    | some stylesheet =>
      cases hl : env.loadFullyOk stylesheet with
      | false => exact Or.inl ⟨by simp [hl], Or.inr (Or.inr ⟨stylesheet, rfl, Or.inl hl⟩)⟩
      | true =>
        cases hc : env.constructOk stylesheet with
        | false =>
          exact Or.inl ⟨by simp [hl, hc], Or.inr (Or.inr ⟨stylesheet, rfl, Or.inr hc⟩)⟩
        | true =>
          right
          refine ⟨stylesheet, rfl, rfl, hl, hc, ?_⟩
          cases hv : env.validateOk stylesheet with
          | false => exact Or.inl ⟨rfl, by simp [hl, hc, hv]⟩
          | true => exact Or.inr ⟨rfl, by simp [hl, hc, hv]⟩

/-- C23, the code's behaviour: `done` assigns `set` before it validates.  A
run of `done` that returns early (no stylesheet selected) or in which loading
the stylesheet or constructing the set raises an error leaves the wizard as
it was; a run that reaches the end assigns `set` and ends the dialog with
wxID_OK; but a run in which only `validate` raises an error leaves the new
set in `set` although the dialog stays open. -/
theorem done_assigns_set_before_validating (env : WizardEnv) (w : NewSetWizard)
    (stylesheet : Packaged) (hsel : w.styleList.hasSelection = true)
    (hget : w.styleList.styledGrid.getSelection = some stylesheet) :
    (env.loadFullyOk stylesheet = false ∨ env.constructOk stylesheet = false →
      w.done env = w) ∧
    (env.loadFullyOk stylesheet = true → env.constructOk stylesheet = true →
      env.validateOk stylesheet = true →
      (w.done env).set = some stylesheet ∧ (w.done env).modalResult = some 5100) ∧
    (env.loadFullyOk stylesheet = true → env.constructOk stylesheet = true →
      env.validateOk stylesheet = false →
      (w.done env).set = some stylesheet ∧ (w.done env).modalResult = w.modalResult) := by
  rcases done_cases env w with ⟨he, h | h | ⟨s, hs, h⟩⟩ | ⟨s, _, hs, hl, hc, h⟩
  · rw [hsel] at h; cases h
  · rw [hget] at h; cases h
  · rw [hget] at hs
    cases hs
    refine ⟨fun _ => he, fun h1 h2 _ => ?_, fun h1 h2 _ => ?_⟩
    · rcases h with h | h
      · rw [h1] at h; cases h
      · rw [h2] at h; cases h
    · rcases h with h | h
      · rw [h1] at h; cases h
      · rw [h2] at h; cases h
  · rw [hget] at hs
    cases hs
    refine ⟨fun h0 => ?_, fun _ _ hv => ?_, fun _ _ hv => ?_⟩
    · rcases h0 with h0 | h0
      · rw [hl] at h0; cases h0
      · rw [hc] at h0; cases h0
    · rcases h with ⟨h, _⟩ | ⟨_, h⟩
      · rw [hv] at h; cases h
      · rw [h]
        exact ⟨rfl, rfl⟩
    · rcases h with ⟨_, h⟩ | ⟨h, _⟩
      · rw [h]
        exact ⟨rfl, rfl⟩
      · rw [hv] at h; cases h

set_option maxRecDepth 100000 in
/-- C23, failing input: the stylesheet "magic-new" is selected and the set
made from it does not validate.  After "Create Set" the dialog is still open
(`EndModal` has not been called) and `set` holds the new set; when the user
then closes the dialog, `new_set_wizard` returns that set. -/
theorem set_assigned_while_dialog_stays_open :
    ((NewSetWizard.create invalidSetEnv twoGameSettings).handle invalidSetEnv
        .clickNext).styleList.hasSelection = true ∧
    (NewSetWizard.handleAll invalidSetEnv (NewSetWizard.create invalidSetEnv twoGameSettings)
        [.clickNext, .clickCreate]).modalResult = none ∧
    (NewSetWizard.handleAll invalidSetEnv (NewSetWizard.create invalidSetEnv twoGameSettings)
        [.clickNext, .clickCreate]).set.map (fun p => p.name) = some "magic-new" ∧
    (new_set_wizard invalidSetEnv twoGameSettings [.clickNext, .clickCreate]).map
      (fun p => p.name) = some "magic-new" ∧
    (((NewSetWizard.create invalidSetEnv twoGameSettings).handle invalidSetEnv
        .clickNext).done invalidSetEnv).set.map (fun p => p.name) = some "magic-new" ∧
    (((NewSetWizard.create invalidSetEnv twoGameSettings).handle invalidSetEnv
        .clickNext).done invalidSetEnv).modalResult = none := by
  decide

set_option maxRecDepth 100000 in
/-- C23 at a concrete input, through the theorem. -/
theorem done_assigns_set_before_validating_witness :
    ((NewSetWizard.create invalidSetEnv twoGameSettings).handle invalidSetEnv
        .clickNext).styleList.hasSelection = true ∧
    (((NewSetWizard.create invalidSetEnv twoGameSettings).handle invalidSetEnv
        .clickNext).done invalidSetEnv).set
      = some { name := "magic-new", short_name := "New", full_name := "Modern frame",
               position_hint := 1 } ∧
    (((NewSetWizard.create invalidSetEnv twoGameSettings).handle invalidSetEnv
        .clickNext).done invalidSetEnv).modalResult = none :=
  have h := (done_assigns_set_before_validating invalidSetEnv
    ((NewSetWizard.create invalidSetEnv twoGameSettings).handle invalidSetEnv .clickNext)
    { name := "magic-new", short_name := "New", full_name := "Modern frame",
      position_hint := 1 } (by decide) (by decide)).2.2 rfl rfl rfl
  ⟨by decide, h.1, h.2.trans (by decide)⟩

/-! ## C22 -/

theorem getSelection_mem (g : StyledPackageGrid) (p : Packaged)
    (h : g.getSelection = some p) : ∃ d ∈ g.allPackages, d.package = p := by
  unfold StyledPackageGrid.getSelection at h
  split at h
  · cases h
  · split at h
    · cases h
    · next i _ =>
      cases hd : g.allPackages[i]? with
      | none => rw [hd] at h; cases h
      | some d =>
        rw [hd] at h
        cases h
        obtain ⟨hlt, he⟩ := List.getElem?_eq_some.mp hd
        exact ⟨d, he ▸ List.getElem_mem hlt, rfl⟩

theorem select_allPackages (g : StyledPackageGrid) (name : String) (send_event : Bool) :
    (g.select name send_event).1.allPackages = g.allPackages := by
  unfold StyledPackageGrid.select
  split <;> rfl

theorem onLeftClick_allPackages (g : StyledPackageGrid) (v : View) (x y : Int) :
    (g.onLeftClick v x y).1.allPackages = g.allPackages := by
  unfold StyledPackageGrid.onLeftClick
  dsimp only
  split <;> rfl

theorem sameStyles_refl (w : NewSetWizard) : w.sameStyles w := ⟨rfl, rfl, rfl⟩

theorem sameStyles_trans {a b c : NewSetWizard} (h1 : a.sameStyles b) (h2 : b.sameStyles c) :
    a.sameStyles c :=
  ⟨h2.1.trans h1.1, h2.2.1.trans h1.2.1, h2.2.2.trans h1.2.2⟩

theorem belong_of_sameStyles (env : WizardEnv) (s0 : Settings) {w w2 : NewSetWizard}
    (hs : w.sameStyles w2)
    (h : w.defaultsBelong env s0 ∧ w.stylesOfSelectedGame env) :
    w2.defaultsBelong env s0 ∧ w2.stylesOfSelectedGame env := by
  obtain ⟨h1, h2, h3⟩ := hs
  refine ⟨fun game => ?_, fun game hg d hd => ?_⟩
  · rw [h1]
    exact h.1 game
  · rw [h2] at hg
    rw [h3] at hd
    exact h.2 game hg d hd

theorem sameStyles_updateButtonStates (w : NewSetWizard) :
    w.sameStyles w.updateButtonStates := by
  unfold NewSetWizard.updateButtonStates
  split <;> exact ⟨rfl, rfl, rfl⟩

theorem sameStyles_showStep (w : NewSetWizard) (step : WizardStep) :
    w.sameStyles (w.showStep step) := by
  unfold NewSetWizard.showStep
  exact sameStyles_updateButtonStates
    { w with currentStep := step,
             gamePanelShown := decide (step = WizardStep.STEP_SELECT_GAME),
             stylePanelShown := decide (step = WizardStep.STEP_SELECT_STYLE) }

theorem sameStyles_onUpdateUI (w : NewSetWizard) (b : Bool) : w.sameStyles (w.onUpdateUI b) := by
  unfold NewSetWizard.onUpdateUI
  cases b <;> exact ⟨rfl, rfl, rfl⟩

theorem sameStyles_done (env : WizardEnv) (w : NewSetWizard) : w.sameStyles (w.done env) := by
  rcases done_cases env w with ⟨h, _⟩ | ⟨s, _, _, _, _, ⟨_, h⟩ | ⟨_, h⟩⟩
  · rw [h]; exact sameStyles_refl w
  · rw [h]; exact ⟨rfl, rfl, rfl⟩
  · rw [h]; exact ⟨rfl, rfl, rfl⟩

theorem sameStyles_setList (w : NewSetWizard) (id : ListId) (l : SearchablePackageList)
    (h : l.styledGrid.allPackages = (w.list id).styledGrid.allPackages) :
    w.sameStyles (w.setList id l) := by
  cases id with
  | ID_WIZARD_GAME_LIST => exact ⟨rfl, rfl, rfl⟩
  | ID_WIZARD_STYLE_LIST => exact ⟨rfl, rfl, h⟩

theorem list_setList (w : NewSetWizard) (id : ListId) (l : SearchablePackageList) :
    (w.setList id l).list id = l := by
  cases id <;> rfl

theorem belong_onStyleSelect (env : WizardEnv) (s0 : Settings) (w : NewSetWizard)
    (h : w.defaultsBelong env s0 ∧ w.stylesOfSelectedGame env) :
    w.onStyleSelect.defaultsBelong env s0 ∧ w.onStyleSelect.stylesOfSelectedGame env := by
  unfold NewSetWizard.onStyleSelect
  apply belong_of_sameStyles env s0 (sameStyles_updateButtonStates _)
  split
  · split
    · next game stylesheet hg hs =>
      obtain ⟨d, hd, hp⟩ := getSelection_mem _ _ hs
      have hin := h.2 game hg d hd
      rw [hp] at hin
      refine ⟨fun g => ?_, fun g2 hg2 d2 hd2 => h.2 g2 hg2 d2 hd2⟩
      by_cases hgn : g = game.name
      · right
        subst hgn
        exact ⟨stylesheet, hin, by simp⟩
      · have e : (if g = game.name then stylesheet.name else w.settings.default_stylesheet g)
            = w.settings.default_stylesheet g := if_neg hgn
        show (if g = game.name then stylesheet.name else w.settings.default_stylesheet g)
            = s0.default_stylesheet g ∨
          ∃ p ∈ env.findMatching (g ++ "-*" ++ ".mse-" ++ env.styleTypeName),
            p.name = (if g = game.name then stylesheet.name
              else w.settings.default_stylesheet g)
        rw [e]
        exact h.1 g
    · exact h
  · exact h

theorem belong_onSelectEvent (env : WizardEnv) (s0 : Settings) (w : NewSetWizard) (id : ListId)
    (h : w.defaultsBelong env s0 ∧ w.stylesOfSelectedGame env) :
    (w.onSelectEvent id).defaultsBelong env s0 ∧ (w.onSelectEvent id).stylesOfSelectedGame env := by
  cases id with
  | ID_WIZARD_GAME_LIST =>
    exact belong_of_sameStyles env s0 (sameStyles_updateButtonStates w) h
  | ID_WIZARD_STYLE_LIST => exact belong_onStyleSelect env s0 w h

theorem belong_filterBySearch (env : WizardEnv) (s0 : Settings) (w : NewSetWizard) (id : ListId)
    (text : String) (h : w.defaultsBelong env s0 ∧ w.stylesOfSelectedGame env) :
    (w.filterBySearch id text).defaultsBelong env s0 ∧
    (w.filterBySearch id text).stylesOfSelectedGame env := by
  unfold NewSetWizard.filterBySearch
  exact belong_onSelectEvent env s0 _ id
    (belong_of_sameStyles env s0 (sameStyles_setList w id _ rfl) h)

theorem belong_selectInList (env : WizardEnv) (s0 : Settings) (w : NewSetWizard) (id : ListId)
    (name : String) (send_event : Bool)
    (h : w.defaultsBelong env s0 ∧ w.stylesOfSelectedGame env) :
    (w.selectInList id name send_event).defaultsBelong env s0 ∧
    (w.selectInList id name send_event).stylesOfSelectedGame env := by
  unfold NewSetWizard.selectInList
  dsimp only
  have h1 := belong_of_sameStyles env s0
    (sameStyles_setList w id
      { w.list id with styledGrid := ((w.list id).styledGrid.select name send_event).1 }
      (select_allPackages _ _ _)) h
  split
  · exact belong_onSelectEvent env s0 _ id h1
  · exact h1

theorem showData_packages (g : StyledPackageGrid) (matching : List Packaged)
    (d : PackageData) (h : d ∈ (g.showData matching).allPackages) : d.package ∈ matching := by
  have h2 : d ∈ sortPackages
      (matching.map (fun p => ({ package := p, imageLoaded := false } : PackageData))) := h
  rw [mem_sortPackages, List.mem_map] at h2
  obtain ⟨p, hp, he⟩ := h2
  subst he
  exact hp

theorem belong_showDataInternal (env : WizardEnv) (s0 : Settings) (w : NewSetWizard)
    (id : ListId) (pattern : String) (hquiet : env.clearSendsText = false)
    (hd : w.defaultsBelong env s0)
    (hs : match id with
      | .ID_WIZARD_GAME_LIST => w.stylesOfSelectedGame env
      | .ID_WIZARD_STYLE_LIST => ∀ game, w.selectedGame = some game →
          pattern = game.name ++ "-*" ++ ".mse-" ++ env.styleTypeName) :
    (w.showDataInternal env id pattern).defaultsBelong env s0 ∧
    (w.showDataInternal env id pattern).stylesOfSelectedGame env := by
  unfold NewSetWizard.showDataInternal
  dsimp only
  rw [hquiet]
  simp only [Bool.false_eq_true, if_false]
  cases id with
  | ID_WIZARD_GAME_LIST => exact ⟨hd, hs⟩
  | ID_WIZARD_STYLE_LIST =>
    refine ⟨hd, fun game hg d hmem => ?_⟩
    have hp := hs game hg
    have hmem2 : d ∈ (StyledPackageGrid.showData _ (env.findMatching pattern)).allPackages :=
      hmem
    rw [← hp]
    exact showData_packages _ _ d hmem2

theorem belong_onGameNext (env : WizardEnv) (s0 : Settings) (w : NewSetWizard)
    (hquiet : env.clearSendsText = false)
    (h : w.defaultsBelong env s0 ∧ w.stylesOfSelectedGame env) :
    (w.onGameNext env).defaultsBelong env s0 ∧ (w.onGameNext env).stylesOfSelectedGame env := by
  unfold NewSetWizard.onGameNext
  split
  · exact h
  · split
    · exact h
    · next game _ =>
      dsimp only
      apply belong_of_sameStyles env s0 (sameStyles_showStep _ _)
      apply belong_selectInList
      apply belong_showDataInternal env s0 _ _ _ hquiet
      · exact h.1
      · intro g2 hg2
        cases hg2
        rfl

theorem belong_onLeftClick (env : WizardEnv) (s0 : Settings) (w : NewSetWizard) (id : ListId)
    (v : View) (x y : Int) (h : w.defaultsBelong env s0 ∧ w.stylesOfSelectedGame env) :
    (w.setList id { w.list id with
      styledGrid := ((w.list id).styledGrid.onLeftClick v x y).1 }).defaultsBelong env s0 ∧
    (w.setList id { w.list id with
      styledGrid := ((w.list id).styledGrid.onLeftClick v x y).1 }).stylesOfSelectedGame env :=
  belong_of_sameStyles env s0
    (sameStyles_setList w id _ (onLeftClick_allPackages _ _ _ _)) h

theorem belong_handle (env : WizardEnv) (s0 : Settings) (w : NewSetWizard) (ev : WizardEvent)
    (hquiet : env.clearSendsText = false)
    (h : w.defaultsBelong env s0 ∧ w.stylesOfSelectedGame env) :
    (w.handle env ev).defaultsBelong env s0 ∧ (w.handle env ev).stylesOfSelectedGame env := by
  cases ev with
  | leftDown id v x y =>
    have h1 := belong_onLeftClick env s0 w id v x y h
    show NewSetWizard.defaultsBelong env s0 (if _ then _ else _) ∧
      NewSetWizard.stylesOfSelectedGame env (if _ then _ else _)
    split
    · exact belong_onSelectEvent env s0 _ id h1
    · exact h1
  | leftDClick id v x y =>
    have h1 := belong_onLeftClick env s0 w id v x y h
    show NewSetWizard.defaultsBelong env s0 (if _ then _ else _) ∧
      NewSetWizard.stylesOfSelectedGame env (if _ then _ else _)
    split
    · cases id with
      | ID_WIZARD_GAME_LIST =>
        show NewSetWizard.defaultsBelong env s0 (NewSetWizard.onGameActivate env _) ∧
          NewSetWizard.stylesOfSelectedGame env (NewSetWizard.onGameActivate env _)
        unfold NewSetWizard.onGameActivate
        split
        · exact belong_onGameNext env s0 _ hquiet h1
        · exact h1
      | ID_WIZARD_STYLE_LIST =>
        show NewSetWizard.defaultsBelong env s0 (NewSetWizard.onStyleActivate env _) ∧
          NewSetWizard.stylesOfSelectedGame env (NewSetWizard.onStyleActivate env _)
        unfold NewSetWizard.onStyleActivate
        split
        · exact belong_of_sameStyles env s0 (sameStyles_done env _) h1
        · exact h1
    · exact h1
  | searchText id text =>
    exact belong_filterBySearch env s0 _ id text
      (belong_of_sameStyles env s0 (sameStyles_setList w id _ rfl) h)
  | clickNext =>
    show NewSetWizard.defaultsBelong env s0 (if _ then _ else _) ∧
      NewSetWizard.stylesOfSelectedGame env (if _ then _ else _)
    split
    · exact belong_onGameNext env s0 w hquiet h
    · exact h
  | clickBack => exact belong_of_sameStyles env s0 (sameStyles_showStep w _) h
  | clickCreate =>
    show NewSetWizard.defaultsBelong env s0 (if _ then _ else _) ∧
      NewSetWizard.stylesOfSelectedGame env (if _ then _ else _)
    split
    · exact belong_of_sameStyles env s0 (sameStyles_done env w) h
    · exact h
  | updateUI b => exact belong_of_sameStyles env s0 (sameStyles_onUpdateUI w b) h
  | idle => exact h

theorem belong_handleAll (env : WizardEnv) (s0 : Settings) (events : List WizardEvent)
    (hquiet : env.clearSendsText = false) :
    ∀ w : NewSetWizard, w.defaultsBelong env s0 ∧ w.stylesOfSelectedGame env →
    (NewSetWizard.handleAll env w events).defaultsBelong env s0 ∧
    (NewSetWizard.handleAll env w events).stylesOfSelectedGame env := by
  induction events with
  | nil => exact fun w h => h
  | cons ev rest ih => exact fun w h => ih _ (belong_handle env s0 w ev hquiet h)

theorem belong_create (env : WizardEnv) (s0 : Settings) (hquiet : env.clearSendsText = false) :
    (NewSetWizard.create env s0).defaultsBelong env s0 ∧
    (NewSetWizard.create env s0).stylesOfSelectedGame env := by
  unfold NewSetWizard.create
  dsimp only
  apply belong_of_sameStyles env s0 (sameStyles_onUpdateUI _ _)
  apply belong_of_sameStyles env s0 (sameStyles_onUpdateUI _ _)
  apply belong_selectInList
  have h0 : (NewSetWizard.showStep { settings := s0 } .STEP_SELECT_GAME).defaultsBelong env s0 ∧
      (NewSetWizard.showStep { settings := s0 } .STEP_SELECT_GAME).stylesOfSelectedGame env :=
    belong_of_sameStyles env s0 (sameStyles_showStep _ _)
      ⟨fun _ => Or.inl rfl, fun game hg => by cases hg⟩
  exact belong_showDataInternal env s0 _ .ID_WIZARD_GAME_LIST _ hquiet h0.1 h0.2

set_option maxRecDepth 100000 in
/-- C22, failing input: clearing the search box sends a text event.  The
user accepts "magic" (its default stylesheet "magic-new" is selected in the
style list), goes back, clicks "vs" and presses Next.  `onGameNext` sets
`selectedGame` to "vs" and reloads the style list; the reload first clears
the search box, which filters the list still loaded for "magic" and sends a
select event, and `onStyleSelect` stores the selected "magic-new" as the
default stylesheet of "vs".  "magic-new" is not among the stylesheets listed
for "vs", and the settings did not name it before.  Where clearing sends no
text event the same input stores nothing for "vs". -/
theorem default_stylesheet_of_other_game_stored :
    (NewSetWizard.handleAll twoGameEnv (NewSetWizard.create twoGameEnv twoGameSettings)
      [.clickNext, .clickBack, .leftDown .ID_WIZARD_GAME_LIST topView 200 50,
       .clickNext]).selectedGame.map (fun p => p.name) = some "vs" ∧
    (NewSetWizard.handleAll twoGameEnv (NewSetWizard.create twoGameEnv twoGameSettings)
      [.clickNext, .clickBack, .leftDown .ID_WIZARD_GAME_LIST topView 200 50,
       .clickNext]).settings.default_stylesheet "vs" = "magic-new" ∧
    twoGameSettings.default_stylesheet "vs" = "" ∧
    (twoGameEnv.findMatching ("vs" ++ "-*" ++ ".mse-" ++ twoGameEnv.styleTypeName)).map
      (fun p => p.name) = ["vs-standard"] ∧
    (NewSetWizard.handleAll twoGameEnv (NewSetWizard.create twoGameEnv twoGameSettings)
      [.clickNext, .clickBack, .leftDown .ID_WIZARD_GAME_LIST topView 200 50,
       .clickNext]).styleList.styledGrid.allPackages.map (fun d => d.package.name)
      = ["vs-standard"] ∧
    (NewSetWizard.handleAll quietEnv (NewSetWizard.create quietEnv twoGameSettings)
      [.clickNext, .clickBack, .leftDown .ID_WIZARD_GAME_LIST topView 200 50,
       .clickNext]).settings.default_stylesheet "vs" = "" := by
  decide

/-- C22, where the code keeps the property: on a platform where clearing the
search box sends no text event, in every state reached from the constructor
by events the default stylesheet stored for a game is the one the settings
named at the start or the name of a stylesheet that the package manager lists
for that game, and the style list holds only stylesheets of the selected
game. -/
theorem defaults_belong_without_text_event (env : WizardEnv) (settings : Settings)
    (events : List WizardEvent) (hquiet : env.clearSendsText = false) :
    (NewSetWizard.handleAll env (NewSetWizard.create env settings) events).defaultsBelong
      env settings ∧
    (NewSetWizard.handleAll env (NewSetWizard.create env settings) events).stylesOfSelectedGame
      env :=
  belong_handleAll env settings events hquiet _ (belong_create env settings hquiet)

set_option maxRecDepth 100000 in
/-- C22 at a concrete input without text events: the user clicks the second
stylesheet of "magic", and "magic-old" is stored for "magic". -/
theorem defaults_belong_without_text_event_witness :
    quietEnv.clearSendsText = false ∧
    (NewSetWizard.handleAll quietEnv (NewSetWizard.create quietEnv twoGameSettings)
      [.clickNext, .leftDown .ID_WIZARD_STYLE_LIST topView 200 50]).settings.default_stylesheet
        "magic" = "magic-old" ∧
    (NewSetWizard.handleAll quietEnv (NewSetWizard.create quietEnv twoGameSettings)
      [.clickNext, .leftDown .ID_WIZARD_STYLE_LIST topView 200 50]).defaultsBelong
        quietEnv twoGameSettings :=
  ⟨rfl, by decide,
   (defaults_belong_without_text_event quietEnv twoGameSettings
     [.clickNext, .leftDown .ID_WIZARD_STYLE_LIST topView 200 50] rfl).1⟩

end MSE
